import Mathlib

/-!
# Memory accounting pipeline of `memory_details.cc`

A shallow embedding of `MemoryDetails::CollectChildInfoOnIOThread`,
`MemoryDetails::CollectChildInfoOnUIThread` and `MemoryDetails::UpdateHistograms`.

Conventions of the embedding:
* `size_t` is a natural number reduced modulo `2 ^ 64`, `int` is an integer
  reduced into `[-2 ^ 31, 2 ^ 31)`;
* `std::vector` is `List`, a `for` loop over a container is a fold over the list;
* objects owned by the surrounding browser (render process hosts, views,
  navigation entries, the extension service) are records of the values their
  accessors return.
-/

namespace MemoryDetails

/-! ## Data model -/

/-- Values of `content::ProcessType` named in `memory_details.cc`; every other
value of the enum is `PROCESS_TYPE_OTHER`. -/
inductive ProcessType where
  | PROCESS_TYPE_UNKNOWN
  | PROCESS_TYPE_BROWSER
  | PROCESS_TYPE_RENDERER
  | PROCESS_TYPE_PLUGIN
  | PROCESS_TYPE_WORKER
  | PROCESS_TYPE_NACL_LOADER
  | PROCESS_TYPE_UTILITY
  | PROCESS_TYPE_ZYGOTE
  | PROCESS_TYPE_SANDBOX_HELPER
  | PROCESS_TYPE_NACL_BROKER
  | PROCESS_TYPE_GPU
  | PROCESS_TYPE_PPAPI_PLUGIN
  | PROCESS_TYPE_OTHER (code : Nat)
  deriving DecidableEq, Repr

/-- The enum `ProcessMemoryInformation::RendererProcessType`. -/
inductive RendererProcessType where
  | RENDERER_UNKNOWN
  | RENDERER_NORMAL
  | RENDERER_CHROME
  | RENDERER_EXTENSION
  | RENDERER_DEVTOOLS
  | RENDERER_INTERSTITIAL
  | RENDERER_NOTIFICATION
  | RENDERER_BACKGROUND_APP
  deriving DecidableEq, Repr

/-- Values of `content::ViewType` and `chrome::ViewType` named in
`memory_details.cc`; every other value is `VIEW_TYPE_OTHER`. -/
inductive ViewType where
  | VIEW_TYPE_DEV_TOOLS_UI
  | VIEW_TYPE_INTERSTITIAL_PAGE
  | VIEW_TYPE_BACKGROUND_CONTENTS
  | VIEW_TYPE_NOTIFICATION
  | VIEW_TYPE_OTHER (code : Nat)
  deriving DecidableEq, Repr

open ProcessType RendererProcessType ViewType

/-- A process identifier, `base::ProcessId` (`pid_t`). -/
abbrev ProcessId := Int

/-- A process handle, `base::ProcessHandle`. -/
abbrev ProcessHandle := Nat

/-- The working set figures of a process, in KB (`working_set`). -/
structure WorkingSetKBytes where
  priv : Nat := 0
  shareable : Nat := 0
  shared : Nat := 0
  deriving DecidableEq, Repr

/-- The record `ProcessMemoryInformation`; the defaults are those of its
constructor. -/
structure ProcessMemoryInformation where
  pid : ProcessId := 0
  working_set : WorkingSetKBytes := {}
  num_processes : Int := 0
  is_diagnostics : Bool := false
  titles : List String := []
  type : ProcessType := PROCESS_TYPE_UNKNOWN
  renderer_type : RendererProcessType := RENDERER_UNKNOWN
  deriving DecidableEq, Repr

/-- An entry of the child process registry, `content::ChildProcessData`, as
`BrowserChildProcessHostIterator::GetData` returns it. -/
structure ChildProcessData where
  type : ProcessType
  name : String
  handle : ProcessHandle
  deriving DecidableEq, Repr

/-! ## The enumerator, `CollectChildInfoOnIOThread` -/

/-- One round of the loop of `CollectChildInfoOnIOThread`: the record of one
registry entry is pushed on `child_info`, unless its pid is zero. -/
def collectChildInfoStep (GetProcId : ProcessHandle → ProcessId)
    (child_info : List ProcessMemoryInformation) (data : ChildProcessData) :
    List ProcessMemoryInformation :=
  let info : ProcessMemoryInformation := {}
  let info := { info with pid := GetProcId data.handle }
  if info.pid = 0 then
    child_info
  else
    let info := { info with type := data.type }
    let info := { info with renderer_type := RENDERER_UNKNOWN }
    let info := { info with titles := info.titles ++ [data.name] }
    child_info ++ [info]

/-- The vector `child_info` that `CollectChildInfoOnIOThread` hands to the
file thread, for the registry the iterator walks. -/
def CollectChildInfoOnIOThread (GetProcId : ProcessHandle → ProcessId)
    (registry : List ChildProcessData) : List ProcessMemoryInformation :=
  registry.foldl (collectChildInfoStep GetProcId) []

/-! ## Collaborators of the classifier -/

/-- A `content::NavigationEntry`, reduced to `GetVirtualURL().spec()`. -/
structure NavigationEntry where
  virtual_url_spec : String
  deriving DecidableEq, Repr

/-- A `content::WebContents`: `GetTitle()` and the two entries of
`GetController()`, each of which can be NULL. -/
structure WebContents where
  title : String
  pending_entry : Option NavigationEntry
  last_committed_entry : Option NavigationEntry
  deriving DecidableEq, Repr

/-- A `GURL`, reduced to `spec()` and `host()`. -/
structure GURL where
  spec : String
  host : String
  deriving DecidableEq, Repr

/-- A listener of a render process host, as the classifier reads it:
`IsRenderView()`, `GetEnabledBindings()`, `GetProcess()->GetID()`, and from
its delegate `GetURL()`, `GetRenderViewType()` and `GetAsWebContents()`. -/
structure RenderWidgetHost where
  is_render_view : Bool
  enabled_bindings : Nat
  process_id : Int
  url : GURL
  render_view_type : ViewType
  web_contents : Option WebContents
  deriving DecidableEq, Repr

/-- An `Extension`, reduced to `name()` and `is_hosted_app()`. -/
structure Extension where
  name : String
  is_hosted_app : Bool
  deriving DecidableEq, Repr

/-- The `extensions::ProcessMap` of a profile, by its two queries. -/
structure ProcessMap where
  Contains : Int → Bool
  GetExtensionsInProcess : Int → List String

/-- The `ExtensionService` of a profile: `process_map()`,
`GetExtensionById(id, include_disabled)` and `extensions()->GetByID(id)`. -/
structure ExtensionService where
  process_map : ProcessMap
  GetExtensionById : String → Bool → Option Extension
  extensions_GetByID : String → Option Extension

/-- A `content::RenderProcessHost`: `HasConnection()`, `GetHandle()`, the
extension service of the profile of `GetBrowserContext()`, and the listeners
in the order `ListenersIterator()` yields them. -/
structure RenderProcessHost where
  has_connection : Bool
  handle : ProcessHandle
  extension_service : ExtensionService
  listeners : List RenderWidgetHost

/-- What `CollectChildInfoOnUIThread` reads from the browser: `base::GetProcId`,
the hosts of `RenderProcessHost::AllHostsIterator()`, the string
`IDS_DEFAULT_TAB_TITLE`, and on Linux the zygote pid and the sandbox helper
pid of `ZygoteHost` (`none` where that block is compiled out). -/
structure UIThreadState where
  GetProcId : ProcessHandle → ProcessId
  all_hosts : List RenderProcessHost
  default_tab_title : String
  zygote : Option (ProcessId × ProcessId)

/-- Modelled from the spec: the constant `content::BINDINGS_POLICY_WEB_UI` of
bindings_policy.h, the bit of the privileged host bindings. -/
def BINDINGS_POLICY_WEB_UI : Nat := 1

/-- Modelled from the spec: the constant `chrome::kChromeUIMemoryURL` of
url_constants.h, the internal memory-inspection URL. -/
def kChromeUIMemoryURL : String := "chrome://memory/"

/-- Modelled from the spec: `ToLowerASCII` of base/string_util.h. -/
def ToLowerASCII (c : Char) : Char :=
  if 'A' ≤ c ∧ c ≤ 'Z' then Char.ofNat (c.toNat + 32) else c

/-- Modelled from the spec: `LowerCaseEqualsASCII(a, b)` of
base/string_util.h, on the characters of the two strings: every character of
`a`, lower-cased, equals the character of `b` at its place, and `b` ends
where `a` does. -/
def lowerCaseEqualsASCIIChars : List Char → List Char → Bool
  | [], b => b.isEmpty
  | _ :: _, [] => false
  | x :: a, y :: b => if ToLowerASCII x ≠ y then false else lowerCaseEqualsASCIIChars a b

/-- Modelled from the spec: `LowerCaseEqualsASCII` of base/string_util.h. -/
def LowerCaseEqualsASCII (a b : String) : Bool :=
  lowerCaseEqualsASCIIChars a.data b.data

/-! ## The classifier of `CollectChildInfoOnUIThread` -/

/-- The test `host->GetEnabledBindings() & content::BINDINGS_POLICY_WEB_UI`. -/
def hasWebUIBindings (host : RenderWidgetHost) : Bool :=
  host.enabled_bindings &&& BINDINGS_POLICY_WEB_UI != 0

/-- The loop over `extension_ids`: the first id that resolves to an extension
which is not a hosted app sets `RENDERER_EXTENSION` and leaves the loop. -/
def scanExtensionIds (extension_service : ExtensionService)
    (process : ProcessMemoryInformation) : List String → ProcessMemoryInformation
  | [] => process
  | id :: rest =>
    match extension_service.GetExtensionById id false with
    | some extension =>
      if !extension.is_hosted_app then
        { process with renderer_type := RENDERER_EXTENSION }
      else
        scanExtensionIds extension_service process rest
    | none => scanExtensionIds extension_service process rest

/-- The `if` / `else if` on the bindings and the extension process map. -/
def classifyBindings (extension_service : ExtensionService)
    (process : ProcessMemoryInformation) (host : RenderWidgetHost) :
    ProcessMemoryInformation :=
  if hasWebUIBindings host then
    if host.render_view_type = VIEW_TYPE_DEV_TOOLS_UI then
      { process with renderer_type := RENDERER_DEVTOOLS }
    else
      { process with renderer_type := RENDERER_CHROME }
  else if extension_service.process_map.Contains host.process_id then
    scanExtensionIds extension_service process
      (extension_service.process_map.GetExtensionsInProcess host.process_id)
  else
    process

/-- The `switch (type)` of a view without web contents. -/
def rendererTypeOfViewType : ViewType → RendererProcessType
  | VIEW_TYPE_BACKGROUND_CONTENTS => RENDERER_BACKGROUND_APP
  | VIEW_TYPE_INTERSTITIAL_PAGE => RENDERER_INTERSTITIAL
  | VIEW_TYPE_NOTIFICATION => RENDERER_NOTIFICATION
  | _ => RENDERER_UNKNOWN

/-- The branch `if (!contents) { ... continue; }`. -/
def classifyNoContents (extension_service : ExtensionService)
    (process : ProcessMemoryInformation) (host : RenderWidgetHost) :
    ProcessMemoryInformation :=
  if extension_service.process_map.Contains host.process_id then
    match extension_service.extensions_GetByID host.url.host with
    | some extension => { process with titles := process.titles ++ [extension.name] }
    | none => process
  else if process.renderer_type = RENDERER_UNKNOWN then
    let process := { process with titles := process.titles ++ [host.url.spec] }
    { process with renderer_type := rendererTypeOfViewType host.render_view_type }
  else
    process

/-- The test on the last committed entry and the pending entry. -/
def isMemoryURLEntry (entry : Option NavigationEntry) : Bool :=
  match entry with
  | some e => LowerCaseEqualsASCII e.virtual_url_spec kChromeUIMemoryURL
  | none => false

/-- The rest of the loop body for a view with web contents. -/
def classifyContents (default_tab_title : String)
    (process : ProcessMemoryInformation) (contents : WebContents) :
    ProcessMemoryInformation :=
  let process :=
    if process.renderer_type = RENDERER_UNKNOWN then
      { process with renderer_type := RENDERER_NORMAL }
    else process
  let title := contents.title
  let title := if title.length = 0 then default_tab_title else title
  let process := { process with titles := process.titles ++ [title] }
  if isMemoryURLEntry contents.last_committed_entry ||
      isMemoryURLEntry contents.pending_entry then
    { process with is_diagnostics := true }
  else
    process

/-- The body of the loop over the listeners of a matched render process
host. -/
def classifyListener (extension_service : ExtensionService)
    (default_tab_title : String) (process : ProcessMemoryInformation)
    (widget : RenderWidgetHost) : ProcessMemoryInformation :=
  if !widget.is_render_view then
    process
  else
    let process := classifyBindings extension_service process widget
    match widget.web_contents with
    | none => classifyNoContents extension_service process widget
    | some contents => classifyContents default_tab_title process contents

/-- The body of the loop over `AllHostsIterator()`, for one record. -/
def classifyRenderProcessHost (state : UIThreadState)
    (process : ProcessMemoryInformation) (render_process_host : RenderProcessHost) :
    ProcessMemoryInformation :=
  if !render_process_host.has_connection ||
      process.pid != state.GetProcId render_process_host.handle then
    process
  else
    let process := { process with type := PROCESS_TYPE_RENDERER }
    render_process_host.listeners.foldl
      (classifyListener render_process_host.extension_service state.default_tab_title)
      process

/-- The block `#if defined(OS_POSIX) ...` on the zygote and the sandbox
helper. -/
def classifyZygote (zygote : Option (ProcessId × ProcessId))
    (process : ProcessMemoryInformation) : ProcessMemoryInformation :=
  match zygote with
  | none => process
  | some (zygote_pid, sandbox_helper_pid) =>
    if process.pid = zygote_pid then
      { process with type := PROCESS_TYPE_ZYGOTE }
    else if process.pid = sandbox_helper_pid then
      { process with type := PROCESS_TYPE_SANDBOX_HELPER }
    else
      process

/-- The body of the first loop of `CollectChildInfoOnUIThread`, for the
record at one index. -/
def classifyProcess (state : UIThreadState) (process : ProcessMemoryInformation) :
    ProcessMemoryInformation :=
  classifyZygote state.zygote (state.all_hosts.foldl (classifyRenderProcessHost state) process)

/-- The first loop of `CollectChildInfoOnUIThread`: every record of
`chrome_browser->processes` is classified in place. -/
def classifyProcesses (state : UIThreadState) (processes : List ProcessMemoryInformation) :
    List ProcessMemoryInformation :=
  processes.map (classifyProcess state)

/-! ## The foreign profile filter at the end of `CollectChildInfoOnUIThread` -/

/-- The number of values of a `size_t`. -/
def SIZE_T_MODULUS : Nat := 2 ^ 64

/-- The loop
`for (index = 0; index < processes.size(); index++)
   if (processes[index].type == PROCESS_TYPE_UNKNOWN)
     { processes.erase(processes.begin() + index); index--; }`
run from `index`, for at most `fuel` tests of the loop condition. `index` is a
`size_t`: `index--` and `index++` wrap around. -/
def eraseUnknownLoop : Nat → Nat → List ProcessMemoryInformation →
    Option (List ProcessMemoryInformation)
  | 0, _, _ => none
  | fuel + 1, index, processes =>
    if h : index < processes.length then
      if (processes.get ⟨index, h⟩).type = PROCESS_TYPE_UNKNOWN then
        let processes := processes.eraseIdx index
        let index := (index + SIZE_T_MODULUS - 1) % SIZE_T_MODULUS
        eraseUnknownLoop fuel ((index + 1) % SIZE_T_MODULUS) processes
      else
        eraseUnknownLoop fuel ((index + 1) % SIZE_T_MODULUS) processes
    else
      some processes

/-- The filter loop from index 0, with fuel for one test of the loop
condition per record and the last, failing, test. -/
def eraseUnknownProcesses (processes : List ProcessMemoryInformation) :
    Option (List ProcessMemoryInformation) :=
  eraseUnknownLoop (processes.length + 1) 0 processes

/-! ## The emitter, `UpdateHistograms` -/

/-- The conversion of an integer value to `int`. -/
def toInt32 (x : Int) : Int :=
  (x + 2 ^ 31) % 2 ^ 32 - 2 ^ 31

/-- The conversion of an integer value to `size_t`. -/
def toSizeT (x : Int) : Nat :=
  (x % (SIZE_T_MODULUS : Int)).toNat

/-- The three families of histogram the emitter writes to:
`UMA_HISTOGRAM_MEMORY_KB`, `UMA_HISTOGRAM_MEMORY_MB` and
`UMA_HISTOGRAM_COUNTS_100`. -/
inductive HistogramKind where
  | MEMORY_KB
  | MEMORY_MB
  | COUNTS_100
  deriving DecidableEq, Repr

open HistogramKind

/-- One sample added to a named histogram. -/
structure HistogramSample where
  kind : HistogramKind
  name : String
  sample : Int
  deriving DecidableEq, Repr

/-- The local variables of `UpdateHistograms`, and the samples emitted so
far, oldest first. -/
structure HistogramState where
  aggregate_memory : Nat := 0
  chrome_count : Int := 0
  extension_count : Int := 0
  plugin_count : Int := 0
  pepper_plugin_count : Int := 0
  renderer_count : Int := 0
  other_count : Int := 0
  worker_count : Int := 0
  emitted : List HistogramSample := []
  deriving DecidableEq, Repr

/-- The statement `UMA_HISTOGRAM_MEMORY_KB(name, sample)`. -/
def emitKB (st : HistogramState) (name : String) (sample : Int) : HistogramState :=
  { st with emitted := st.emitted ++ [⟨MEMORY_KB, name, sample⟩] }

/-- The statement `UMA_HISTOGRAM_COUNTS_100(name, sample)`. -/
def emitCount (st : HistogramState) (name : String) (sample : Int) : HistogramState :=
  { st with emitted := st.emitted ++ [⟨COUNTS_100, name, sample⟩] }

/-- The `switch` on the process type in the loop of `UpdateHistograms`, with
the nested `switch` on the renderer type: the size sample and the counter of
one record. -/
def recordSample (st : HistogramState) (type : ProcessType)
    (renderer_type : RendererProcessType) (sample : Int) : HistogramState :=
  match type with
  | PROCESS_TYPE_BROWSER => emitKB st "Memory.Browser" sample
  | PROCESS_TYPE_RENDERER =>
    match renderer_type with
    | RENDERER_EXTENSION =>
      let st := emitKB st "Memory.Extension" sample
      { st with extension_count := st.extension_count + 1 }
    | RENDERER_CHROME =>
      let st := emitKB st "Memory.Chrome" sample
      { st with chrome_count := st.chrome_count + 1 }
    | RENDERER_UNKNOWN => st
    | _ =>
      let st := emitKB st "Memory.Renderer" sample
      { st with renderer_count := st.renderer_count + 1 }
  | PROCESS_TYPE_PLUGIN =>
    let st := emitKB st "Memory.Plugin" sample
    { st with plugin_count := st.plugin_count + 1 }
  | PROCESS_TYPE_WORKER =>
    let st := emitKB st "Memory.Worker" sample
    { st with worker_count := st.worker_count + 1 }
  | PROCESS_TYPE_UTILITY =>
    let st := emitKB st "Memory.Utility" sample
    { st with other_count := st.other_count + 1 }
  | PROCESS_TYPE_ZYGOTE =>
    let st := emitKB st "Memory.Zygote" sample
    { st with other_count := st.other_count + 1 }
  | PROCESS_TYPE_SANDBOX_HELPER =>
    let st := emitKB st "Memory.SandboxHelper" sample
    { st with other_count := st.other_count + 1 }
  | PROCESS_TYPE_NACL_LOADER =>
    let st := emitKB st "Memory.NativeClient" sample
    { st with other_count := st.other_count + 1 }
  | PROCESS_TYPE_NACL_BROKER =>
    let st := emitKB st "Memory.NativeClientBroker" sample
    { st with other_count := st.other_count + 1 }
  | PROCESS_TYPE_GPU =>
    let st := emitKB st "Memory.Gpu" sample
    { st with other_count := st.other_count + 1 }
  | PROCESS_TYPE_PPAPI_PLUGIN =>
    let st := emitKB st "Memory.PepperPlugin" sample
    { st with pepper_plugin_count := st.pepper_plugin_count + 1 }
  | _ => st

/-- The body of the loop of `UpdateHistograms`, for one record: the private
working set as an `int`, added to the `size_t` aggregate, then the `switch`. -/
def updateHistogramsStep (st : HistogramState) (process : ProcessMemoryInformation) :
    HistogramState :=
  let sample := toInt32 process.working_set.priv
  let st := { st with aggregate_memory := toSizeT (st.aggregate_memory + sample) }
  recordSample st process.type process.renderer_type sample

/-- The state of `UpdateHistograms` when its loop over the records ends. -/
def updateHistogramsLoop (processes : List ProcessMemoryInformation) : HistogramState :=
  processes.foldl updateHistogramsStep {}

/-- The value `total_sample` of `UpdateHistograms`. -/
def totalSample (processes : List ProcessMemoryInformation) : Int :=
  toInt32 ((updateHistogramsLoop processes).aggregate_memory / 1000)

/-- The samples `UpdateHistograms` emits, in order, for the records of
`ChromeBrowser()` and the value of
`RenderWidgetHost::BackingStoreMemorySize()`. -/
def UpdateHistograms (backing_store_memory_size : Nat)
    (processes : List ProcessMemoryInformation) : List HistogramSample :=
  let st := updateHistogramsLoop processes
  let st := emitKB st "Memory.BackingStore" (toInt32 (backing_store_memory_size / 1024))
  let st := emitCount st "Memory.ProcessCount" (toInt32 processes.length)
  let st := emitCount st "Memory.ChromeProcessCount" st.chrome_count
  let st := emitCount st "Memory.ExtensionProcessCount" st.extension_count
  let st := emitCount st "Memory.OtherProcessCount" st.other_count
  let st := emitCount st "Memory.PluginProcessCount" st.plugin_count
  let st := emitCount st "Memory.PepperPluginProcessCount" st.pepper_plugin_count
  let st := emitCount st "Memory.RendererProcessCount" st.renderer_count
  let st := emitCount st "Memory.WorkerProcessCount" st.worker_count
  let total_sample := totalSample processes
  st.emitted ++ [⟨MEMORY_MB, "Memory.Total", total_sample⟩]

/-! ## The UI stage as a whole -/

/-- What `CollectChildInfoOnUIThread` leaves behind: the records handed to
`OnDetailsAvailable` and the samples `UpdateHistograms` emitted. -/
structure UIThreadResult where
  processes : List ProcessMemoryInformation
  histograms : List HistogramSample
  deriving DecidableEq, Repr

/-- The records `CollectChildInfoOnUIThread` hands to `OnDetailsAvailable`:
the classified records that pass the foreign profile filter. -/
def deliveredProcesses (state : UIThreadState)
    (processes : List ProcessMemoryInformation) : Option (List ProcessMemoryInformation) :=
  eraseUnknownProcesses (classifyProcesses state processes)

/-- The stage `CollectChildInfoOnUIThread`: classification, the foreign
profile filter, `UpdateHistograms`, then `OnDetailsAvailable`. -/
def CollectChildInfoOnUIThread (state : UIThreadState) (backing_store_memory_size : Nat)
    (processes : List ProcessMemoryInformation) : Option UIThreadResult :=
  match deliveredProcesses state processes with
  | none => none
  | some processes =>
    some { processes := processes
           histograms := UpdateHistograms backing_store_memory_size processes }

/-! ## The run of the UI stage, with `NOTREACHED()`

`NOTREACHED()` of base/logging.h is `DCHECK(false)`: in a build with DCHECKs
it ends the process, in a build without them it does nothing. Whether the
DCHECKs are compiled in is the parameter `dcheck_is_on`. -/

/-- The `switch` on the process type in the loop of `UpdateHistograms`, with
the nested `switch` on the renderer type, read for its two `NOTREACHED()`
statements: whether the record reaches one of them. -/
def reachesNotReached (type : ProcessType) (renderer_type : RendererProcessType) : Bool :=
  match type with
  | PROCESS_TYPE_BROWSER => false
  | PROCESS_TYPE_RENDERER =>
    match renderer_type with
    | RENDERER_EXTENSION => false
    | RENDERER_CHROME => false
    | RENDERER_UNKNOWN => true
    | _ => false
  | PROCESS_TYPE_PLUGIN => false
  | PROCESS_TYPE_WORKER => false
  | PROCESS_TYPE_UTILITY => false
  | PROCESS_TYPE_ZYGOTE => false
  | PROCESS_TYPE_SANDBOX_HELPER => false
  | PROCESS_TYPE_NACL_LOADER => false
  | PROCESS_TYPE_NACL_BROKER => false
  | PROCESS_TYPE_GPU => false
  | PROCESS_TYPE_PPAPI_PLUGIN => false
  | _ => true

/-- The loop of `UpdateHistograms` over the records, from the state `st`:
`none` when a record reaches a `NOTREACHED()` that ends the process, the
state when the loop ends otherwise. -/
def updateHistogramsLoopRun (dcheck_is_on : Bool) :
    HistogramState → List ProcessMemoryInformation → Option HistogramState
  | st, [] => some st
  | st, process :: rest =>
    if dcheck_is_on && reachesNotReached process.type process.renderer_type then
      none
    else
      updateHistogramsLoopRun dcheck_is_on (updateHistogramsStep st process) rest

/-- A call of `UpdateHistograms()`: `none` when the process ends at a
`NOTREACHED()` of the loop, the samples emitted by the call when it
returns. -/
def updateHistogramsRun (dcheck_is_on : Bool) (backing_store_memory_size : Nat)
    (processes : List ProcessMemoryInformation) : Option (List HistogramSample) :=
  match updateHistogramsLoopRun dcheck_is_on {} processes with
  | none => none
  | some st =>
    let st := emitKB st "Memory.BackingStore" (toInt32 (backing_store_memory_size / 1024))
    let st := emitCount st "Memory.ProcessCount" (toInt32 processes.length)
    let st := emitCount st "Memory.ChromeProcessCount" st.chrome_count
    let st := emitCount st "Memory.ExtensionProcessCount" st.extension_count
    let st := emitCount st "Memory.OtherProcessCount" st.other_count
    let st := emitCount st "Memory.PluginProcessCount" st.plugin_count
    let st := emitCount st "Memory.PepperPluginProcessCount" st.pepper_plugin_count
    let st := emitCount st "Memory.RendererProcessCount" st.renderer_count
    let st := emitCount st "Memory.WorkerProcessCount" st.worker_count
    let total_sample := toInt32 (st.aggregate_memory / 1000)
    some (st.emitted ++ [⟨MEMORY_MB, "Memory.Total", total_sample⟩])

/-- What the UI stage does after its first loop, as seen from outside: a call
of `UpdateHistograms()` that returned, with the samples it emitted; the end
of the process at a `NOTREACHED()`; a call of the consumer callback
`OnDetailsAvailable()`, with the records of `ChromeBrowser()` at the call. -/
inductive UIThreadEvent where
  | updateHistogramsReturned (samples : List HistogramSample)
  | processEndedAtNotReached
  | onDetailsAvailable (processes : List ProcessMemoryInformation)
  deriving DecidableEq, Repr

/-- The run of `CollectChildInfoOnUIThread`, statement by statement: the
first loop classifies the records, the second loop erases the records of
role Unknown, then `UpdateHistograms();` and `OnDetailsAvailable();`. The
result is the events of the run, oldest first; `none` when the fuel of the
filter loop runs out. -/
def collectChildInfoOnUIThreadRun (dcheck_is_on : Bool) (state : UIThreadState)
    (backing_store_memory_size : Nat) (processes : List ProcessMemoryInformation) :
    Option (List UIThreadEvent) :=
  let processes := classifyProcesses state processes
  match eraseUnknownProcesses processes with
  | none => none
  | some processes =>
    match updateHistogramsRun dcheck_is_on backing_store_memory_size processes with
    | none => some [UIThreadEvent.processEndedAtNotReached]
    | some samples =>
      some [UIThreadEvent.updateHistogramsReturned samples,
            UIThreadEvent.onDetailsAvailable processes]

/-- The event is a call of the consumer callback `OnDetailsAvailable`. -/
def isOnDetailsAvailable : UIThreadEvent → Bool
  | UIThreadEvent.onDetailsAvailable _ => true
  | _ => false

/-! ## Reference definitions, in the words of the specification -/

/-- The record test of the plain list filter: the role is not Unknown. -/
def roleKnown (p : ProcessMemoryInformation) : Bool :=
  p.type != PROCESS_TYPE_UNKNOWN

/-- The record the specification asks of the Enumerator for one registry
entry: its pid, its role, renderer kind Unknown, no diagnostics flag, and
the name of the entry as the single title. -/
def recordOfEntry (GetProcId : ProcessHandle → ProcessId) (data : ChildProcessData) :
    ProcessMemoryInformation :=
  { pid := GetProcId data.handle
    type := data.type
    renderer_type := RENDERER_UNKNOWN
    is_diagnostics := false
    titles := [data.name] }

/-- The record set of a request: the output of the Enumerator, classified
and filtered. -/
def enumeratedAndDelivered (GetProcId : ProcessHandle → ProcessId)
    (registry : List ChildProcessData) (state : UIThreadState) :
    Option (List ProcessMemoryInformation) :=
  deliveredProcesses state (CollectChildInfoOnIOThread GetProcId registry)

/-- The sum of the private working sets of the records, in KB. -/
def sumWorkingSetPrivate (processes : List ProcessMemoryInformation) : Nat :=
  (processes.map (fun p => p.working_set.priv)).sum

/-- The kilobyte histogram a record is sampled into, by role and, for a
Renderer, by renderer kind; `none` when the record yields no size sample. -/
def sizeHistogramName (type : ProcessType) (renderer_type : RendererProcessType) :
    Option String :=
  match type with
  | PROCESS_TYPE_BROWSER => some "Memory.Browser"
  | PROCESS_TYPE_RENDERER =>
    match renderer_type with
    | RENDERER_EXTENSION => some "Memory.Extension"
    | RENDERER_CHROME => some "Memory.Chrome"
    | RENDERER_UNKNOWN => none
    | _ => some "Memory.Renderer"
  | PROCESS_TYPE_PLUGIN => some "Memory.Plugin"
  | PROCESS_TYPE_WORKER => some "Memory.Worker"
  | PROCESS_TYPE_UTILITY => some "Memory.Utility"
  | PROCESS_TYPE_ZYGOTE => some "Memory.Zygote"
  | PROCESS_TYPE_SANDBOX_HELPER => some "Memory.SandboxHelper"
  | PROCESS_TYPE_NACL_LOADER => some "Memory.NativeClient"
  | PROCESS_TYPE_NACL_BROKER => some "Memory.NativeClientBroker"
  | PROCESS_TYPE_GPU => some "Memory.Gpu"
  | PROCESS_TYPE_PPAPI_PLUGIN => some "Memory.PepperPlugin"
  | _ => none

/-- The size samples a record adds to an emission: one sample of its private
working set, as an `int`, in the histogram of its role, or none. -/
def sizeSamples (process : ProcessMemoryInformation) : List HistogramSample :=
  match sizeHistogramName process.type process.renderer_type with
  | some name => [⟨MEMORY_KB, name, toInt32 process.working_set.priv⟩]
  | none => []

/-- The samples of an emission that went to the histogram `name`. -/
def samplesNamed (name : String) (emitted : List HistogramSample) : List HistogramSample :=
  emitted.filter (fun s => s.name = name)

/-- Two strings are equal when ASCII case is ignored. -/
def equalsIgnoringASCIICase (a b : String) : Prop :=
  a.data.map ToLowerASCII = b.data.map ToLowerASCII

/-- A navigation entry is present and its virtual URL spec is the memory
inspection URL, ASCII case ignored. -/
def showsMemoryURL (entry : Option NavigationEntry) : Prop :=
  ∃ e, entry = some e ∧ equalsIgnoringASCIICase e.virtual_url_spec kChromeUIMemoryURL

/-- The record is matched to the render process host: the host is connected
and its pid is the pid of the record. -/
def matchesHost (state : UIThreadState) (process : ProcessMemoryInformation)
    (host : RenderProcessHost) : Bool :=
  host.has_connection && process.pid == state.GetProcId host.handle

/-- The hosts of the registry a record is matched to, in registry order. -/
def matchedHosts (state : UIThreadState) (process : ProcessMemoryInformation) :
    List RenderProcessHost :=
  state.all_hosts.filter (matchesHost state process)

/-- The view surfaces of a render process host, in listener order. -/
def viewSurfaces (host : RenderProcessHost) : List RenderWidgetHost :=
  host.listeners.filter (fun w => w.is_render_view)

/-- The process of the view is registered in the extension process map of
the service with an id that resolves to an installed extension which is not
a hosted app. -/
def hostsPackagedExtension (service : ExtensionService) (w : RenderWidgetHost) : Prop :=
  service.process_map.Contains w.process_id = true ∧
  ∃ id ∈ service.process_map.GetExtensionsInProcess w.process_id,
    ∃ e, service.GetExtensionById id false = some e ∧ e.is_hosted_app = false

/-- Every extension id in the process of the view resolves to a hosted app
or does not resolve. -/
def hostsOnlyHostedApps (service : ExtensionService) (w : RenderWidgetHost) : Prop :=
  ∀ id ∈ service.process_map.GetExtensionsInProcess w.process_id,
    ∀ e, service.GetExtensionById id false = some e → e.is_hosted_app = true

/-- The record `after` refines the record `before`: same pid, same working
set figures, the titles of `before` are a prefix of those of `after`, a set
diagnostics flag stays set and a renderer kind other than Unknown does not
go back to Unknown. -/
def refines (before after : ProcessMemoryInformation) : Prop :=
  after.pid = before.pid ∧
  after.working_set = before.working_set ∧
  before.titles <+: after.titles ∧
  (after.is_diagnostics = true ∨ before.is_diagnostics = false) ∧
  (after.renderer_type ≠ RENDERER_UNKNOWN ∨ before.renderer_type = RENDERER_UNKNOWN)

/-- The record is counted in "Memory.ChromeProcessCount". -/
def countsAsChrome (p : ProcessMemoryInformation) : Bool :=
  p.type == PROCESS_TYPE_RENDERER && p.renderer_type == RENDERER_CHROME

/-- The record is counted in "Memory.ExtensionProcessCount". -/
def countsAsExtension (p : ProcessMemoryInformation) : Bool :=
  p.type == PROCESS_TYPE_RENDERER && p.renderer_type == RENDERER_EXTENSION

/-- The record is counted in "Memory.RendererProcessCount": a Renderer of
kind Normal, Devtools, Interstitial, Notification or BackgroundApp. -/
def countsAsRenderer (p : ProcessMemoryInformation) : Bool :=
  p.type == PROCESS_TYPE_RENDERER &&
    (p.renderer_type == RENDERER_NORMAL || p.renderer_type == RENDERER_DEVTOOLS ||
     p.renderer_type == RENDERER_INTERSTITIAL || p.renderer_type == RENDERER_NOTIFICATION ||
     p.renderer_type == RENDERER_BACKGROUND_APP)

/-- The record is counted in "Memory.PluginProcessCount". -/
def countsAsPlugin (p : ProcessMemoryInformation) : Bool :=
  p.type == PROCESS_TYPE_PLUGIN

/-- The record is counted in "Memory.PepperPluginProcessCount". -/
def countsAsPepperPlugin (p : ProcessMemoryInformation) : Bool :=
  p.type == PROCESS_TYPE_PPAPI_PLUGIN

/-- The record is counted in "Memory.WorkerProcessCount". -/
def countsAsWorker (p : ProcessMemoryInformation) : Bool :=
  p.type == PROCESS_TYPE_WORKER

/-- The record is counted in "Memory.OtherProcessCount": Utility, Zygote,
SandboxHelper, NativeClientLoader, NativeClientBroker or Gpu. -/
def countsAsOther (p : ProcessMemoryInformation) : Bool :=
  p.type == PROCESS_TYPE_UTILITY || p.type == PROCESS_TYPE_ZYGOTE ||
  p.type == PROCESS_TYPE_SANDBOX_HELPER || p.type == PROCESS_TYPE_NACL_LOADER ||
  p.type == PROCESS_TYPE_NACL_BROKER || p.type == PROCESS_TYPE_GPU

/-- The number of records with the given renderer kind and role Renderer. -/
def renderersOfKind (kind : RendererProcessType)
    (processes : List ProcessMemoryInformation) : Nat :=
  processes.countP (fun p => p.type == PROCESS_TYPE_RENDERER && p.renderer_type == kind)

/-- The eight count samples of an emission, in the order of the statements
of `UpdateHistograms`, with the number of records as an `int` and the number
of records each counter stands for. -/
def countSamples (processes : List ProcessMemoryInformation) : List HistogramSample :=
  [⟨COUNTS_100, "Memory.ProcessCount", toInt32 processes.length⟩,
   ⟨COUNTS_100, "Memory.ChromeProcessCount", processes.countP countsAsChrome⟩,
   ⟨COUNTS_100, "Memory.ExtensionProcessCount", processes.countP countsAsExtension⟩,
   ⟨COUNTS_100, "Memory.OtherProcessCount", processes.countP countsAsOther⟩,
   ⟨COUNTS_100, "Memory.PluginProcessCount", processes.countP countsAsPlugin⟩,
   ⟨COUNTS_100, "Memory.PepperPluginProcessCount", processes.countP countsAsPepperPlugin⟩,
   ⟨COUNTS_100, "Memory.RendererProcessCount", processes.countP countsAsRenderer⟩,
   ⟨COUNTS_100, "Memory.WorkerProcessCount", processes.countP countsAsWorker⟩]

/-- The samples of an emission of the given family. -/
def samplesOfKind (kind : HistogramKind) (emitted : List HistogramSample) :
    List HistogramSample :=
  emitted.filter (fun s => s.kind = kind)

/-- The renderer kind a view surface yields on its own: the kind of a fresh
record, of kind Unknown, after the surface alone is visited. -/
def kindYieldedAlone (service : ExtensionService) (w : RenderWidgetHost) :
    RendererProcessType :=
  (classifyListener service "" {} w).renderer_type

/-- The renderer kind of a record after the given surfaces are visited in
order. -/
def kindAfter (service : ExtensionService) (title : String)
    (process : ProcessMemoryInformation) (surfaces : List RenderWidgetHost) :
    RendererProcessType :=
  (surfaces.foldl (classifyListener service title) process).renderer_type

/-- The surface matches the first or the second refinement rule: it has
privileged bindings, or its process is registered in the extension process
map with an installed extension that is not a hosted app. -/
def matchesOverridingRule (service : ExtensionService) (w : RenderWidgetHost) : Prop :=
  hasWebUIBindings w = true ∨ hostsPackagedExtension service w

/-- The title attributed to a web contents: its title, or the default tab
title when it is empty. -/
def tabTitle (default_tab_title : String) (contents : WebContents) : String :=
  if contents.title.length = 0 then default_tab_title else contents.title

/-- What the emitter reads of a record: its role, its renderer kind and its
private working set. -/
def histogramKey (p : ProcessMemoryInformation) : ProcessType × RendererProcessType × Nat :=
  (p.type, p.renderer_type, p.working_set.priv)

/-- The role lies in the closed taxonomy of the specification: it is one of
the twelve roles the source names. -/
def inTaxonomy : ProcessType → Bool
  | PROCESS_TYPE_OTHER _ => false
  | _ => true

/-- The record has role Browser. -/
def isBrowser (p : ProcessMemoryInformation) : Bool :=
  p.type == PROCESS_TYPE_BROWSER

/-! ## Sample inputs -/

/-- An extension service of a profile without extensions. -/
def noExtensions : ExtensionService :=
  ⟨⟨fun _ => false, fun _ => []⟩, fun _ _ => none, fun _ => none⟩

/-- On POSIX a process handle is the pid. -/
def posixGetProcId : ProcessHandle → ProcessId := fun handle => (handle : Int)

/-- A browser state with one connected render process host, pid 200, that
has no listener. -/
def stateHostWithoutViews : UIThreadState :=
  ⟨posixGetProcId, [⟨true, 200, noExtensions, []⟩], "New Tab", none⟩

/-- A browser state without render process hosts. -/
def stateWithoutHosts : UIThreadState :=
  ⟨posixGetProcId, [], "New Tab", none⟩

/-- A registry in which two entries resolve to pid 5. -/
def registryWithRepeatedPid : List ChildProcessData :=
  [⟨PROCESS_TYPE_GPU, "GPU", 5⟩, ⟨PROCESS_TYPE_PLUGIN, "Flash", 5⟩]

/-- A registry with a pid zero entry between two live ones. -/
def registryWithDeadEntry : List ChildProcessData :=
  [⟨PROCESS_TYPE_GPU, "GPU", 5⟩, ⟨PROCESS_TYPE_PLUGIN, "Flash", 0⟩,
   ⟨PROCESS_TYPE_PLUGIN, "Flash", 7⟩]

/-- A view without web contents, outside the extension process map, whose
view type is none of those the classifier names. -/
def plainViewWithoutContents : RenderWidgetHost :=
  ⟨true, 0, 7, ⟨"chrome-extension://abc/popup.html", "abc"⟩, VIEW_TYPE_OTHER 0, none⟩

/-- A browser state with one connected render process host, pid 200, whose
only listener is `plainViewWithoutContents`. -/
def stateHostWithPlainView : UIThreadState :=
  ⟨posixGetProcId, [⟨true, 200, noExtensions, [plainViewWithoutContents]⟩], "New Tab", none⟩

/-- The records of scenario S1 after classification: a browser with 50000 KB
and a normal renderer with 80000 KB. -/
def recordsOfS1 : List ProcessMemoryInformation :=
  [{ pid := 100, type := PROCESS_TYPE_BROWSER, working_set := { priv := 50000 },
     titles := ["Browser"] },
   { pid := 200, type := PROCESS_TYPE_RENDERER, renderer_type := RENDERER_NORMAL,
     working_set := { priv := 80000 }, titles := ["Example"] }]

/-- A browser record whose private working set is `2 ^ 31` KB. -/
def recordsWithHugeWorkingSet : List ProcessMemoryInformation :=
  [{ pid := 100, type := PROCESS_TYPE_BROWSER, working_set := { priv := 2147483648 } }]

/-- The tab of scenario S3: a web contents view titled "Example" whose last
committed virtual URL is the memory page in upper case. -/
def memoryTab : RenderWidgetHost :=
  ⟨true, 0, 1, ⟨"https://example.com/", "example.com"⟩, VIEW_TYPE_OTHER 0,
    some ⟨"Example", none, some ⟨"CHROME://MEMORY/"⟩⟩⟩

/-- The browser state of scenario S3: one connected host, pid 200, with the
tab `memoryTab`. -/
def stateOfS3 : UIThreadState :=
  ⟨posixGetProcId, [⟨true, 200, noExtensions, [memoryTab]⟩], "New Tab", none⟩

/-- The records that enter classification in scenarios S1 and S3. -/
def recordsBeforeClassification : List ProcessMemoryInformation :=
  [{ pid := 100, type := PROCESS_TYPE_BROWSER, working_set := { priv := 50000 } },
   { pid := 200, working_set := { priv := 80000 } }]

/-- An extension service in whose process map every process holds the one
id "hosted", which resolves to a hosted app. -/
def hostedOnlyService : ExtensionService :=
  ⟨⟨fun _ => true, fun _ => ["hosted"]⟩,
    fun _ _ => some ⟨"Hosted App", true⟩, fun _ => some ⟨"Hosted App", true⟩⟩

/-- The extension service of scenario S4: the process holds the ids
"hosted", a hosted app, and "packaged", a packaged extension. -/
def mixedService : ExtensionService :=
  ⟨⟨fun _ => true, fun _ => ["hosted", "packaged"]⟩,
    fun id _ => if id = "packaged" then some ⟨"Packaged", false⟩ else some ⟨"Hosted App", true⟩,
    fun _ => some ⟨"Packaged", false⟩⟩

/-- A tab without privileged bindings showing a page of a hosted app. -/
def appTab : RenderWidgetHost :=
  ⟨true, 0, 4, ⟨"https://app.example.com/", "app.example.com"⟩, VIEW_TYPE_OTHER 0,
    some ⟨"App", none, none⟩⟩

/-- The background page of an extension: a view without web contents and
without privileged bindings. -/
def backgroundPage : RenderWidgetHost :=
  ⟨true, 0, 4, ⟨"chrome-extension://packaged/bg.html", "packaged"⟩, VIEW_TYPE_OTHER 0, none⟩

/-- The view of scenario S5: privileged bindings and the developer tools
view type. -/
def devtoolsView : RenderWidgetHost :=
  ⟨true, 1, 5, ⟨"chrome-devtools://devtools/devtools.html", "devtools"⟩,
    VIEW_TYPE_DEV_TOOLS_UI, some ⟨"Developer Tools", none, none⟩⟩

/-- The host of the hosted app process: pid 400, one tab. -/
def hostedAppHost : RenderProcessHost := ⟨true, 400, hostedOnlyService, [appTab]⟩

/-- The host of scenario S4: pid 400, one background page. -/
def extensionHost : RenderProcessHost := ⟨true, 400, mixedService, [backgroundPage]⟩

/-- The host of scenario S5: pid 500, a tab followed by the developer tools
view, in the extension process map. -/
def devtoolsHost : RenderProcessHost := ⟨true, 500, mixedService, [appTab, devtoolsView]⟩

/-- A browser state whose registry holds the one host given. -/
def stateWithHost (host : RenderProcessHost) : UIThreadState :=
  ⟨posixGetProcId, [host], "New Tab", none⟩

/-- A browser state on Linux without render process hosts: the zygote has
pid 10 and the sandbox helper pid 11. -/
def stateWithZygote : UIThreadState :=
  ⟨posixGetProcId, [], "New Tab", some (10, 11)⟩

/-- The record set of scenario S6 with a second record: pid 10 and pid 11,
both of role Unknown. -/
def recordsOfS6 : List ProcessMemoryInformation :=
  [{ pid := 10, titles := ["Zygote"] }, { pid := 11 }]

/-- A plugin record whose pid is the pid of the connected host of
`stateHostWithoutViews`. -/
def pluginRecordWithRendererPid : List ProcessMemoryInformation :=
  [{ pid := 200, type := PROCESS_TYPE_PLUGIN, titles := ["Flash"] }]

/-- A renderer record of kind Devtools. -/
def devtoolsRecord : List ProcessMemoryInformation :=
  [{ pid := 500, type := PROCESS_TYPE_RENDERER, renderer_type := RENDERER_DEVTOOLS,
     working_set := { priv := 30000 }, titles := ["Developer Tools"] }]

/-- A view with privileged bindings and web contents titled "Settings". -/
def settingsView : RenderWidgetHost :=
  ⟨true, 1, 5, ⟨"chrome://settings/", "settings"⟩, VIEW_TYPE_OTHER 0,
    some ⟨"Settings", none, none⟩⟩

/-- A background contents view: no web contents, no privileged bindings. -/
def backgroundContentsView : RenderWidgetHost :=
  ⟨true, 0, 5, ⟨"https://app.example.com/background.html", "app.example.com"⟩,
    VIEW_TYPE_BACKGROUND_CONTENTS, none⟩

/-- A connected host, pid 500, outside every extension process map, whose
views are the settings view followed by a normal tab. -/
def settingsThenTabHost : RenderProcessHost :=
  ⟨true, 500, noExtensions, [settingsView, appTab]⟩

/-- A connected host, pid 500, whose only view is the settings view. -/
def settingsHost : RenderProcessHost :=
  ⟨true, 500, noExtensions, [settingsView]⟩

/-- A connected host, pid 500, outside every extension process map, whose
views are a normal tab followed by a background contents view. -/
def tabThenBackgroundHost : RenderProcessHost :=
  ⟨true, 500, noExtensions, [appTab, backgroundContentsView]⟩

/-- The records of scenario S1 once more, with other pids and titles and
the diagnostics flag set on the renderer. -/
def recordsOfS1Diagnostics : List ProcessMemoryInformation :=
  [{ pid := 1, type := PROCESS_TYPE_BROWSER, working_set := { priv := 50000 } },
   { pid := 2, type := PROCESS_TYPE_RENDERER, renderer_type := RENDERER_NORMAL,
     working_set := { priv := 80000 }, titles := ["About Memory"], is_diagnostics := true }]

end MemoryDetails

/-!
# The request parser of `extension_icon_source.cc`

A shallow embedding of `ExtensionIconSource::ParseData` and
`ExtensionIconSource::SetData`. The functions of `base/` the parser calls
and the constants of headers outside the sources are fields of `Deps`.
-/

namespace ExtensionIconSource

/-- An installed extension, as `GetInstalledExtension` returns it. -/
structure Extension where
  id : String
  deriving DecidableEq, Repr

/-- A `content::URLDataSource::GotDataCallback`, by a tag. -/
abbrev GotDataCallback := Nat

/-- The record `ExtensionIconSource::ExtensionIconRequest`; `match_type` is
an `ExtensionIconSet::MatchType`, an enum kept as its integer value. -/
structure ExtensionIconRequest where
  callback : GotDataCallback
  extension : Extension
  grayscale : Bool
  size : Int
  match_type : Int
  deriving DecidableEq, Repr

/-- The member `request_map_`, from request ids to requests. -/
abbrev RequestMap := Int → Option ExtensionIconRequest

/-- What `ParseData` uses from outside the file: `base::SplitString` and
`base::StringToInt` (`none` when it returns false), the constant
`extension_misc::EXTENSION_ICON_GIGANTOR`, the three enumerators of
`ExtensionIconSet::MatchType`, and `GetInstalledExtension` of the extension
service of the profile (`none` for NULL). -/
structure Deps where
  SplitString : String → Char → List String
  StringToInt : String → Option Int
  EXTENSION_ICON_GIGANTOR : Int
  MATCH_EXACTLY : Int
  MATCH_SMALLER : Int
  MATCH_BIGGER : Int
  GetInstalledExtension : String → Option Extension

/-- The function `StringToLowerASCII` of base/string_util.h. -/
def StringToLowerASCII (s : String) : String :=
  ⟨s.data.map MemoryDetails.ToLowerASCII⟩

/-- The expression `match_param.substr(0, match_param.find('?'))`: the
characters before the first question mark, all of them when there is none. -/
def truncateAtQuestionMark (match_param : String) : String :=
  ⟨match_param.data.takeWhile (fun c => c != '?')⟩

/-- The test `path_lower.find("grayscale=true") != std::string::npos`. -/
def containsGrayscale (path_lower : String) : Bool :=
  decide ("grayscale=true".data <:+: path_lower.data)

/-- The method `SetData`: a new request is stored under `request_id`. -/
def SetData (request_map : RequestMap) (request_id : Int) (callback : GotDataCallback)
    (extension : Extension) (grayscale : Bool) (size : Int) (match_type : Int) : RequestMap :=
  fun id =>
    if id = request_id then
      some { callback := callback, extension := extension, grayscale := grayscale,
             size := size, match_type := match_type }
    else request_map id

/-- The conversion of `match_num` to a `MatchType`, with every value that
is none of the three enumerators replaced by `MATCH_EXACTLY`. -/
def toMatchType (deps : Deps) (match_num : Int) : Int :=
  let match_type := match_num
  if !(match_type == deps.MATCH_EXACTLY || match_type == deps.MATCH_SMALLER ||
      match_type == deps.MATCH_BIGGER) then
    deps.MATCH_EXACTLY
  else
    match_type

/-- The method `ParseData`: its return value and `request_map_` after the
call. -/
def ParseData (deps : Deps) (request_map : RequestMap) (path : String) (request_id : Int)
    (callback : GotDataCallback) : Bool × RequestMap :=
  let path_lower := StringToLowerASCII path
  let path_parts := deps.SplitString path_lower '/'
  if path_lower.data.isEmpty || path_parts.length < 3 then
    (false, request_map)
  else
    let size_param := path_parts.getD 1 ""
    let match_param := path_parts.getD 2 ""
    let match_param := truncateAtQuestionMark match_param
    match deps.StringToInt size_param with
    | none => (false, request_map)
    | some size =>
      if size ≤ 0 || size > deps.EXTENSION_ICON_GIGANTOR then
        (false, request_map)
      else
        match deps.StringToInt match_param with
        | none => (false, request_map)
        | some match_num =>
          let match_type := toMatchType deps match_num
          let extension_id := path_parts.getD 0 ""
          match deps.GetInstalledExtension extension_id with
          | none => (false, request_map)
          | some extension =>
            let grayscale := containsGrayscale path_lower
            (true, SetData request_map request_id callback extension grayscale size match_type)

/-- The condition of the specification for a request path: the lower-cased
path splits on '/' into at least three parts, the second parses as a size in
`(0, EXTENSION_ICON_GIGANTOR]`, the third, truncated at the first '?',
parses as an integer, and the first is the id of an installed extension. -/
def wellFormedPath (deps : Deps) (path : String) : Prop :=
  3 ≤ (deps.SplitString (StringToLowerASCII path) '/').length ∧
  (∃ size, deps.StringToInt ((deps.SplitString (StringToLowerASCII path) '/').getD 1 "") =
      some size ∧ 0 < size ∧ size ≤ deps.EXTENSION_ICON_GIGANTOR) ∧
  (∃ match_num, deps.StringToInt
      (truncateAtQuestionMark ((deps.SplitString (StringToLowerASCII path) '/').getD 2 "")) =
      some match_num) ∧
  (∃ extension, deps.GetInstalledExtension
      ((deps.SplitString (StringToLowerASCII path) '/').getD 0 "") = some extension)

/-- A parser environment for examples: the path "abc/16/7" splits into its
three parts and every other path into none, "16" and "7" parse as integers,
the largest size is 512, the match types are 0, 1 and 2, and "abc" is the
one installed extension. -/
def sampleDeps : Deps :=
  { SplitString := fun s _ => if s = "abc/16/7" then ["abc", "16", "7"] else []
    StringToInt := fun s => if s = "16" then some 16 else if s = "7" then some 7 else none
    EXTENSION_ICON_GIGANTOR := 512
    MATCH_EXACTLY := 0
    MATCH_SMALLER := 1
    MATCH_BIGGER := 2
    GetInstalledExtension := fun id => if id = "abc" then some ⟨"abc"⟩ else none }

end ExtensionIconSource

/-!
# The extra information of `ssl_blocking_page.cc`

A shallow embedding of `SSLBlockingPage::SetExtraInfo`.
-/

namespace SSLBlockingPage

/-- A `DictionaryValue` of strings: the keys with their values, in the order
in which the keys were first set. -/
abbrev DictionaryValue := List (String × String)

/-- The method `DictionaryValue::SetString`: the value of `key` is set, and
replaced when the key is present. -/
def SetString (strings : DictionaryValue) (key value : String) : DictionaryValue :=
  if strings.any (fun entry => entry.1 == key) then
    strings.map (fun entry => if entry.1 == key then (key, value) else entry)
  else
    strings ++ [(key, value)]

/-- The value of a key of the dictionary. -/
def GetString (strings : DictionaryValue) (key : String) : Option String :=
  (strings.find? (fun entry => entry.1 == key)).map (fun entry => entry.2)

/-- The conversion `WideToUTF16Hack`: strings are modelled without their
encoding, so the conversion keeps the string. -/
def WideToUTF16Hack (wide : String) : String := wide

/-- The array `keys` of `SetExtraInfo`. -/
def keys : List String :=
  ["moreInfo1", "moreInfo2", "moreInfo3", "moreInfo4", "moreInfo5"]

/-- The first loop of `SetExtraInfo`, from index `i`: the paragraph at index
`i` is stored under `keys[i]`. The result is the dictionary and the index
when the loop ends, or `none` when an index outside the array `keys` is
used. -/
def setParagraphs (strings : DictionaryValue) : List String → Nat →
    Option (DictionaryValue × Nat)
  | [], i => some (strings, i)
  | paragraph :: rest, i =>
    match keys[i]? with
    | none => none
    | some key =>
      setParagraphs (SetString strings key (WideToUTF16Hack paragraph)) rest (i + 1)

/-- The second loop of `SetExtraInfo`, `for (; i < 5; i++)`, with fuel for
its at most five rounds: the empty string is stored under `keys[i]`. -/
def clearRemainingKeys : Nat → DictionaryValue → Nat → Option DictionaryValue
  | 0, strings, _ => some strings
  | fuel + 1, strings, i =>
    if i < 5 then
      match keys[i]? with
      | none => none
      | some key => clearRemainingKeys fuel (SetString strings key "") (i + 1)
    else
      some strings

/-- What a call of `SetExtraInfo` does: whether the condition of its
`DCHECK` holds, and the dictionary after the two loops (`none` when an index
outside the array `keys` is used). -/
structure SetExtraInfoResult where
  dcheck_holds : Bool
  strings : Option DictionaryValue
  deriving DecidableEq, Repr

/-- The method `SetExtraInfo`. -/
def SetExtraInfo (strings : DictionaryValue) (extra_info : List String) :
    SetExtraInfoResult :=
  { dcheck_holds := decide (extra_info.length < 5)
    strings :=
      match setParagraphs strings extra_info 0 with
      | none => none
      | some (strings, i) => clearRemainingKeys 5 strings i }

/-- The dictionary the specification asks for: key `i` holds the paragraph
at index `i` when there is one and the empty string otherwise. -/
def expectedExtraInfo (extra_info : List String) : DictionaryValue :=
  [("moreInfo1", extra_info.getD 0 ""), ("moreInfo2", extra_info.getD 1 ""),
   ("moreInfo3", extra_info.getD 2 ""), ("moreInfo4", extra_info.getD 3 ""),
   ("moreInfo5", extra_info.getD 4 "")]

/-- Five paragraphs of extra information. -/
def fiveParagraphs : List String :=
  ["first", "second", "third", "fourth", "fifth"]

end SSLBlockingPage

/-!
# The input methods of `chromeos/input_method/input_method_util.cc`

A shallow embedding of `NormalizeLanguageCode`, `IsKeyboardLayout`,
`GetInputMethodIdsFromLanguageCodeInternal` and
`GetFirstLoginInputMethodIds`. A `std::string` is a `String` whose
characters are the `char`s of the string.
-/

namespace InputMethodUtil

/-- Modelled from the spec: `ToUpperASCII` of base/string_util.h. -/
def ToUpperASCII (c : Char) : Char :=
  if 'a' ≤ c ∧ c ≤ 'z' then Char.ofNat (c.toNat - 32) else c

/-- The array `kIso639VariantMapping`. -/
def kIso639VariantMapping : List (String × String) :=
  [("cze", "ces"), ("ger", "deu"), ("gre", "ell"), ("scr", "hrv"), ("rum", "ron"),
   ("slo", "slk")]

/-- The loop `for (size_t i = 0; i < 2; ++i)` of `NormalizeLanguageCode`:
the characters at the indices 0 and 1 are lower-cased in place. -/
def downcaseLanguagePart (copied_language_code : List Char) : List Char :=
  (List.range 2).foldl
    (fun copied i => copied.set i (MemoryDetails.ToLowerASCII (copied.getD i ' ')))
    copied_language_code

/-- The loop `for (size_t i = 3; i < copied_language_code.size(); ++i)` of
`NormalizeLanguageCode`: the characters from index 3 on are upper-cased in
place. -/
def upcaseCountryPart (copied_language_code : List Char) : List Char :=
  (List.range' 3 (copied_language_code.length - 3)).foldl
    (fun copied i => copied.set i (ToUpperASCII (copied.getD i ' ')))
    copied_language_code

/-- The loop of `NormalizeLanguageCode` over `kIso639VariantMapping`. -/
def convertSpecialLanguageCode (language_code : String) : String :=
  kIso639VariantMapping.foldl
    (fun copied_language_code entry =>
      if language_code = entry.1 then entry.2 else copied_language_code)
    language_code

/-- The function `NormalizeLanguageCode`. The function `uloc_getLanguage` of
ICU is a parameter: it gives the two-letter code, or `none` when it
fails. -/
def NormalizeLanguageCode (uloc_getLanguage : String → Option String)
    (language_code : String) : String :=
  if 5 ≤ language_code.data.length ∧ language_code.data[2]? = some '_' then
    let copied_language_code := language_code.data.set 2 '-'
    let copied_language_code := downcaseLanguagePart copied_language_code
    let copied_language_code := upcaseCountryPart copied_language_code
    ⟨copied_language_code⟩
  else if language_code.data.length ≠ 3 then
    language_code
  else
    let copied_language_code := convertSpecialLanguageCode language_code
    match uloc_getLanguage copied_language_code with
    | none => language_code
    | some two_letter_code => two_letter_code

/-- The locale codes of the first branch of `NormalizeLanguageCode`: at
least five characters, with `_` at index 2. -/
def isLocaleCode (language_code : String) : Prop :=
  5 ≤ language_code.data.length ∧ language_code.data[2]? = some '_'

instance (language_code : String) : Decidable (isLocaleCode language_code) := by
  unfold isLocaleCode
  infer_instance

/-- The class `InputMethodDescriptor`, with the fields the file reads. -/
structure InputMethodDescriptor where
  id : String
  display_name : String
  keyboard_layout : String
  language_code : String
  deriving DecidableEq, Repr

/-- The enumeration `InputMethodType`. -/
inductive InputMethodType where
  | kKeyboardLayoutsOnly
  | kAllInputMethods
  deriving DecidableEq, Repr

/-- The maps of `IdMaps` the two functions read. The multimap
`language_code_to_ids` is the list of its pairs in the order of its
iteration; the map `id_to_descriptor` is its lookup. -/
structure IdMaps where
  language_code_to_ids : List (String × String)
  id_to_descriptor : String → Option InputMethodDescriptor

/-- Modelled from the spec: `StartsWithASCII(str, search, case_sensitive)` of
base/string_util.h. -/
def StartsWithASCII (str search : String) (case_sensitive : Bool) : Bool :=
  if case_sensitive then
    search.data.isPrefixOf str.data
  else
    (search.data.map MemoryDetails.ToLowerASCII).isPrefixOf
      (str.data.map MemoryDetails.ToLowerASCII)

/-- The function `IsKeyboardLayout`. -/
def IsKeyboardLayout (input_method_id : String) : Bool :=
  let kCaseInsensitive := false
  StartsWithASCII input_method_id "xkb:" kCaseInsensitive

/-- The function `GetInputMethodDescriptorFromId`. -/
def GetInputMethodDescriptorFromId (maps : IdMaps) (input_method_id : String) :
    Option InputMethodDescriptor :=
  maps.id_to_descriptor input_method_id

/-- The range `equal_range(normalized_language_code)` of the multimap. -/
def equal_range (language_code_to_ids : List (String × String))
    (normalized_language_code : String) : List (String × String) :=
  language_code_to_ids.filter (fun entry => entry.1 == normalized_language_code)

/-- The function `GetInputMethodIdsFromLanguageCodeInternal`: the returned
flag and the output vector. -/
def GetInputMethodIdsFromLanguageCodeInternal
    (language_code_to_ids : List (String × String)) (normalized_language_code : String)
    (type : InputMethodType) : Bool × List String :=
  (equal_range language_code_to_ids normalized_language_code).foldl
    (fun state entry =>
      let input_method_id := entry.2
      if type = InputMethodType.kAllInputMethods || IsKeyboardLayout input_method_id then
        (true, state.2 ++ [input_method_id])
      else
        state)
    (false, [])

/-- The function `GetInputMethodIdsFromLanguageCode`. -/
def GetInputMethodIdsFromLanguageCode (maps : IdMaps) (normalized_language_code : String)
    (type : InputMethodType) : Bool × List String :=
  GetInputMethodIdsFromLanguageCodeInternal maps.language_code_to_ids
    normalized_language_code type

/-- The loop of `GetFirstLoginInputMethodIds` over `input_method_ids`, with
its `break`: the value of `most_popular_id` when the loop ends. -/
def findMostPopularId (maps : IdMaps) (current_input_method : InputMethodDescriptor) :
    List String → String → String
  | [], most_popular_id => most_popular_id
  | input_method_id :: rest, most_popular_id =>
    let most_popular_id := if most_popular_id = "" then input_method_id else most_popular_id
    match GetInputMethodDescriptorFromId maps input_method_id with
    | some descriptor =>
      if descriptor.id ≠ current_input_method.id ∧
          descriptor.keyboard_layout = current_input_method.keyboard_layout then
        input_method_id
      else
        findMostPopularId maps current_input_method rest most_popular_id
    | none => findMostPopularId maps current_input_method rest most_popular_id

/-- The function `GetFirstLoginInputMethodIds`: the output vector. -/
def GetFirstLoginInputMethodIds (maps : IdMaps) (language_code : String)
    (current_input_method : InputMethodDescriptor) : List String :=
  let out_input_method_ids := [current_input_method.id]
  let input_method_ids :=
    (GetInputMethodIdsFromLanguageCode maps language_code
      InputMethodType.kAllInputMethods).2
  let most_popular_id := findMostPopularId maps current_input_method input_method_ids ""
  if most_popular_id ≠ current_input_method.id then
    out_input_method_ids ++ [most_popular_id]
  else
    out_input_method_ids

/-- The input method ids associated with a language code: the ids of the
pairs of the multimap with this code, in order. -/
def associatedIds (maps : IdMaps) (language_code : String) : List String :=
  (maps.language_code_to_ids.filter (fun entry => entry.1 = language_code)).map
    (fun entry => entry.2)

/-- The US keyboard layout as a descriptor. -/
def usKeyboard : InputMethodDescriptor :=
  { id := "xkb:us::eng", display_name := "USA", keyboard_layout := "us",
    language_code := "eng" }

/-- Maps in which no input method is associated with any language code. -/
def emptyMaps : IdMaps :=
  { language_code_to_ids := [], id_to_descriptor := fun _ => none }

/-- The Japanese input methods of the comment of
`GetFirstLoginInputMethodIds`: `mozc` with the US layout, `mozc-jp` with the
JP layout. -/
def mozcMaps : IdMaps :=
  { language_code_to_ids := [("ja", "mozc-jp"), ("ja", "mozc"), ("en-US", "xkb:us::eng")]
    id_to_descriptor := fun id =>
      if id = "mozc" then some ⟨"mozc", "Mozc", "us", "ja"⟩
      else if id = "mozc-jp" then some ⟨"mozc-jp", "Mozc", "jp", "ja"⟩
      else if id = "xkb:us::eng" then some usKeyboard
      else none }

end InputMethodUtil

/-! ## Theorems -/

namespace MemoryDetails

open ProcessType RendererProcessType ViewType HistogramKind



/-! ### The foreign profile filter -/

theorem sizeT_dec_inc (index : Nat) (h : index < SIZE_T_MODULUS) :
    ((index + SIZE_T_MODULUS - 1) % SIZE_T_MODULUS + 1) % SIZE_T_MODULUS = index := by
  unfold SIZE_T_MODULUS at *
  omega

theorem eraseUnknownLoop_append (suf : List ProcessMemoryInformation) :
    ∀ (fuel : Nat) (pre : List ProcessMemoryInformation),
      (pre ++ suf).length < SIZE_T_MODULUS → suf.length < fuel →
      eraseUnknownLoop fuel pre.length (pre ++ suf) = some (pre ++ suf.filter roleKnown) := by
  induction suf with
  | nil =>
    intro fuel pre _ hfuel
    cases fuel with
    | zero => simp at hfuel
    | succ fuel => simp [eraseUnknownLoop]
  | cons x rest ih =>
    intro fuel pre hlen hfuel
    cases fuel with
    | zero => simp at hfuel
    | succ fuel =>
      have hidx : pre.length < (pre ++ x :: rest).length := by simp
      have hget : (pre ++ x :: rest).get ⟨pre.length, hidx⟩ = x := by
        rw [List.get_eq_getElem, List.getElem_append_right (le_refl _)]
        simp
      have hfuel2 : rest.length < fuel := by simpa using hfuel
      unfold eraseUnknownLoop
      rw [dif_pos hidx, hget]
      by_cases hx : x.type = PROCESS_TYPE_UNKNOWN
      · rw [if_pos hx]
        have herase : (pre ++ x :: rest).eraseIdx pre.length = pre ++ rest := by
          rw [List.eraseIdx_append_of_length_le (le_refl _)]
          simp
        have hpre : pre.length < SIZE_T_MODULUS := by
          simp at hlen; omega
        have hlen2 : (pre ++ rest).length < SIZE_T_MODULUS := by
          simp at hlen ⊢; omega
        simp only [herase, sizeT_dec_inc pre.length hpre]
        rw [ih fuel pre hlen2 hfuel2]
        simp [List.filter_cons, roleKnown, hx]
      · rw [if_neg hx]
        have hmod : (pre.length + 1) % SIZE_T_MODULUS = (pre ++ [x]).length := by
          simp at hlen ⊢
          exact Nat.mod_eq_of_lt (by omega)
        have happ : pre ++ x :: rest = (pre ++ [x]) ++ rest := by simp
        have hlen2 : ((pre ++ [x]) ++ rest).length < SIZE_T_MODULUS := by
          rw [← happ]; exact hlen
        rw [hmod, happ, ih fuel (pre ++ [x]) hlen2 hfuel2]
        simp [List.filter_cons, roleKnown, hx]

theorem eraseUnknownProcesses_eq_filter (processes : List ProcessMemoryInformation)
    (hlen : processes.length < SIZE_T_MODULUS) :
    eraseUnknownProcesses processes = some (processes.filter roleKnown) := by
  have h := eraseUnknownLoop_append processes (processes.length + 1) [] (by simpa using hlen)
    (Nat.lt_succ_self _)
  simpa [eraseUnknownProcesses] using h

/-- C1: the erase-and-decrement loop of the foreign profile filter, run from
index 0 on a vector whose size fits a `size_t`, returns exactly the plain list
filter that keeps the records whose role is not Unknown: a subsequence in the
original order, every kept record is not Unknown, every record that is not
Unknown is kept. This holds for any fuel above the number of records. -/
theorem filter_loop_eq_list_filter (processes : List ProcessMemoryInformation)
    (fuel : Nat) (hlen : processes.length < SIZE_T_MODULUS) (hfuel : processes.length < fuel) :
    eraseUnknownLoop fuel 0 processes = some (processes.filter roleKnown) ∧
    List.Sublist (processes.filter roleKnown) processes ∧
    (∀ p ∈ processes.filter roleKnown, p.type ≠ PROCESS_TYPE_UNKNOWN) ∧
    (∀ p ∈ processes, p.type ≠ PROCESS_TYPE_UNKNOWN → p ∈ processes.filter roleKnown) ∧
    (∀ p ∈ processes, p.type = PROCESS_TYPE_UNKNOWN → p ∉ processes.filter roleKnown) := by
  refine ⟨?_, List.filter_sublist _, ?_, ?_, ?_⟩
  · simpa using eraseUnknownLoop_append processes fuel [] (by simpa using hlen) hfuel
  · intro p hp
    simpa [roleKnown] using (List.mem_filter.mp hp).2
  · intro p hp hne
    exact List.mem_filter.mpr ⟨hp, by simpa [roleKnown] using hne⟩
  · intro p _ hun hmem
    have := (List.mem_filter.mp hmem).2
    simp [roleKnown, hun] at this

/-- A run of Unknown records at index 0, a kept record, and an Unknown
record at the end. -/
theorem filter_loop_eq_list_filter_witness :
    eraseUnknownLoop 5 0
      [{ pid := 300 }, { pid := 301 }, { pid := 1, type := PROCESS_TYPE_GPU }, { pid := 302 }] =
      some [{ pid := 1, type := PROCESS_TYPE_GPU }] :=
  (filter_loop_eq_list_filter
    [{ pid := 300 }, { pid := 301 }, { pid := 1, type := PROCESS_TYPE_GPU }, { pid := 302 }]
    5 (by decide) (by decide)).1

/-! ### The enumerator -/

theorem foldl_collectChildInfoStep (GetProcId : ProcessHandle → ProcessId)
    (registry : List ChildProcessData) :
    ∀ child_info : List ProcessMemoryInformation,
      registry.foldl (collectChildInfoStep GetProcId) child_info =
        child_info ++
          (registry.filter (fun d => GetProcId d.handle != 0)).map (recordOfEntry GetProcId) := by
  induction registry with
  | nil => intro child_info; simp
  | cons d rest ih =>
    intro child_info
    rw [List.foldl_cons, ih]
    by_cases hd : GetProcId d.handle = 0
    · simp [collectChildInfoStep, hd, List.filter_cons]
    · simp [collectChildInfoStep, hd, List.filter_cons, recordOfEntry]

theorem collectChildInfo_eq (GetProcId : ProcessHandle → ProcessId)
    (registry : List ChildProcessData) :
    CollectChildInfoOnIOThread GetProcId registry =
      (registry.filter (fun d => GetProcId d.handle != 0)).map (recordOfEntry GetProcId) := by
  simp [CollectChildInfoOnIOThread, foldl_collectChildInfoStep]

/-- C4: the Enumerator outputs, in registry order, exactly the records of
the registry entries whose resolved pid is not zero; the record of an entry
has that pid, the role of the entry, renderer kind Unknown, no diagnostics
flag and the name of the entry as its single title; so no output record has
pid zero. -/
theorem enumerator_output (GetProcId : ProcessHandle → ProcessId)
    (registry : List ChildProcessData) :
    CollectChildInfoOnIOThread GetProcId registry =
      (registry.filter (fun d => GetProcId d.handle != 0)).map (recordOfEntry GetProcId) ∧
    (∀ d, (recordOfEntry GetProcId d).pid = GetProcId d.handle ∧
      (recordOfEntry GetProcId d).type = d.type ∧
      (recordOfEntry GetProcId d).renderer_type = RENDERER_UNKNOWN ∧
      (recordOfEntry GetProcId d).is_diagnostics = false ∧
      (recordOfEntry GetProcId d).titles = [d.name]) ∧
    (∀ p ∈ CollectChildInfoOnIOThread GetProcId registry, p.pid ≠ 0) := by
  refine ⟨collectChildInfo_eq GetProcId registry, fun d => ⟨rfl, rfl, rfl, rfl, rfl⟩, ?_⟩
  intro p hp
  rw [collectChildInfo_eq] at hp
  obtain ⟨d, hd, rfl⟩ := List.mem_map.mp hp
  simpa [recordOfEntry] using (List.mem_filter.mp hd).2

/-! ### Folds -/

theorem foldl_preserves {α β : Type} (P : α → Prop) (f : α → β → α) (l : List β)
    (h : ∀ a, ∀ b ∈ l, P a → P (f a b)) : ∀ a, P a → P (l.foldl f a) := by
  induction l with
  | nil => intro a ha; simpa using ha
  | cons b rest ih =>
    intro a ha
    rw [List.foldl_cons]
    exact ih (fun a' b' hb' => h a' b' (List.mem_cons_of_mem _ hb')) _
      (h a b (List.mem_cons_self _ _) ha)

theorem foldl_reaches {α β : Type} (I Q : α → Prop) (f : α → β → α) (l : List β)
    (b0 : β) (hb0 : b0 ∈ l)
    (hI : ∀ a, ∀ b ∈ l, I a → I (f a b))
    (hQ : ∀ a, ∀ b ∈ l, Q a → Q (f a b))
    (hit : ∀ a, I a → Q (f a b0)) : ∀ a, I a → Q (l.foldl f a) := by
  induction l with
  | nil => simp at hb0
  | cons b rest ih =>
    intro a ha
    rw [List.foldl_cons]
    rcases List.mem_cons.mp hb0 with hb | hb
    · subst hb
      exact foldl_preserves Q f rest
        (fun a' b' hb' => hQ a' b' (List.mem_cons_of_mem _ hb')) _ (hit a ha)
    · exact ih hb (fun a' b' hb' => hI a' b' (List.mem_cons_of_mem _ hb'))
        (fun a' b' hb' => hQ a' b' (List.mem_cons_of_mem _ hb')) _
        (hI a b (List.mem_cons_self _ _) ha)

theorem foldl_filter_of_skip {α β : Type} (I : α → Prop) (keep : β → Bool) (f : α → β → α)
    (l : List β) (hI : ∀ a, ∀ b ∈ l, I a → I (f a b))
    (hskip : ∀ a, ∀ b ∈ l, I a → keep b = false → f a b = a) :
    ∀ a, I a → l.foldl f a = (l.filter keep).foldl f a := by
  induction l with
  | nil => intro a _; rfl
  | cons b rest ih =>
    intro a ha
    have hI2 : ∀ a, ∀ b ∈ rest, I a → I (f a b) :=
      fun a' b' hb' => hI a' b' (List.mem_cons_of_mem _ hb')
    have hskip2 : ∀ a, ∀ b ∈ rest, I a → keep b = false → f a b = a :=
      fun a' b' hb' => hskip a' b' (List.mem_cons_of_mem _ hb')
    cases hk : keep b with
    | true =>
      rw [List.filter_cons_of_pos (by simpa using hk), List.foldl_cons, List.foldl_cons]
      exact ih hI2 hskip2 _ (hI a b (List.mem_cons_self _ _) ha)
    | false =>
      rw [List.filter_cons_of_neg (by simp [hk]), List.foldl_cons,
        hskip a b (List.mem_cons_self _ _) ha hk]
      exact ih hI2 hskip2 _ ha

/-! ### The classifier keeps the pid -/

theorem scanExtensionIds_pid (service : ExtensionService) (ids : List String) :
    ∀ process, (scanExtensionIds service process ids).pid = process.pid := by
  induction ids with
  | nil => intro process; rfl
  | cons id rest ih =>
    intro process
    unfold scanExtensionIds
    split
    · split
      · rfl
      · exact ih process
    · exact ih process

theorem classifyBindings_pid (service : ExtensionService) (process : ProcessMemoryInformation)
    (w : RenderWidgetHost) : (classifyBindings service process w).pid = process.pid := by
  unfold classifyBindings
  split
  · split <;> rfl
  · split
    · exact scanExtensionIds_pid _ _ _
    · rfl

theorem classifyNoContents_pid (service : ExtensionService) (process : ProcessMemoryInformation)
    (w : RenderWidgetHost) : (classifyNoContents service process w).pid = process.pid := by
  unfold classifyNoContents
  split
  · split <;> rfl
  · split <;> rfl

theorem classifyContents_pid (title : String) (process : ProcessMemoryInformation)
    (contents : WebContents) : (classifyContents title process contents).pid = process.pid := by
  unfold classifyContents
  simp only
  split <;> split <;> rfl

theorem classifyListener_pid (service : ExtensionService) (title : String)
    (process : ProcessMemoryInformation) (w : RenderWidgetHost) :
    (classifyListener service title process w).pid = process.pid := by
  unfold classifyListener
  split
  · rfl
  · simp only
    split
    · rw [classifyNoContents_pid, classifyBindings_pid]
    · rw [classifyContents_pid, classifyBindings_pid]

theorem classifyRenderProcessHost_pid (state : UIThreadState)
    (process : ProcessMemoryInformation) (host : RenderProcessHost) :
    (classifyRenderProcessHost state process host).pid = process.pid := by
  unfold classifyRenderProcessHost
  split
  · rfl
  · exact foldl_preserves (fun a : ProcessMemoryInformation => a.pid = process.pid) _ _
      (fun a b _ ha => by simpa [classifyListener_pid] using ha) _ rfl

theorem foldl_classifyRenderProcessHost_pid (state : UIThreadState)
    (hosts : List RenderProcessHost) (process : ProcessMemoryInformation) :
    (hosts.foldl (classifyRenderProcessHost state) process).pid = process.pid :=
  foldl_preserves (fun a : ProcessMemoryInformation => a.pid = process.pid) _ _
    (fun a b _ ha => by simpa [classifyRenderProcessHost_pid] using ha) _ rfl

theorem classifyZygote_pid (zygote : Option (ProcessId × ProcessId))
    (process : ProcessMemoryInformation) : (classifyZygote zygote process).pid = process.pid := by
  unfold classifyZygote
  split
  · rfl
  · split
    · rfl
    · split <;> rfl

theorem classifyProcess_pid (state : UIThreadState) (process : ProcessMemoryInformation) :
    (classifyProcess state process).pid = process.pid := by
  unfold classifyProcess
  rw [classifyZygote_pid, foldl_classifyRenderProcessHost_pid]

theorem classifyProcesses_pids (state : UIThreadState)
    (processes : List ProcessMemoryInformation) :
    (classifyProcesses state processes).map (fun p => p.pid) =
      processes.map (fun p => p.pid) := by
  simp [classifyProcesses, List.map_map, Function.comp_def, classifyProcess_pid]

theorem deliveredProcesses_eq (state : UIThreadState)
    (processes : List ProcessMemoryInformation) (hlen : processes.length < SIZE_T_MODULUS) :
    deliveredProcesses state processes =
      some ((classifyProcesses state processes).filter roleKnown) := by
  unfold deliveredProcesses
  exact eraseUnknownProcesses_eq_filter _ (by simpa [classifyProcesses] using hlen)

/-! ### Uniqueness of pids -/

theorem collectChildInfo_pids (GetProcId : ProcessHandle → ProcessId)
    (registry : List ChildProcessData) :
    (CollectChildInfoOnIOThread GetProcId registry).map (fun p => p.pid) =
      (registry.map (fun d => GetProcId d.handle)).filter (fun pid => pid != 0) := by
  rw [collectChildInfo_eq, List.filter_map, List.map_map]
  rfl

theorem collectChildInfo_length_le (GetProcId : ProcessHandle → ProcessId)
    (registry : List ChildProcessData) :
    (CollectChildInfoOnIOThread GetProcId registry).length ≤ registry.length := by
  rw [collectChildInfo_eq, List.length_map]
  exact List.length_filter_le _ _

/-- C3, at a registry in which two entries resolve to the same pid: the
delivered set holds two records with pid 5. -/
theorem delivered_pids_repeat :
    (enumeratedAndDelivered posixGetProcId registryWithRepeatedPid stateWithoutHosts).map
      (fun result => result.map (fun p => p.pid)) = some [5, 5] := by
  decide

/-- C3, amended: when the nonzero pids the registry entries resolve to are
pairwise different, the Enumerator output, classified and filtered, is
delivered and any two distinct records in it have different pids. -/
theorem delivered_pids_unique (GetProcId : ProcessHandle → ProcessId)
    (registry : List ChildProcessData) (state : UIThreadState)
    (hlen : registry.length < SIZE_T_MODULUS)
    (hpids : ((registry.map (fun d => GetProcId d.handle)).filter (fun pid => pid != 0)).Nodup) :
    ∃ result, enumeratedAndDelivered GetProcId registry state = some result ∧
      (result.map (fun p => p.pid)).Nodup := by
  refine ⟨_, deliveredProcesses_eq state _
    (lt_of_le_of_lt (collectChildInfo_length_le GetProcId registry) hlen), ?_⟩
  have hsub : List.Sublist
      (((classifyProcesses state (CollectChildInfoOnIOThread GetProcId registry)).filter
        roleKnown).map (fun p => p.pid))
      ((classifyProcesses state (CollectChildInfoOnIOThread GetProcId registry)).map
        (fun p => p.pid)) :=
    (List.filter_sublist _).map _
  rw [classifyProcesses_pids, collectChildInfo_pids] at hsub
  exact hsub.nodup hpids

/-- A registry with pids 5, 0 and 7 delivers records with pids 5 and 7. -/
theorem delivered_pids_unique_witness :
    ∃ result, enumeratedAndDelivered posixGetProcId registryWithDeadEntry stateWithoutHosts =
        some result ∧ (result.map (fun p => p.pid)).Nodup :=
  delivered_pids_unique posixGetProcId registryWithDeadEntry stateWithoutHosts
    (by decide) (by decide)

/-! ### Renderer records of unknown kind -/

/-- C2, at a failing input: a record matched to a connected render process
host without any view, and a record matched to a host whose only view has
no web contents and an unnamed view type, are both delivered with role
Renderer and renderer kind Unknown. -/
theorem renderer_of_unknown_kind_delivered :
    deliveredProcesses stateHostWithoutViews [{ pid := 200 }] =
      some [{ pid := 200, type := PROCESS_TYPE_RENDERER,
              renderer_type := RENDERER_UNKNOWN }] ∧
    deliveredProcesses stateHostWithPlainView [{ pid := 200 }] =
      some [{ pid := 200, type := PROCESS_TYPE_RENDERER,
              renderer_type := RENDERER_UNKNOWN,
              titles := ["chrome-extension://abc/popup.html"] }] := by
  constructor <;> decide

/-! ### The aggregate `Memory.Total` -/

theorem toInt32_of_lt (n : Nat) (h : n < 2 ^ 31) : toInt32 (n : Int) = (n : Int) := by
  unfold toInt32
  have h2 : (n : Int) < 2147483648 := by exact_mod_cast h
  have h3 : (0 : Int) ≤ n := Int.natCast_nonneg n
  norm_num
  omega

theorem toSizeT_of_lt (n : Nat) (h : n < SIZE_T_MODULUS) : toSizeT (n : Int) = n := by
  unfold toSizeT
  rw [Int.emod_eq_of_lt (Int.natCast_nonneg n) (by exact_mod_cast h)]
  simp

theorem recordSample_aggregate (st : HistogramState) (type : ProcessType)
    (renderer_type : RendererProcessType) (sample : Int) :
    (recordSample st type renderer_type sample).aggregate_memory = st.aggregate_memory := by
  unfold recordSample
  cases type
  case PROCESS_TYPE_RENDERER => cases renderer_type <;> rfl
  all_goals rfl

theorem recordSample_emitted (st : HistogramState) (type : ProcessType)
    (renderer_type : RendererProcessType) (sample : Int) :
    (recordSample st type renderer_type sample).emitted =
      st.emitted ++
        (match sizeHistogramName type renderer_type with
         | some name => [⟨MEMORY_KB, name, sample⟩]
         | none => []) := by
  unfold recordSample sizeHistogramName
  cases type
  case PROCESS_TYPE_RENDERER =>
    cases renderer_type <;> first | rfl | exact (List.append_nil _).symm
  all_goals first | rfl | exact (List.append_nil _).symm

theorem updateHistogramsStep_aggregate (st : HistogramState)
    (process : ProcessMemoryInformation) :
    (updateHistogramsStep st process).aggregate_memory =
      toSizeT (st.aggregate_memory + toInt32 process.working_set.priv) := by
  unfold updateHistogramsStep
  simp only [recordSample_aggregate]

theorem updateHistogramsStep_emitted (st : HistogramState)
    (process : ProcessMemoryInformation) :
    (updateHistogramsStep st process).emitted = st.emitted ++ sizeSamples process := by
  unfold updateHistogramsStep sizeSamples
  simp only [recordSample_emitted]

theorem sizeHistogramName_ne_total (type : ProcessType) (renderer_type : RendererProcessType)
    (name : String) (h : sizeHistogramName type renderer_type = some name) :
    name ≠ "Memory.Total" := by
  cases type
  case PROCESS_TYPE_RENDERER =>
    cases renderer_type <;> simp only [sizeHistogramName, Option.some.injEq] at h <;>
      first
        | (subst h; decide)
        | exact absurd h (by simp)
  all_goals
    simp only [sizeHistogramName, Option.some.injEq] at h
    first
      | (subst h; decide)
      | exact absurd h (by simp)

theorem sizeSamples_names (process : ProcessMemoryInformation) :
    ∀ s ∈ sizeSamples process, s.name ≠ "Memory.Total" := by
  intro s hs
  unfold sizeSamples at hs
  cases hname : sizeHistogramName process.type process.renderer_type with
  | none => rw [hname] at hs; simp at hs
  | some name =>
    rw [hname] at hs
    rw [List.mem_singleton.mp hs]
    exact sizeHistogramName_ne_total _ _ name hname

theorem updateHistogramsStep_names (st : HistogramState) (process : ProcessMemoryInformation)
    (h : ∀ s ∈ st.emitted, s.name ≠ "Memory.Total") :
    ∀ s ∈ (updateHistogramsStep st process).emitted, s.name ≠ "Memory.Total" := by
  intro s hs
  rw [updateHistogramsStep_emitted] at hs
  rcases List.mem_append.mp hs with hs | hs
  · exact h s hs
  · exact sizeSamples_names process s hs

theorem foldl_updateHistogramsStep_names (processes : List ProcessMemoryInformation) :
    ∀ st : HistogramState, (∀ s ∈ st.emitted, s.name ≠ "Memory.Total") →
      ∀ s ∈ (processes.foldl updateHistogramsStep st).emitted, s.name ≠ "Memory.Total" :=
  foldl_preserves (fun st : HistogramState => ∀ s ∈ st.emitted, s.name ≠ "Memory.Total")
    _ _ (fun st p _ h => updateHistogramsStep_names st p h)

theorem foldl_updateHistogramsStep_aggregate (processes : List ProcessMemoryInformation) :
    ∀ st : HistogramState,
      (∀ p ∈ processes, p.working_set.priv < 2 ^ 31) →
      st.aggregate_memory + sumWorkingSetPrivate processes < SIZE_T_MODULUS →
      (processes.foldl updateHistogramsStep st).aggregate_memory =
        st.aggregate_memory + sumWorkingSetPrivate processes := by
  induction processes with
  | nil => intro st _ _; simp [sumWorkingSetPrivate]
  | cons p rest ih =>
    intro st hp hsum
    have hp1 : p.working_set.priv < 2 ^ 31 := hp p (List.mem_cons_self _ _)
    have hcons : sumWorkingSetPrivate (p :: rest) =
        p.working_set.priv + sumWorkingSetPrivate rest := by
      simp [sumWorkingSetPrivate]
    rw [hcons] at hsum
    have hstep : (updateHistogramsStep st p).aggregate_memory =
        st.aggregate_memory + p.working_set.priv := by
      rw [updateHistogramsStep_aggregate, toInt32_of_lt _ hp1]
      have := toSizeT_of_lt (st.aggregate_memory + p.working_set.priv) (by omega)
      simpa using this
    rw [List.foldl_cons, ih _ (fun q hq => hp q (List.mem_cons_of_mem _ hq))
      (by rw [hstep]; omega), hstep, hcons]
    omega

theorem samplesNamed_total (backing_store_memory_size : Nat)
    (processes : List ProcessMemoryInformation) :
    samplesNamed "Memory.Total" (UpdateHistograms backing_store_memory_size processes) =
      [⟨MEMORY_MB, "Memory.Total", totalSample processes⟩] := by
  have hloop : (updateHistogramsLoop processes).emitted.filter
      (fun s => decide (s.name = "Memory.Total")) = [] := by
    rw [List.filter_eq_nil_iff]
    intro s hs
    have := foldl_updateHistogramsStep_names processes {} (by simp) s hs
    simpa using this
  simp [samplesNamed, UpdateHistograms, emitKB, emitCount, List.filter_append,
    List.filter_cons, hloop]

/-- C5, at a record whose private working set is `2 ^ 31` KB: the sample
emitted to "Memory.Total" is 1269162835, while the sum of the private
working sets divided by 1000 is 2147483. -/
theorem memory_total_wraps :
    samplesNamed "Memory.Total" (UpdateHistograms 0 recordsWithHugeWorkingSet) =
      [⟨MEMORY_MB, "Memory.Total", 1269162835⟩] ∧
    sumWorkingSetPrivate recordsWithHugeWorkingSet / 1000 = 2147483 := by
  constructor <;> decide

/-- C5, amended: when every private working set is below `2 ^ 31` KB and
their sum is below `1000 * 2 ^ 31` KB, `UpdateHistograms` emits exactly one
sample to "Memory.Total", and it is the sum of the private working sets
divided by 1000, rounded down. -/
theorem memory_total_sample (backing_store_memory_size : Nat)
    (processes : List ProcessMemoryInformation)
    (heach : ∀ p ∈ processes, p.working_set.priv < 2 ^ 31)
    (hsum : sumWorkingSetPrivate processes < 1000 * 2 ^ 31) :
    samplesNamed "Memory.Total" (UpdateHistograms backing_store_memory_size processes) =
      [⟨MEMORY_MB, "Memory.Total", ((sumWorkingSetPrivate processes / 1000 : Nat) : Int)⟩] := by
  rw [samplesNamed_total]
  have hagg : (updateHistogramsLoop processes).aggregate_memory =
      sumWorkingSetPrivate processes := by
    have h := foldl_updateHistogramsStep_aggregate processes {} heach
      (by
        show 0 + sumWorkingSetPrivate processes < SIZE_T_MODULUS
        unfold SIZE_T_MODULUS
        omega)
    simpa [updateHistogramsLoop] using h
  have hdiv : sumWorkingSetPrivate processes / 1000 < 2 ^ 31 := by omega
  have hcast := toInt32_of_lt _ hdiv
  simp only [totalSample, hagg]
  rw [← hcast]
  simp

/-- Scenario S1: records with 50000 KB and 80000 KB give the sample 130. -/
theorem memory_total_sample_witness :
    samplesNamed "Memory.Total" (UpdateHistograms 0 recordsOfS1) =
      [⟨MEMORY_MB, "Memory.Total", 130⟩] :=
  memory_total_sample 0 recordsOfS1 (by decide) (by decide)

/-! ### The diagnostics flag -/

theorem lowerCaseEqualsASCIIChars_iff (a : List Char) :
    ∀ b : List Char, lowerCaseEqualsASCIIChars a b = true ↔ a.map ToLowerASCII = b := by
  induction a with
  | nil =>
    intro b
    cases b <;> simp [lowerCaseEqualsASCIIChars]
  | cons x rest ih =>
    intro b
    cases b with
    | nil => simp [lowerCaseEqualsASCIIChars]
    | cons y b =>
      by_cases hxy : ToLowerASCII x = y
      · simp [lowerCaseEqualsASCIIChars, hxy, ih b]
      · simp [lowerCaseEqualsASCIIChars, hxy]

theorem lowerCaseEqualsASCII_memoryURL (spec : String)
    (h : equalsIgnoringASCIICase spec kChromeUIMemoryURL) :
    LowerCaseEqualsASCII spec kChromeUIMemoryURL = true := by
  unfold LowerCaseEqualsASCII
  rw [lowerCaseEqualsASCIIChars_iff]
  have hk : kChromeUIMemoryURL.data.map ToLowerASCII = kChromeUIMemoryURL.data := by decide
  rw [← hk]
  exact h

theorem isMemoryURLEntry_of_shows (entry : Option NavigationEntry)
    (h : showsMemoryURL entry) : isMemoryURLEntry entry = true := by
  obtain ⟨e, rfl, he⟩ := h
  exact lowerCaseEqualsASCII_memoryURL _ he

theorem scanExtensionIds_diagnostics (service : ExtensionService) (ids : List String) :
    ∀ process, (scanExtensionIds service process ids).is_diagnostics =
      process.is_diagnostics := by
  induction ids with
  | nil => intro process; rfl
  | cons id rest ih =>
    intro process
    unfold scanExtensionIds
    split
    · split
      · rfl
      · exact ih process
    · exact ih process

theorem classifyBindings_diagnostics (service : ExtensionService)
    (process : ProcessMemoryInformation) (w : RenderWidgetHost) :
    (classifyBindings service process w).is_diagnostics = process.is_diagnostics := by
  unfold classifyBindings
  split
  · split <;> rfl
  · split
    · exact scanExtensionIds_diagnostics _ _ _
    · rfl

theorem classifyNoContents_diagnostics (service : ExtensionService)
    (process : ProcessMemoryInformation) (w : RenderWidgetHost) :
    (classifyNoContents service process w).is_diagnostics = process.is_diagnostics := by
  unfold classifyNoContents
  split
  · split <;> rfl
  · split <;> rfl

theorem classifyContents_diagnostics_mono (title : String)
    (process : ProcessMemoryInformation) (contents : WebContents)
    (h : process.is_diagnostics = true) :
    (classifyContents title process contents).is_diagnostics = true := by
  unfold classifyContents
  simp only
  split <;> split <;> first | rfl | exact h

theorem classifyContents_diagnostics_of_shows (title : String)
    (process : ProcessMemoryInformation) (contents : WebContents)
    (h : showsMemoryURL contents.pending_entry ∨ showsMemoryURL contents.last_committed_entry) :
    (classifyContents title process contents).is_diagnostics = true := by
  have hor : (isMemoryURLEntry contents.last_committed_entry ||
      isMemoryURLEntry contents.pending_entry) = true := by
    rcases h with h | h
    · simp [isMemoryURLEntry_of_shows _ h]
    · simp [isMemoryURLEntry_of_shows _ h]
  unfold classifyContents
  simp only [hor, if_true]

theorem classifyListener_diagnostics_mono (service : ExtensionService) (title : String)
    (process : ProcessMemoryInformation) (w : RenderWidgetHost)
    (h : process.is_diagnostics = true) :
    (classifyListener service title process w).is_diagnostics = true := by
  unfold classifyListener
  split
  · exact h
  · simp only
    split
    · rw [classifyNoContents_diagnostics, classifyBindings_diagnostics]; exact h
    · exact classifyContents_diagnostics_mono _ _ _
        (by rw [classifyBindings_diagnostics]; exact h)

theorem classifyListener_diagnostics_of_shows (service : ExtensionService) (title : String)
    (process : ProcessMemoryInformation) (w : RenderWidgetHost)
    (hview : w.is_render_view = true) (contents : WebContents)
    (hc : w.web_contents = some contents)
    (h : showsMemoryURL contents.pending_entry ∨ showsMemoryURL contents.last_committed_entry) :
    (classifyListener service title process w).is_diagnostics = true := by
  unfold classifyListener
  simp only [hview, hc]
  exact classifyContents_diagnostics_of_shows _ _ _ h

theorem classifyRenderProcessHost_diagnostics_mono (state : UIThreadState)
    (process : ProcessMemoryInformation) (host : RenderProcessHost)
    (h : process.is_diagnostics = true) :
    (classifyRenderProcessHost state process host).is_diagnostics = true := by
  unfold classifyRenderProcessHost
  split
  · exact h
  · exact foldl_preserves (fun a : ProcessMemoryInformation => a.is_diagnostics = true) _ _
      (fun a b _ ha => classifyListener_diagnostics_mono _ _ a b ha) _ h

theorem classifyZygote_diagnostics (zygote : Option (ProcessId × ProcessId))
    (process : ProcessMemoryInformation) :
    (classifyZygote zygote process).is_diagnostics = process.is_diagnostics := by
  unfold classifyZygote
  split
  · rfl
  · split
    · rfl
    · split <;> rfl

theorem classifyRenderProcessHost_matched (state : UIThreadState)
    (process : ProcessMemoryInformation) (host : RenderProcessHost)
    (hconn : host.has_connection = true) (hpid : process.pid = state.GetProcId host.handle) :
    classifyRenderProcessHost state process host =
      host.listeners.foldl
        (classifyListener host.extension_service state.default_tab_title)
        { process with type := PROCESS_TYPE_RENDERER } := by
  unfold classifyRenderProcessHost
  simp [hconn, hpid]

theorem classifyProcess_diagnostics_of_shows (state : UIThreadState)
    (process : ProcessMemoryInformation) (host : RenderProcessHost)
    (hhost : host ∈ state.all_hosts) (hconn : host.has_connection = true)
    (hpid : process.pid = state.GetProcId host.handle)
    (w : RenderWidgetHost) (hw : w ∈ host.listeners) (hview : w.is_render_view = true)
    (contents : WebContents) (hc : w.web_contents = some contents)
    (hurl : showsMemoryURL contents.pending_entry ∨
      showsMemoryURL contents.last_committed_entry) :
    (classifyProcess state process).is_diagnostics = true := by
  unfold classifyProcess
  rw [classifyZygote_diagnostics]
  refine foldl_reaches (fun a : ProcessMemoryInformation => a.pid = process.pid)
    (fun a => a.is_diagnostics = true) _ _ host hhost ?_ ?_ ?_ process rfl
  · intro a b _ ha
    rw [classifyRenderProcessHost_pid]; exact ha
  · intro a b _ ha
    exact classifyRenderProcessHost_diagnostics_mono state a b ha
  · intro a ha
    rw [classifyRenderProcessHost_matched state a host hconn (ha.trans hpid)]
    exact foldl_reaches (fun _ => True) (fun a : ProcessMemoryInformation =>
        a.is_diagnostics = true) _ _ w hw (fun _ _ _ _ => trivial)
      (fun a b _ ha => classifyListener_diagnostics_mono _ _ a b ha)
      (fun a _ => classifyListener_diagnostics_of_shows _ _ a w hview contents hc hurl)
      _ trivial

/-- C6: a record whose pid is the pid of a connected render process host
that has a view with web contents whose pending or last committed entry
shows the memory inspection URL, ASCII case ignored, has `is_diagnostics`
set after classification; its place and pid are unchanged. -/
theorem diagnostics_flag_set (state : UIThreadState)
    (processes : List ProcessMemoryInformation) (i : Nat) (process : ProcessMemoryInformation)
    (hget : processes[i]? = some process)
    (host : RenderProcessHost) (hhost : host ∈ state.all_hosts)
    (hconn : host.has_connection = true)
    (hpid : process.pid = state.GetProcId host.handle)
    (w : RenderWidgetHost) (hw : w ∈ host.listeners) (hview : w.is_render_view = true)
    (contents : WebContents) (hc : w.web_contents = some contents)
    (hurl : showsMemoryURL contents.pending_entry ∨
      showsMemoryURL contents.last_committed_entry) :
    ∃ r, (classifyProcesses state processes)[i]? = some r ∧ r.pid = process.pid ∧
      r.is_diagnostics = true := by
  refine ⟨classifyProcess state process, ?_, classifyProcess_pid state process,
    classifyProcess_diagnostics_of_shows state process host hhost hconn hpid w hw hview
      contents hc hurl⟩
  simp [classifyProcesses, List.getElem?_map, hget]

/-- Scenario S3: the renderer record, pid 200, of a tab whose last committed
virtual URL is "CHROME://MEMORY/" gets the flag. -/
theorem diagnostics_flag_set_witness :
    ∃ r, (classifyProcesses stateOfS3 recordsBeforeClassification)[1]? = some r ∧
      r.pid = 200 ∧ r.is_diagnostics = true :=
  diagnostics_flag_set stateOfS3 recordsBeforeClassification 1
    { pid := 200, working_set := { priv := 80000 } } rfl
    ⟨true, 200, noExtensions, [memoryTab]⟩ (List.mem_singleton.mpr rfl) rfl rfl
    memoryTab (List.mem_singleton.mpr rfl) rfl
    ⟨"Example", none, some ⟨"CHROME://MEMORY/"⟩⟩ rfl
    (Or.inr ⟨⟨"CHROME://MEMORY/"⟩, rfl, by unfold equalsIgnoringASCIICase; decide⟩)

/-! ### Hosts without a connection -/

theorem classifyRenderProcessHost_disconnected (state : UIThreadState)
    (process : ProcessMemoryInformation) (host : RenderProcessHost)
    (h : host.has_connection = false) :
    classifyRenderProcessHost state process host = process := by
  unfold classifyRenderProcessHost
  simp [h]

theorem classifyProcess_connected_only (state : UIThreadState)
    (process : ProcessMemoryInformation) :
    classifyProcess state process =
      classifyProcess
        { state with all_hosts := state.all_hosts.filter (fun h => h.has_connection) }
        process := by
  unfold classifyProcess
  congr 1
  exact foldl_filter_of_skip (fun _ => True) (fun h : RenderProcessHost => h.has_connection)
    (classifyRenderProcessHost state) state.all_hosts (fun _ _ _ _ => trivial)
    (fun a b _ _ hb => classifyRenderProcessHost_disconnected state a b hb) process trivial

/-- C7: classification over a renderer host registry equals classification
over the same registry with every host that has no connection removed,
whatever the pids of the removed hosts. -/
theorem disconnected_hosts_contribute_nothing (state : UIThreadState)
    (processes : List ProcessMemoryInformation) :
    classifyProcesses state processes =
      classifyProcesses
        { state with all_hosts := state.all_hosts.filter (fun h => h.has_connection) }
        processes := by
  unfold classifyProcesses
  exact List.map_congr_left (fun p _ => classifyProcess_connected_only state p)

/-! ### Matched hosts and view surfaces -/

theorem classifyRenderProcessHost_unmatched (state : UIThreadState)
    (process a : ProcessMemoryInformation) (host : RenderProcessHost)
    (ha : a.pid = process.pid) (h : matchesHost state process host = false) :
    classifyRenderProcessHost state a host = a := by
  unfold classifyRenderProcessHost
  have : (!host.has_connection || a.pid != state.GetProcId host.handle) = true := by
    rw [ha]
    unfold matchesHost at h
    cases hc : host.has_connection <;> simp_all
  rw [if_pos this]

theorem foldl_hosts_eq_matched (state : UIThreadState) (process : ProcessMemoryInformation) :
    state.all_hosts.foldl (classifyRenderProcessHost state) process =
      (matchedHosts state process).foldl (classifyRenderProcessHost state) process :=
  foldl_filter_of_skip (fun a : ProcessMemoryInformation => a.pid = process.pid)
    (matchesHost state process) (classifyRenderProcessHost state) state.all_hosts
    (fun a b _ ha => by simpa [classifyRenderProcessHost_pid] using ha)
    (fun a b _ ha hb => classifyRenderProcessHost_unmatched state process a b ha hb)
    process rfl

theorem classifyListener_not_view (service : ExtensionService) (title : String)
    (process : ProcessMemoryInformation) (w : RenderWidgetHost)
    (h : w.is_render_view = false) : classifyListener service title process w = process := by
  unfold classifyListener
  simp [h]

theorem foldl_listeners_eq_views (host : RenderProcessHost) (title : String)
    (process : ProcessMemoryInformation) :
    host.listeners.foldl (classifyListener host.extension_service title) process =
      (viewSurfaces host).foldl (classifyListener host.extension_service title) process :=
  foldl_filter_of_skip (fun _ => True) (fun w : RenderWidgetHost => w.is_render_view)
    (classifyListener host.extension_service title) host.listeners
    (fun _ _ _ _ => trivial)
    (fun a b _ _ hb => classifyListener_not_view _ _ a b hb) process trivial

theorem classifyZygote_renderer_type (zygote : Option (ProcessId × ProcessId))
    (process : ProcessMemoryInformation) :
    (classifyZygote zygote process).renderer_type = process.renderer_type := by
  unfold classifyZygote
  split
  · rfl
  · split
    · rfl
    · split <;> rfl

theorem classifyProcess_single_host (state : UIThreadState)
    (process : ProcessMemoryInformation) (host : RenderProcessHost)
    (hmatch : matchedHosts state process = [host]) :
    (classifyProcess state process).renderer_type =
      ((viewSurfaces host).foldl
        (classifyListener host.extension_service state.default_tab_title)
        { process with type := PROCESS_TYPE_RENDERER }).renderer_type := by
  have hmem : host ∈ matchedHosts state process := by rw [hmatch]; simp
  have hm : matchesHost state process host = true := (List.mem_filter.mp hmem).2
  have hconn : host.has_connection = true := by
    unfold matchesHost at hm
    simp at hm
    exact hm.1
  have hpid : process.pid = state.GetProcId host.handle := by
    unfold matchesHost at hm
    simp at hm
    exact hm.2
  unfold classifyProcess
  rw [classifyZygote_renderer_type, foldl_hosts_eq_matched, hmatch, List.foldl_cons,
    List.foldl_nil, classifyRenderProcessHost_matched state process host hconn hpid,
    foldl_listeners_eq_views]

theorem classifyProcesses_getElem? (state : UIThreadState)
    (processes : List ProcessMemoryInformation) (i : Nat) (process : ProcessMemoryInformation)
    (hget : processes[i]? = some process) :
    (classifyProcesses state processes)[i]? = some (classifyProcess state process) := by
  simp [classifyProcesses, List.getElem?_map, hget]

/-! ### The renderer kind -/

theorem classifyNoContents_kind_of_known (service : ExtensionService)
    (process : ProcessMemoryInformation) (w : RenderWidgetHost)
    (h : process.renderer_type ≠ RENDERER_UNKNOWN) :
    (classifyNoContents service process w).renderer_type = process.renderer_type := by
  unfold classifyNoContents
  rw [if_neg h]
  split
  · split <;> rfl
  · rfl

theorem classifyContents_kind_of_known (title : String)
    (process : ProcessMemoryInformation) (contents : WebContents)
    (h : process.renderer_type ≠ RENDERER_UNKNOWN) :
    (classifyContents title process contents).renderer_type = process.renderer_type := by
  unfold classifyContents
  simp only [if_neg h]
  split <;> rfl

theorem classifyListener_kind_of_bindings (service : ExtensionService) (title : String)
    (process : ProcessMemoryInformation) (w : RenderWidgetHost)
    (hview : w.is_render_view = true)
    (h : (classifyBindings service process w).renderer_type ≠ RENDERER_UNKNOWN) :
    (classifyListener service title process w).renderer_type =
      (classifyBindings service process w).renderer_type := by
  unfold classifyListener
  simp only [hview, Bool.not_true, Bool.false_eq_true, if_false]
  split
  · exact classifyNoContents_kind_of_known _ _ _ h
  · exact classifyContents_kind_of_known _ _ _ h

theorem scanExtensionIds_of_only_hosted (service : ExtensionService) (ids : List String)
    (h : ∀ id ∈ ids, ∀ e, service.GetExtensionById id false = some e → e.is_hosted_app = true) :
    ∀ process, scanExtensionIds service process ids = process := by
  induction ids with
  | nil => intro process; rfl
  | cons id rest ih =>
    intro process
    have hrest := ih (fun id' hid' => h id' (List.mem_cons_of_mem _ hid'))
    unfold scanExtensionIds
    split
    · rename_i extension hext
      have := h id (List.mem_cons_self _ _) extension hext
      simp [this, hrest]
    · exact hrest process

theorem scanExtensionIds_of_packaged (service : ExtensionService) (ids : List String)
    (h : ∃ id ∈ ids, ∃ e, service.GetExtensionById id false = some e ∧ e.is_hosted_app = false) :
    ∀ process, (scanExtensionIds service process ids).renderer_type = RENDERER_EXTENSION := by
  induction ids with
  | nil => simp at h
  | cons id rest ih =>
    intro process
    obtain ⟨id0, hid0, e, he, hhosted⟩ := h
    unfold scanExtensionIds
    rcases List.mem_cons.mp hid0 with hid | hid
    · subst hid
      simp [he, hhosted]
    · have hrest := ih ⟨id0, hid, e, he, hhosted⟩ process
      split
      · split
        · rfl
        · exact hrest
      · exact hrest

theorem classifyBindings_not_extension (service : ExtensionService)
    (process : ProcessMemoryInformation) (w : RenderWidgetHost)
    (honly : hostsOnlyHostedApps service w)
    (h : process.renderer_type ≠ RENDERER_EXTENSION) :
    (classifyBindings service process w).renderer_type ≠ RENDERER_EXTENSION := by
  unfold classifyBindings
  split
  · split <;> simp
  · split
    · rw [scanExtensionIds_of_only_hosted service _ honly]; exact h
    · exact h

theorem classifyNoContents_not_extension (service : ExtensionService)
    (process : ProcessMemoryInformation) (w : RenderWidgetHost)
    (h : process.renderer_type ≠ RENDERER_EXTENSION) :
    (classifyNoContents service process w).renderer_type ≠ RENDERER_EXTENSION := by
  unfold classifyNoContents
  split
  · split <;> exact h
  · split
    · simp only
      unfold rendererTypeOfViewType
      split <;> simp
    · exact h

theorem classifyContents_not_extension (title : String)
    (process : ProcessMemoryInformation) (contents : WebContents)
    (h : process.renderer_type ≠ RENDERER_EXTENSION) :
    (classifyContents title process contents).renderer_type ≠ RENDERER_EXTENSION := by
  unfold classifyContents
  simp only
  split <;> split <;> first | exact h | simp

theorem classifyListener_not_extension (service : ExtensionService) (title : String)
    (process : ProcessMemoryInformation) (w : RenderWidgetHost)
    (honly : w.is_render_view = true → hostsOnlyHostedApps service w)
    (h : process.renderer_type ≠ RENDERER_EXTENSION) :
    (classifyListener service title process w).renderer_type ≠ RENDERER_EXTENSION := by
  unfold classifyListener
  split
  · exact h
  · rename_i hview
    have hb := classifyBindings_not_extension service process w
      (honly (by simpa using hview)) h
    simp only
    split
    · exact classifyNoContents_not_extension _ _ _ hb
    · exact classifyContents_not_extension _ _ _ hb

theorem classifyRenderProcessHost_not_extension (state : UIThreadState)
    (a : ProcessMemoryInformation) (host : RenderProcessHost)
    (honly : matchesHost state a host = true →
      ∀ w ∈ viewSurfaces host, hostsOnlyHostedApps host.extension_service w)
    (h : a.renderer_type ≠ RENDERER_EXTENSION) :
    (classifyRenderProcessHost state a host).renderer_type ≠ RENDERER_EXTENSION := by
  unfold classifyRenderProcessHost
  split
  · exact h
  · rename_i hskip
    have hm : matchesHost state a host = true := by
      unfold matchesHost
      cases hc : host.has_connection <;> simp_all
    refine foldl_preserves
      (fun a : ProcessMemoryInformation => a.renderer_type ≠ RENDERER_EXTENSION) _ _ ?_ _ h
    intro a' w hw ha'
    exact classifyListener_not_extension _ _ a' w
      (fun hview => honly hm w (List.mem_filter.mpr ⟨hw, hview⟩)) ha'

theorem matchesHost_of_pid (state : UIThreadState) (process a : ProcessMemoryInformation)
    (host : RenderProcessHost) (ha : a.pid = process.pid) :
    matchesHost state a host = matchesHost state process host := by
  unfold matchesHost
  rw [ha]

theorem classifyProcess_not_extension (state : UIThreadState)
    (process : ProcessMemoryInformation)
    (hkind : process.renderer_type = RENDERER_UNKNOWN)
    (honly : ∀ host ∈ matchedHosts state process, ∀ w ∈ viewSurfaces host,
      hostsOnlyHostedApps host.extension_service w) :
    (classifyProcess state process).renderer_type ≠ RENDERER_EXTENSION := by
  unfold classifyProcess
  rw [classifyZygote_renderer_type]
  have hinv := foldl_preserves
    (fun a : ProcessMemoryInformation =>
      a.pid = process.pid ∧ a.renderer_type ≠ RENDERER_EXTENSION)
    (classifyRenderProcessHost state) state.all_hosts ?_ process
    ⟨rfl, by rw [hkind]; simp⟩
  · exact hinv.2
  · intro a host hhost ha
    refine ⟨by rw [classifyRenderProcessHost_pid]; exact ha.1, ?_⟩
    refine classifyRenderProcessHost_not_extension state a host ?_ ha.2
    intro hm
    rw [matchesHost_of_pid state process a host ha.1] at hm
    exact honly host (List.mem_filter.mpr ⟨hhost, hm⟩)

/-- C8: a record that enters classification with renderer kind Unknown, and
all of whose matched hosts have only view surfaces in whose process every
extension id resolves to a hosted app or does not resolve, does not have
renderer kind Extension after classification. -/
theorem hosted_apps_only_not_extension (state : UIThreadState)
    (processes : List ProcessMemoryInformation) (i : Nat) (process : ProcessMemoryInformation)
    (hget : processes[i]? = some process)
    (hkind : process.renderer_type = RENDERER_UNKNOWN)
    (honly : ∀ host ∈ matchedHosts state process, ∀ w ∈ viewSurfaces host,
      hostsOnlyHostedApps host.extension_service w) :
    ∃ r, (classifyProcesses state processes)[i]? = some r ∧
      r.renderer_type ≠ RENDERER_EXTENSION :=
  ⟨classifyProcess state process, classifyProcesses_getElem? state processes i process hget,
    classifyProcess_not_extension state process hkind honly⟩

/-- A renderer, pid 400, whose process holds one hosted app. -/
theorem hosted_apps_only_not_extension_witness :
    ∃ r, (classifyProcesses (stateWithHost hostedAppHost) [{ pid := 400 }])[0]? = some r ∧
      r.renderer_type ≠ RENDERER_EXTENSION :=
  hosted_apps_only_not_extension (stateWithHost hostedAppHost) [{ pid := 400 }] 0
    { pid := 400 } rfl rfl
    (by
      intro host _ w _ id _ e he
      have hlookup : host.extension_service.GetExtensionById id false = some e := he
      have hm : matchedHosts (stateWithHost hostedAppHost) { pid := 400 } = [hostedAppHost] :=
        rfl
      have hh : host = hostedAppHost := by
        have : host ∈ matchedHosts (stateWithHost hostedAppHost) { pid := 400 } := by assumption
        rw [hm] at this
        exact List.mem_singleton.mp this
      subst hh
      have hsome : some (⟨"Hosted App", true⟩ : Extension) = some e := hlookup
      cases hsome
      rfl)

theorem classifyListener_packaged (service : ExtensionService) (title : String)
    (process : ProcessMemoryInformation) (w : RenderWidgetHost)
    (hview : w.is_render_view = true) (hweb : hasWebUIBindings w = false)
    (hpack : hostsPackagedExtension service w) :
    (classifyListener service title process w).renderer_type = RENDERER_EXTENSION := by
  have hb : (classifyBindings service process w).renderer_type = RENDERER_EXTENSION := by
    unfold classifyBindings
    simp only [hweb, hpack.1, if_true]
    exact scanExtensionIds_of_packaged service _ hpack.2 process
  rw [classifyListener_kind_of_bindings service title process w hview (by rw [hb]; simp), hb]

/-- C9: a record matched to exactly one connected host that has a view
surface, none of whose view surfaces has privileged bindings, and whose
process is registered in the extension process map with an installed
extension that is not a hosted app, has renderer kind Extension after
classification, whatever else the process holds. -/
theorem packaged_extension_is_extension (state : UIThreadState)
    (processes : List ProcessMemoryInformation) (i : Nat) (process : ProcessMemoryInformation)
    (hget : processes[i]? = some process)
    (host : RenderProcessHost) (hmatch : matchedHosts state process = [host])
    (hviews : viewSurfaces host ≠ [])
    (hall : ∀ w ∈ viewSurfaces host,
      hasWebUIBindings w = false ∧ hostsPackagedExtension host.extension_service w) :
    ∃ r, (classifyProcesses state processes)[i]? = some r ∧
      r.renderer_type = RENDERER_EXTENSION := by
  refine ⟨classifyProcess state process,
    classifyProcesses_getElem? state processes i process hget, ?_⟩
  rw [classifyProcess_single_host state process host hmatch]
  obtain ⟨w0, hw0⟩ := List.exists_mem_of_ne_nil _ hviews
  have hstep : ∀ a : ProcessMemoryInformation, ∀ w ∈ viewSurfaces host,
      (classifyListener host.extension_service state.default_tab_title a w).renderer_type =
        RENDERER_EXTENSION := by
    intro a w hw
    exact classifyListener_packaged _ _ a w (by simpa using (List.mem_filter.mp hw).2)
      (hall w hw).1 (hall w hw).2
  exact foldl_reaches (fun _ => True)
    (fun a : ProcessMemoryInformation => a.renderer_type = RENDERER_EXTENSION)
    _ _ w0 hw0 (fun _ _ _ _ => trivial) (fun a w hw _ => hstep a w hw)
    (fun a _ => hstep a w0 hw0) _ trivial

/-- Scenario S4: the process of the renderer, pid 400, holds a hosted app
and a packaged extension. -/
theorem packaged_extension_is_extension_witness :
    ∃ r, (classifyProcesses (stateWithHost extensionHost) [{ pid := 400 }])[0]? = some r ∧
      r.renderer_type = RENDERER_EXTENSION :=
  packaged_extension_is_extension (stateWithHost extensionHost) [{ pid := 400 }] 0
    { pid := 400 } rfl extensionHost rfl (by decide)
    (by
      intro w hw
      have hv : viewSurfaces extensionHost = [backgroundPage] := rfl
      rw [hv] at hw
      have hw2 : w = backgroundPage := List.mem_singleton.mp hw
      subst hw2
      exact ⟨rfl, rfl, "packaged", by decide, ⟨"Packaged", false⟩, rfl, rfl⟩)

/-- C10: a record matched to exactly one connected host whose last view
surface has privileged bindings has, after classification, renderer kind
Devtools when the view type of that surface is the developer tools UI and
Chrome otherwise, whatever the extension process map and the web contents of
the surface. -/
theorem privileged_bindings_kind (state : UIThreadState)
    (processes : List ProcessMemoryInformation) (i : Nat) (process : ProcessMemoryInformation)
    (hget : processes[i]? = some process)
    (host : RenderProcessHost) (hmatch : matchedHosts state process = [host])
    (w : RenderWidgetHost) (hlast : (viewSurfaces host).getLast? = some w)
    (hweb : hasWebUIBindings w = true) :
    ∃ r, (classifyProcesses state processes)[i]? = some r ∧
      r.renderer_type =
        if w.render_view_type = VIEW_TYPE_DEV_TOOLS_UI then RENDERER_DEVTOOLS
        else RENDERER_CHROME := by
  refine ⟨classifyProcess state process,
    classifyProcesses_getElem? state processes i process hget, ?_⟩
  rw [classifyProcess_single_host state process host hmatch]
  obtain ⟨earlier, hsplit⟩ := List.getLast?_eq_some_iff.mp hlast
  have hview : w.is_render_view = true := by
    have hw : w ∈ viewSurfaces host := by rw [hsplit]; simp
    simpa using (List.mem_filter.mp hw).2
  have hb : ∀ a : ProcessMemoryInformation,
      (classifyBindings host.extension_service a w).renderer_type =
        if w.render_view_type = VIEW_TYPE_DEV_TOOLS_UI then RENDERER_DEVTOOLS
        else RENDERER_CHROME := by
    intro a
    unfold classifyBindings
    simp only [hweb, if_true]
    split <;> rfl
  rw [hsplit, List.foldl_append, List.foldl_cons, List.foldl_nil,
    classifyListener_kind_of_bindings _ _ _ w hview (by rw [hb]; split <;> simp), hb]

/-- Scenario S5: the last view of the renderer, pid 500, has privileged
bindings and the developer tools view type. -/
theorem privileged_bindings_kind_witness :
    ∃ r, (classifyProcesses (stateWithHost devtoolsHost) [{ pid := 500 }])[0]? = some r ∧
      r.renderer_type = RENDERER_DEVTOOLS :=
  privileged_bindings_kind (stateWithHost devtoolsHost) [{ pid := 500 }] 0
    { pid := 500 } rfl devtoolsHost rfl devtoolsView rfl rfl

/-! ### The zygote and the sandbox helper -/

theorem classifyProcess_unmatched (state : UIThreadState) (process : ProcessMemoryInformation)
    (hmatch : matchedHosts state process = []) :
    classifyProcess state process = classifyZygote state.zygote process := by
  unfold classifyProcess
  rw [foldl_hosts_eq_matched, hmatch, List.foldl_nil]

theorem mem_deliveredProcesses (state : UIThreadState)
    (processes : List ProcessMemoryInformation) (hlen : processes.length < SIZE_T_MODULUS)
    (i : Nat) (process : ProcessMemoryInformation) (hget : processes[i]? = some process)
    (hknown : (classifyProcess state process).type ≠ PROCESS_TYPE_UNKNOWN) :
    ∃ result, deliveredProcesses state processes = some result ∧
      classifyProcess state process ∈ result := by
  refine ⟨_, deliveredProcesses_eq state processes hlen, ?_⟩
  refine List.mem_filter.mpr ⟨?_, by simpa [roleKnown] using hknown⟩
  exact List.getElem?_mem (classifyProcesses_getElem? state processes i process hget)

/-- C11: on a host with a zygote, a record of role Unknown that matches no
connected render process host and whose pid is the zygote pid ends with role
Zygote; one whose pid is the sandbox helper pid, and not the zygote pid,
ends with role SandboxHelper; in both cases the record, with its pid, is in
the set the filter delivers. -/
theorem zygote_refinement (state : UIThreadState)
    (processes : List ProcessMemoryInformation) (hlen : processes.length < SIZE_T_MODULUS)
    (i : Nat) (process : ProcessMemoryInformation) (hget : processes[i]? = some process)
    (zygote_pid sandbox_helper_pid : ProcessId)
    (hposix : state.zygote = some (zygote_pid, sandbox_helper_pid))
    (_hrole : process.type = PROCESS_TYPE_UNKNOWN)
    (hmatch : matchedHosts state process = [])
    (hpid : process.pid = zygote_pid ∨ process.pid = sandbox_helper_pid) :
    ∃ r result, (classifyProcesses state processes)[i]? = some r ∧
      r.pid = process.pid ∧
      r.type = (if process.pid = zygote_pid then PROCESS_TYPE_ZYGOTE
        else PROCESS_TYPE_SANDBOX_HELPER) ∧
      deliveredProcesses state processes = some result ∧ r ∈ result := by
  have htype : (classifyProcess state process).type =
      (if process.pid = zygote_pid then PROCESS_TYPE_ZYGOTE
        else PROCESS_TYPE_SANDBOX_HELPER) := by
    rw [classifyProcess_unmatched state process hmatch, hposix]
    simp only [classifyZygote]
    by_cases hz : process.pid = zygote_pid
    · simp only [if_pos hz]
    · have hs : process.pid = sandbox_helper_pid := hpid.resolve_left hz
      simp only [if_neg hz, if_pos hs]
  have hknown : (classifyProcess state process).type ≠ PROCESS_TYPE_UNKNOWN := by
    rw [htype]
    split <;> simp
  obtain ⟨result, hres, hmem⟩ := mem_deliveredProcesses state processes hlen i process hget hknown
  exact ⟨classifyProcess state process, result,
    classifyProcesses_getElem? state processes i process hget,
    classifyProcess_pid state process, htype, hres, hmem⟩

/-- Scenario S6: the record with pid 10 and role Unknown, on a host whose
zygote has pid 10, ends with role Zygote and is delivered. -/
theorem zygote_refinement_witness :
    ∃ r result, (classifyProcesses stateWithZygote recordsOfS6)[0]? = some r ∧
      r.pid = 10 ∧ r.type = PROCESS_TYPE_ZYGOTE ∧
      deliveredProcesses stateWithZygote recordsOfS6 = some result ∧ r ∈ result :=
  zygote_refinement stateWithZygote recordsOfS6 (by decide) 0
    { pid := 10, titles := ["Zygote"] } rfl 10 11 rfl rfl rfl (Or.inl rfl)

/-! ### The classifier creates no record -/

/-- C12: the pids of the records delivered after classification and
filtering are a subsequence of the pids of the records before, so no record
is created for a render process host; from the empty record set the empty
record set is delivered, whatever the renderer host registry. -/
theorem classifier_creates_no_record (state : UIThreadState)
    (processes : List ProcessMemoryInformation) (hlen : processes.length < SIZE_T_MODULUS) :
    (∃ result, deliveredProcesses state processes = some result ∧
      List.Sublist (result.map (fun p => p.pid)) (processes.map (fun p => p.pid))) ∧
    deliveredProcesses state [] = some [] := by
  refine ⟨⟨_, deliveredProcesses_eq state processes hlen, ?_⟩, ?_⟩
  · have hsub : List.Sublist
        (((classifyProcesses state processes).filter roleKnown).map (fun p => p.pid))
        ((classifyProcesses state processes).map (fun p => p.pid)) :=
      (List.filter_sublist _).map _
    rw [classifyProcesses_pids] at hsub
    exact hsub
  · rfl

/-- Scenario S2 with a record: the host of pid 200 matches no record of the
set, the browser record alone is delivered. -/
theorem classifier_creates_no_record_witness :
    (∃ result, deliveredProcesses stateOfS3
        [{ pid := 100, type := PROCESS_TYPE_BROWSER }] = some result ∧
      List.Sublist (result.map (fun p => p.pid)) [100]) ∧
    deliveredProcesses stateOfS3 [] = some [] :=
  classifier_creates_no_record stateOfS3 [{ pid := 100, type := PROCESS_TYPE_BROWSER }]
    (by decide)

/-! ### The UI stage as a whole -/

theorem collectChildInfoOnUIThread_eq (state : UIThreadState) (backing_store_memory_size : Nat)
    (processes : List ProcessMemoryInformation) (hlen : processes.length < SIZE_T_MODULUS) :
    CollectChildInfoOnUIThread state backing_store_memory_size processes =
      some { processes := (classifyProcesses state processes).filter roleKnown
             histograms := UpdateHistograms backing_store_memory_size
               ((classifyProcesses state processes).filter roleKnown) } := by
  unfold CollectChildInfoOnUIThread
  rw [deliveredProcesses_eq state processes hlen]

theorem filter_roleKnown_drop (state : UIThreadState)
    (before after : List ProcessMemoryInformation) (x : ProcessMemoryInformation)
    (hx : (classifyProcess state x).type = PROCESS_TYPE_UNKNOWN) :
    (classifyProcesses state (before ++ x :: after)).filter roleKnown =
      (classifyProcesses state (before ++ after)).filter roleKnown := by
  simp [classifyProcesses, List.filter_cons, roleKnown, hx]

/-- C13: the histograms of a request are those of the filtered set alone,
and a record whose role is Unknown after classification leaves no trace in
them: the request emits the same samples, size samples, counts and total,
as the request without that record. -/
theorem unknown_records_not_in_histograms (state : UIThreadState)
    (backing_store_memory_size : Nat)
    (before after : List ProcessMemoryInformation) (x : ProcessMemoryInformation)
    (hlen : (before ++ x :: after).length < SIZE_T_MODULUS)
    (hx : (classifyProcess state x).type = PROCESS_TYPE_UNKNOWN) :
    (∃ r, CollectChildInfoOnUIThread state backing_store_memory_size
        (before ++ x :: after) = some r ∧
      r.processes = (classifyProcesses state (before ++ x :: after)).filter roleKnown ∧
      r.histograms = UpdateHistograms backing_store_memory_size r.processes ∧
      classifyProcess state x ∉ r.processes) ∧
    (CollectChildInfoOnUIThread state backing_store_memory_size
        (before ++ x :: after)).map UIThreadResult.histograms =
      (CollectChildInfoOnUIThread state backing_store_memory_size
        (before ++ after)).map UIThreadResult.histograms := by
  have hlen2 : (before ++ after).length < SIZE_T_MODULUS := by
    simp at hlen ⊢
    omega
  refine ⟨⟨_, collectChildInfoOnUIThread_eq state _ _ hlen, rfl, rfl, ?_⟩, ?_⟩
  · intro hmem
    have := (List.mem_filter.mp hmem).2
    simp [roleKnown, hx] at this
  · rw [collectChildInfoOnUIThread_eq state _ _ hlen,
      collectChildInfoOnUIThread_eq state _ _ hlen2, filter_roleKnown_drop state _ _ _ hx]

/-- Scenario S2 next to a browser: the record of pid 300 matches no host,
stays Unknown, and the histograms are those of the browser record alone. -/
theorem unknown_records_not_in_histograms_witness :
    (CollectChildInfoOnUIThread stateWithoutHosts 0
        ([{ pid := 100, type := PROCESS_TYPE_BROWSER, working_set := { priv := 50000 } }] ++
          { pid := 300, working_set := { priv := 7000 } } :: [])).map
        UIThreadResult.histograms =
      (CollectChildInfoOnUIThread stateWithoutHosts 0
        ([{ pid := 100, type := PROCESS_TYPE_BROWSER, working_set := { priv := 50000 } }] ++
          [])).map UIThreadResult.histograms :=
  (unknown_records_not_in_histograms stateWithoutHosts 0
    [{ pid := 100, type := PROCESS_TYPE_BROWSER, working_set := { priv := 50000 } }] []
    { pid := 300, working_set := { priv := 7000 } } (by decide) rfl).2

theorem updateHistogramsLoopRun_eq (dcheck_is_on : Bool)
    (processes : List ProcessMemoryInformation) :
    ∀ st : HistogramState,
      updateHistogramsLoopRun dcheck_is_on st processes =
        if dcheck_is_on &&
            processes.any (fun p => reachesNotReached p.type p.renderer_type) then none
        else some (processes.foldl updateHistogramsStep st) := by
  induction processes with
  | nil => intro st; simp [updateHistogramsLoopRun]
  | cons p rest ih =>
    intro st
    unfold updateHistogramsLoopRun
    rw [ih, List.any_cons, List.foldl_cons]
    cases dcheck_is_on
    · simp
    · cases reachesNotReached p.type p.renderer_type
      · simp
      · simp

/-- A call of `UpdateHistograms()` returns with the samples of
`UpdateHistograms`, unless the DCHECKs are on and a record reaches a
`NOTREACHED()`. -/
theorem updateHistogramsRun_eq (dcheck_is_on : Bool) (backing_store_memory_size : Nat)
    (processes : List ProcessMemoryInformation) :
    updateHistogramsRun dcheck_is_on backing_store_memory_size processes =
      if dcheck_is_on &&
          processes.any (fun p => reachesNotReached p.type p.renderer_type) then none
      else some (UpdateHistograms backing_store_memory_size processes) := by
  unfold updateHistogramsRun
  rw [updateHistogramsLoopRun_eq]
  by_cases h : (dcheck_is_on &&
      processes.any (fun p => reachesNotReached p.type p.renderer_type)) = true
  · rw [if_pos h, if_pos h]
  · rw [if_neg h, if_neg h]
    simp only [UpdateHistograms, totalSample, updateHistogramsLoop, emitKB, emitCount]

/-- The records that reach a `NOTREACHED()` of `UpdateHistograms`: the
renderers of kind Unknown, and the records whose role is Unknown or outside
the roles the source names. -/
theorem reachesNotReached_iff (type : ProcessType) (renderer_type : RendererProcessType) :
    reachesNotReached type renderer_type = true ↔
      (type = PROCESS_TYPE_RENDERER ∧ renderer_type = RENDERER_UNKNOWN) ∨
        type = PROCESS_TYPE_UNKNOWN ∨ inTaxonomy type = false := by
  cases type <;> cases renderer_type <;> simp [reachesNotReached, inTaxonomy]

theorem collectChildInfoOnUIThreadRun_eq (dcheck_is_on : Bool) (state : UIThreadState)
    (backing_store_memory_size : Nat) (processes : List ProcessMemoryInformation)
    (hlen : processes.length < SIZE_T_MODULUS) :
    collectChildInfoOnUIThreadRun dcheck_is_on state backing_store_memory_size processes =
      if dcheck_is_on && ((classifyProcesses state processes).filter roleKnown).any
          (fun p => reachesNotReached p.type p.renderer_type) then
        some [UIThreadEvent.processEndedAtNotReached]
      else
        some [UIThreadEvent.updateHistogramsReturned
                (UpdateHistograms backing_store_memory_size
                  ((classifyProcesses state processes).filter roleKnown)),
              UIThreadEvent.onDetailsAvailable
                ((classifyProcesses state processes).filter roleKnown)] := by
  have hd := deliveredProcesses_eq state processes hlen
  unfold deliveredProcesses at hd
  unfold collectChildInfoOnUIThreadRun
  simp only [hd, updateHistogramsRun_eq]
  by_cases h : (dcheck_is_on && ((classifyProcesses state processes).filter roleKnown).any
      (fun p => reachesNotReached p.type p.renderer_type)) = true
  · simp only [if_pos h]
  · simp only [if_neg h]

/-- C17, where the code leaves the claim: for every record set whose size
fits a `size_t`, the stage `CollectChildInfoOnUIThread` classifies, filters
and then calls `UpdateHistograms()`. In a build with DCHECKs, when a
delivered record is a renderer of kind Unknown (or has a role outside the
roles the source names), the process ends at the `NOTREACHED()` of
`UpdateHistograms` and the consumer callback `OnDetailsAvailable` is not
called. In every other case `UpdateHistograms()` returns with its samples
and `OnDetailsAvailable()` is then called exactly once, last, with the
classified and filtered records. -/
theorem callback_once_unless_not_reached (dcheck_is_on : Bool) (state : UIThreadState)
    (backing_store_memory_size : Nat) (processes : List ProcessMemoryInformation)
    (hlen : processes.length < SIZE_T_MODULUS) :
    ∃ result events,
      CollectChildInfoOnUIThread state backing_store_memory_size processes = some result ∧
      collectChildInfoOnUIThreadRun dcheck_is_on state backing_store_memory_size processes =
        some events ∧
      ((dcheck_is_on = true ∧
          ∃ p ∈ result.processes, reachesNotReached p.type p.renderer_type = true) →
        events = [UIThreadEvent.processEndedAtNotReached] ∧
          events.countP isOnDetailsAvailable = 0) ∧
      (¬(dcheck_is_on = true ∧
          ∃ p ∈ result.processes, reachesNotReached p.type p.renderer_type = true) →
        events = [UIThreadEvent.updateHistogramsReturned result.histograms,
                  UIThreadEvent.onDetailsAvailable result.processes] ∧
          result.histograms = UpdateHistograms backing_store_memory_size result.processes ∧
          result.processes = (classifyProcesses state processes).filter roleKnown ∧
          events.countP isOnDetailsAvailable = 1 ∧
          events.getLast? = some (UIThreadEvent.onDetailsAvailable result.processes)) ∧
      (∀ p ∈ result.processes,
        reachesNotReached p.type p.renderer_type = true ↔
          (p.type = PROCESS_TYPE_RENDERER ∧ p.renderer_type = RENDERER_UNKNOWN) ∨
            inTaxonomy p.type = false) := by
  have hrun := collectChildInfoOnUIThreadRun_eq dcheck_is_on state backing_store_memory_size
    processes hlen
  have hcond : (dcheck_is_on && ((classifyProcesses state processes).filter roleKnown).any
        (fun p => reachesNotReached p.type p.renderer_type)) = true ↔
      (dcheck_is_on = true ∧ ∃ p ∈ (classifyProcesses state processes).filter roleKnown,
        reachesNotReached p.type p.renderer_type = true) := by
    rw [Bool.and_eq_true, List.any_eq_true]
  by_cases hc : (dcheck_is_on && ((classifyProcesses state processes).filter roleKnown).any
        (fun p => reachesNotReached p.type p.renderer_type)) = true
  · rw [if_pos hc] at hrun
    refine ⟨_, _, collectChildInfoOnUIThread_eq state backing_store_memory_size processes hlen,
      hrun, fun _ => ⟨rfl, rfl⟩, fun hn => absurd (hcond.mp hc) hn, ?_⟩
    intro p hp
    rw [reachesNotReached_iff]
    have hknown : p.type ≠ PROCESS_TYPE_UNKNOWN := by
      have := (List.mem_filter.mp hp).2
      simpa [roleKnown] using this
    constructor
    · rintro (h | h | h)
      · exact Or.inl h
      · exact absurd h hknown
      · exact Or.inr h
    · rintro (h | h)
      · exact Or.inl h
      · exact Or.inr (Or.inr h)
  · rw [if_neg hc] at hrun
    refine ⟨_, _, collectChildInfoOnUIThread_eq state backing_store_memory_size processes hlen,
      hrun, fun ha => absurd (hcond.mpr ha) hc, fun _ => ⟨rfl, rfl, rfl, rfl, rfl⟩, ?_⟩
    intro p hp
    rw [reachesNotReached_iff]
    have hknown : p.type ≠ PROCESS_TYPE_UNKNOWN := by
      have := (List.mem_filter.mp hp).2
      simpa [roleKnown] using this
    constructor
    · rintro (h | h | h)
      · exact Or.inl h
      · exact absurd h hknown
      · exact Or.inr h
    · rintro (h | h)
      · exact Or.inl h
      · exact Or.inr (Or.inr h)

/-- The failing input of C2, a record of pid 200 matched to a connected
render process host without views: in a build with DCHECKs the process ends
at `NOTREACHED()` and the callback is not called; in a build without them
the callback is called once, after `UpdateHistograms()` has returned. -/
theorem callback_once_unless_not_reached_witness :
    collectChildInfoOnUIThreadRun true stateHostWithoutViews 0 [{ pid := 200 }] =
      some [UIThreadEvent.processEndedAtNotReached] ∧
    ∃ samples,
      collectChildInfoOnUIThreadRun false stateHostWithoutViews 0 [{ pid := 200 }] =
        some [UIThreadEvent.updateHistogramsReturned samples,
              UIThreadEvent.onDetailsAvailable
                [{ pid := 200, type := PROCESS_TYPE_RENDERER }]] := by
  have hdelivered : deliveredProcesses stateHostWithoutViews [{ pid := 200 }] =
      some [{ pid := 200, type := PROCESS_TYPE_RENDERER }] := by decide
  constructor
  · obtain ⟨result, events, hresult, hrun, habort, _, _⟩ :=
      callback_once_unless_not_reached true stateHostWithoutViews 0 [{ pid := 200 }]
        (by decide)
    unfold CollectChildInfoOnUIThread at hresult
    rw [hdelivered] at hresult
    simp only [Option.some.injEq] at hresult
    subst hresult
    rw [hrun, (habort ⟨rfl, _, List.mem_singleton_self _, by decide⟩).1]
  · obtain ⟨result, events, hresult, hrun, _, hreturned, _⟩ :=
      callback_once_unless_not_reached false stateHostWithoutViews 0 [{ pid := 200 }]
        (by decide)
    unfold CollectChildInfoOnUIThread at hresult
    rw [hdelivered] at hresult
    simp only [Option.some.injEq] at hresult
    subst hresult
    have hevents := (hreturned (fun h => Bool.noConfusion h.1)).1
    exact ⟨_, by rw [hrun, hevents]⟩


/-! ### The classifier only refines -/

theorem refines_refl (process : ProcessMemoryInformation) : refines process process := by
  refine ⟨rfl, rfl, List.prefix_refl _, ?_, ?_⟩
  · cases process.is_diagnostics <;> simp
  · by_cases h : process.renderer_type = RENDERER_UNKNOWN
    · exact Or.inr h
    · exact Or.inl h

theorem refines_trans {a b c : ProcessMemoryInformation} (hab : refines a b)
    (hbc : refines b c) : refines a c := by
  obtain ⟨h1, h2, h3, h4, h5⟩ := hab
  obtain ⟨k1, k2, k3, k4, k5⟩ := hbc
  refine ⟨k1.trans h1, k2.trans h2, h3.trans k3, ?_, ?_⟩
  · rcases h4 with h4 | h4
    · rcases k4 with k4 | k4
      · exact Or.inl k4
      · rw [h4] at k4; cases k4
    · exact Or.inr h4
  · rcases h5 with h5 | h5
    · rcases k5 with k5 | k5
      · exact Or.inl k5
      · exact absurd k5 h5
    · exact Or.inr h5

theorem refines_set_kind (process : ProcessMemoryInformation) (kind : RendererProcessType)
    (h : kind ≠ RENDERER_UNKNOWN ∨ process.renderer_type = RENDERER_UNKNOWN) :
    refines process { process with renderer_type := kind } := by
  refine ⟨rfl, rfl, List.prefix_refl _, ?_, h⟩
  cases hd : process.is_diagnostics <;> simp

theorem refines_push_title (process : ProcessMemoryInformation) (title : String) :
    refines process { process with titles := process.titles ++ [title] } := by
  refine ⟨rfl, rfl, List.prefix_append _ _, ?_, ?_⟩
  · cases hd : process.is_diagnostics <;> simp
  · by_cases h : process.renderer_type = RENDERER_UNKNOWN
    · exact Or.inr h
    · exact Or.inl h

theorem refines_set_diagnostics (process : ProcessMemoryInformation) :
    refines process { process with is_diagnostics := true } := by
  refine ⟨rfl, rfl, List.prefix_refl _, Or.inl rfl, ?_⟩
  by_cases h : process.renderer_type = RENDERER_UNKNOWN
  · exact Or.inr h
  · exact Or.inl h

theorem refines_set_type (process : ProcessMemoryInformation) (type : ProcessType) :
    refines process { process with type := type } := by
  refine ⟨rfl, rfl, List.prefix_refl _, ?_, ?_⟩
  · cases hd : process.is_diagnostics <;> simp
  · by_cases h : process.renderer_type = RENDERER_UNKNOWN
    · exact Or.inr h
    · exact Or.inl h

theorem scanExtensionIds_refines (service : ExtensionService) (ids : List String) :
    ∀ process, refines process (scanExtensionIds service process ids) := by
  induction ids with
  | nil => intro process; exact refines_refl process
  | cons id rest ih =>
    intro process
    unfold scanExtensionIds
    split
    · split
      · exact refines_set_kind process _ (Or.inl (by simp))
      · exact ih process
    · exact ih process

theorem classifyBindings_refines (service : ExtensionService)
    (process : ProcessMemoryInformation) (w : RenderWidgetHost) :
    refines process (classifyBindings service process w) := by
  unfold classifyBindings
  split
  · split
    · exact refines_set_kind process _ (Or.inl (by simp))
    · exact refines_set_kind process _ (Or.inl (by simp))
  · split
    · exact scanExtensionIds_refines _ _ _
    · exact refines_refl process

theorem classifyNoContents_refines (service : ExtensionService)
    (process : ProcessMemoryInformation) (w : RenderWidgetHost) :
    refines process (classifyNoContents service process w) := by
  unfold classifyNoContents
  split
  · split
    · exact refines_push_title process _
    · exact refines_refl process
  · split
    · rename_i hkind
      exact refines_trans (refines_push_title process w.url.spec)
        (refines_set_kind _ _ (Or.inr hkind))
    · exact refines_refl process

theorem classifyContents_refines (title : String)
    (process : ProcessMemoryInformation) (contents : WebContents) :
    refines process (classifyContents title process contents) := by
  have h1 : refines process
      (if process.renderer_type = RENDERER_UNKNOWN then
        { process with renderer_type := RENDERER_NORMAL } else process) := by
    split
    · exact refines_set_kind process _ (Or.inl (by simp))
    · exact refines_refl process
  unfold classifyContents
  simp only
  split
  · exact refines_trans h1 (refines_trans (refines_push_title _ _) (refines_set_diagnostics _))
  · exact refines_trans h1 (refines_push_title _ _)

theorem classifyListener_refines (service : ExtensionService) (title : String)
    (process : ProcessMemoryInformation) (w : RenderWidgetHost) :
    refines process (classifyListener service title process w) := by
  unfold classifyListener
  split
  · exact refines_refl process
  · simp only
    split
    · exact refines_trans (classifyBindings_refines _ _ _) (classifyNoContents_refines _ _ _)
    · exact refines_trans (classifyBindings_refines _ _ _) (classifyContents_refines _ _ _)

theorem classifyRenderProcessHost_refines (state : UIThreadState)
    (process : ProcessMemoryInformation) (host : RenderProcessHost) :
    refines process (classifyRenderProcessHost state process host) := by
  unfold classifyRenderProcessHost
  split
  · exact refines_refl process
  · exact foldl_preserves (fun a : ProcessMemoryInformation => refines process a) _ _
      (fun a b _ ha => refines_trans ha (classifyListener_refines _ _ a b)) _
      (refines_set_type process _)

theorem classifyZygote_refines (zygote : Option (ProcessId × ProcessId))
    (process : ProcessMemoryInformation) : refines process (classifyZygote zygote process) := by
  unfold classifyZygote
  split
  · exact refines_refl process
  · split
    · exact refines_set_type process _
    · split
      · exact refines_set_type process _
      · exact refines_refl process

theorem classifyProcess_refines (state : UIThreadState) (process : ProcessMemoryInformation) :
    refines process (classifyProcess state process) := by
  unfold classifyProcess
  refine refines_trans ?_ (classifyZygote_refines _ _)
  exact foldl_preserves (fun a : ProcessMemoryInformation => refines process a) _ _
    (fun a b _ ha => refines_trans ha (classifyRenderProcessHost_refines state a b)) _
    (refines_refl process)

/-- C16: classification leaves the pid and the working set figures of a
record unchanged, keeps its titles as a prefix of the new titles, never
resets a set diagnostics flag and never turns a renderer kind other than
Unknown back to Unknown. -/
theorem classifier_only_refines (state : UIThreadState)
    (processes : List ProcessMemoryInformation) (i : Nat) (process : ProcessMemoryInformation)
    (hget : processes[i]? = some process) :
    ∃ r, (classifyProcesses state processes)[i]? = some r ∧
      r.pid = process.pid ∧
      r.working_set = process.working_set ∧
      process.titles <+: r.titles ∧
      (r.is_diagnostics = true ∨ process.is_diagnostics = false) ∧
      (r.renderer_type ≠ RENDERER_UNKNOWN ∨ process.renderer_type = RENDERER_UNKNOWN) :=
  ⟨classifyProcess state process, classifyProcesses_getElem? state processes i process hget,
    classifyProcess_refines state process⟩

/-- Scenario S3: the renderer record keeps pid 200 and 80000 KB and gains the
title "Example". -/
theorem classifier_only_refines_witness :
    ∃ r, (classifyProcesses stateOfS3 recordsBeforeClassification)[1]? = some r ∧
      r.pid = 200 ∧
      r.working_set = { priv := 80000 } ∧
      [] <+: r.titles ∧
      (r.is_diagnostics = true ∨ false = false) ∧
      (r.renderer_type ≠ RENDERER_UNKNOWN ∨ RENDERER_UNKNOWN = RENDERER_UNKNOWN) :=
  classifier_only_refines stateOfS3 recordsBeforeClassification 1
    { pid := 200, working_set := { priv := 80000 } } rfl

/-! ### The role of a record -/

theorem scanExtensionIds_type (service : ExtensionService) (ids : List String) :
    ∀ process, (scanExtensionIds service process ids).type = process.type := by
  induction ids with
  | nil => intro process; rfl
  | cons id rest ih =>
    intro process
    unfold scanExtensionIds
    split
    · split
      · rfl
      · exact ih process
    · exact ih process

theorem classifyBindings_type (service : ExtensionService) (process : ProcessMemoryInformation)
    (w : RenderWidgetHost) : (classifyBindings service process w).type = process.type := by
  unfold classifyBindings
  split
  · split <;> rfl
  · split
    · exact scanExtensionIds_type _ _ _
    · rfl

theorem classifyNoContents_type (service : ExtensionService)
    (process : ProcessMemoryInformation) (w : RenderWidgetHost) :
    (classifyNoContents service process w).type = process.type := by
  unfold classifyNoContents
  split
  · split <;> rfl
  · split <;> rfl

theorem classifyContents_type (title : String) (process : ProcessMemoryInformation)
    (contents : WebContents) : (classifyContents title process contents).type = process.type := by
  unfold classifyContents
  simp only
  split <;> split <;> rfl

theorem classifyListener_type (service : ExtensionService) (title : String)
    (process : ProcessMemoryInformation) (w : RenderWidgetHost) :
    (classifyListener service title process w).type = process.type := by
  unfold classifyListener
  split
  · rfl
  · simp only
    split
    · rw [classifyNoContents_type, classifyBindings_type]
    · rw [classifyContents_type, classifyBindings_type]

theorem classifyRenderProcessHost_type (state : UIThreadState)
    (process : ProcessMemoryInformation) (host : RenderProcessHost) :
    (classifyRenderProcessHost state process host).type =
      if matchesHost state process host then PROCESS_TYPE_RENDERER else process.type := by
  unfold classifyRenderProcessHost matchesHost
  by_cases hskip : (!host.has_connection || process.pid != state.GetProcId host.handle) = true
  · rw [if_pos hskip]
    have : (host.has_connection && process.pid == state.GetProcId host.handle) = false := by
      cases hc : host.has_connection <;> simp_all
    simp [this]
  · rw [if_neg hskip]
    have : (host.has_connection && process.pid == state.GetProcId host.handle) = true := by
      cases hc : host.has_connection <;> simp_all
    simp only [this, if_true]
    exact foldl_preserves
      (fun a : ProcessMemoryInformation => a.type = PROCESS_TYPE_RENDERER) _ _
      (fun a b _ ha => by simpa [classifyListener_type] using ha) _ rfl

theorem foldl_hosts_type (state : UIThreadState) (process : ProcessMemoryInformation) :
    (state.all_hosts.foldl (classifyRenderProcessHost state) process).type = process.type ∨
    (state.all_hosts.foldl (classifyRenderProcessHost state) process).type =
      PROCESS_TYPE_RENDERER :=
  foldl_preserves
    (fun a : ProcessMemoryInformation =>
      a.type = process.type ∨ a.type = PROCESS_TYPE_RENDERER) _ _
    (fun a b _ ha => by
      show (classifyRenderProcessHost state a b).type = process.type ∨
        (classifyRenderProcessHost state a b).type = PROCESS_TYPE_RENDERER
      rw [classifyRenderProcessHost_type]
      split
      · exact Or.inr rfl
      · exact ha) _ (Or.inl rfl)

theorem classifyZygote_type (zygote : Option (ProcessId × ProcessId))
    (process : ProcessMemoryInformation) :
    (classifyZygote zygote process).type = process.type ∨
    (classifyZygote zygote process).type = PROCESS_TYPE_ZYGOTE ∨
    (classifyZygote zygote process).type = PROCESS_TYPE_SANDBOX_HELPER := by
  unfold classifyZygote
  split
  · exact Or.inl rfl
  · split
    · exact Or.inr (Or.inl rfl)
    · split
      · exact Or.inr (Or.inr rfl)
      · exact Or.inl rfl

theorem classifyZygote_other_pid (zygote : Option (ProcessId × ProcessId))
    (process : ProcessMemoryInformation)
    (h : ∀ zygote_pid sandbox_helper_pid, zygote = some (zygote_pid, sandbox_helper_pid) →
      process.pid ≠ zygote_pid ∧ process.pid ≠ sandbox_helper_pid) :
    classifyZygote zygote process = process := by
  unfold classifyZygote
  split
  · rfl
  · rename_i zygote_pid sandbox_helper_pid
    have := h zygote_pid sandbox_helper_pid rfl
    rw [if_neg this.1, if_neg this.2]

theorem classifyProcess_type (state : UIThreadState) (process : ProcessMemoryInformation) :
    (classifyProcess state process).type = process.type ∨
    (classifyProcess state process).type = PROCESS_TYPE_RENDERER ∨
    (classifyProcess state process).type = PROCESS_TYPE_ZYGOTE ∨
    (classifyProcess state process).type = PROCESS_TYPE_SANDBOX_HELPER := by
  unfold classifyProcess
  rcases classifyZygote_type state.zygote
    (state.all_hosts.foldl (classifyRenderProcessHost state) process) with h | h | h
  · rcases foldl_hosts_type state process with k | k
    · exact Or.inl (h.trans k)
    · exact Or.inr (Or.inl (h.trans k))
  · exact Or.inr (Or.inr (Or.inl h))
  · exact Or.inr (Or.inr (Or.inr h))

/-- C15, at a plugin record whose pid is the pid of a connected render
process host: the record enters classification with role Plugin and is
delivered with role Renderer. -/
theorem known_role_overwritten :
    pluginRecordWithRendererPid.map (fun p => p.type) = [PROCESS_TYPE_PLUGIN] ∧
    (deliveredProcesses stateHostWithoutViews pluginRecordWithRendererPid).map
      (fun result => result.map (fun p => p.type)) = some [PROCESS_TYPE_RENDERER] := by
  constructor <;> decide

theorem matchesHost_congr (state : UIThreadState) (a process : ProcessMemoryInformation)
    (host : RenderProcessHost) (ha : a.pid = process.pid) :
    matchesHost state a host = matchesHost state process host := by
  unfold matchesHost
  rw [ha]

theorem foldl_hosts_type_of_pid (state : UIThreadState) (process : ProcessMemoryInformation)
    (hosts : List RenderProcessHost) :
    ∀ a : ProcessMemoryInformation, a.pid = process.pid →
      (hosts.foldl (classifyRenderProcessHost state) a).type =
        if hosts.any (matchesHost state process) then PROCESS_TYPE_RENDERER else a.type := by
  induction hosts with
  | nil => intro a _; simp
  | cons host rest ih =>
    intro a ha
    have hpid : (classifyRenderProcessHost state a host).pid = process.pid := by
      rw [classifyRenderProcessHost_pid, ha]
    rw [List.foldl_cons, ih _ hpid, classifyRenderProcessHost_type,
      matchesHost_congr state a process host ha, List.any_cons]
    cases hm : matchesHost state process host
    · simp
    · simp

/-- The role after the loop over the hosts: Renderer when the record is
matched to a connected host, the role before otherwise. -/
theorem foldl_hosts_type_eq (state : UIThreadState) (process : ProcessMemoryInformation) :
    (state.all_hosts.foldl (classifyRenderProcessHost state) process).type =
      if state.all_hosts.any (matchesHost state process) then PROCESS_TYPE_RENDERER
      else process.type :=
  foldl_hosts_type_of_pid state process state.all_hosts process rfl

theorem any_matchesHost_eq_false (state : UIThreadState) (process : ProcessMemoryInformation) :
    state.all_hosts.any (matchesHost state process) = false ↔
      matchedHosts state process = [] := by
  unfold matchedHosts
  rw [List.filter_eq_nil_iff]
  simp

/-- The role after classification, case by case on the pid of the record. -/
theorem classifyProcess_type_eq (state : UIThreadState) (process : ProcessMemoryInformation) :
    (classifyProcess state process).type =
      match state.zygote with
      | none =>
        if state.all_hosts.any (matchesHost state process) then PROCESS_TYPE_RENDERER
        else process.type
      | some (zygote_pid, sandbox_helper_pid) =>
        if process.pid = zygote_pid then PROCESS_TYPE_ZYGOTE
        else if process.pid = sandbox_helper_pid then PROCESS_TYPE_SANDBOX_HELPER
        else if state.all_hosts.any (matchesHost state process) then PROCESS_TYPE_RENDERER
        else process.type := by
  unfold classifyProcess classifyZygote
  have hpid := foldl_classifyRenderProcessHost_pid state state.all_hosts process
  have htype := foldl_hosts_type_eq state process
  cases hz : state.zygote with
  | none => simp only [htype]
  | some pids =>
    obtain ⟨zygote_pid, sandbox_helper_pid⟩ := pids
    simp only [hpid]
    by_cases h1 : process.pid = zygote_pid
    · simp only [if_pos h1]
    · simp only [if_neg h1]
      by_cases h2 : process.pid = sandbox_helper_pid
      · simp only [if_pos h2]
      · simp only [if_neg h2, htype]
/-- C15, amended: after classification the role of a record is decided by
its pid, whatever its role was before: Zygote when the pid is the zygote pid;
otherwise SandboxHelper when the pid is the sandbox helper pid; otherwise
Renderer when the record is matched to a connected render process host (the
host's pid is the pid of the record); otherwise the role it had before. A
role that changed is Renderer for a record matched to a connected host,
Zygote for a record with the zygote pid, or SandboxHelper for a record with
the sandbox helper pid; so a record whose role was Unknown ends as Unknown,
Renderer, Zygote or SandboxHelper. -/
theorem role_after_classification (state : UIThreadState)
    (processes : List ProcessMemoryInformation) (i : Nat) (process : ProcessMemoryInformation)
    (hget : processes[i]? = some process) :
    ∃ r, (classifyProcesses state processes)[i]? = some r ∧
      (r.type = process.type ∨ r.type = PROCESS_TYPE_RENDERER ∨
        r.type = PROCESS_TYPE_ZYGOTE ∨ r.type = PROCESS_TYPE_SANDBOX_HELPER) ∧
      (process.type = PROCESS_TYPE_UNKNOWN →
        r.type = PROCESS_TYPE_UNKNOWN ∨ r.type = PROCESS_TYPE_RENDERER ∨
          r.type = PROCESS_TYPE_ZYGOTE ∨ r.type = PROCESS_TYPE_SANDBOX_HELPER) ∧
      (matchedHosts state process = [] →
        (∀ zygote_pid sandbox_helper_pid,
          state.zygote = some (zygote_pid, sandbox_helper_pid) →
          process.pid ≠ zygote_pid ∧ process.pid ≠ sandbox_helper_pid) →
        r.type = process.type) ∧
      (matchedHosts state process ≠ [] →
        (∀ zygote_pid sandbox_helper_pid,
          state.zygote = some (zygote_pid, sandbox_helper_pid) →
          process.pid ≠ zygote_pid ∧ process.pid ≠ sandbox_helper_pid) →
        r.type = PROCESS_TYPE_RENDERER) ∧
      (∀ zygote_pid sandbox_helper_pid,
        state.zygote = some (zygote_pid, sandbox_helper_pid) →
        process.pid = zygote_pid → r.type = PROCESS_TYPE_ZYGOTE) ∧
      (∀ zygote_pid sandbox_helper_pid,
        state.zygote = some (zygote_pid, sandbox_helper_pid) →
        process.pid ≠ zygote_pid → process.pid = sandbox_helper_pid →
        r.type = PROCESS_TYPE_SANDBOX_HELPER) ∧
      (r.type ≠ process.type →
        (r.type = PROCESS_TYPE_RENDERER ∧ matchedHosts state process ≠ []) ∨
        (r.type = PROCESS_TYPE_ZYGOTE ∧
          ∃ sandbox_helper_pid, state.zygote = some (process.pid, sandbox_helper_pid)) ∨
        (r.type = PROCESS_TYPE_SANDBOX_HELPER ∧
          ∃ zygote_pid, state.zygote = some (zygote_pid, process.pid))) := by
  have heq := classifyProcess_type_eq state process
  have hany := any_matchesHost_eq_false state process
  refine ⟨classifyProcess state process,
    classifyProcesses_getElem? state processes i process hget,
    classifyProcess_type state process, ?_, ?_, ?_, ?_, ?_, ?_⟩
  · intro hunknown
    have h := classifyProcess_type state process
    rw [hunknown] at h
    exact h
  · intro hmatch hpid
    rw [classifyProcess_unmatched state process hmatch,
      classifyZygote_other_pid state.zygote process hpid]
  · intro hmatch hpid
    have hmatched : state.all_hosts.any (matchesHost state process) = true := by
      cases hc : state.all_hosts.any (matchesHost state process)
      · exact absurd (hany.mp hc) hmatch
      · rfl
    rw [heq]
    cases hz : state.zygote with
    | none => simp only [hmatched, if_true]
    | some pids =>
      obtain ⟨zygote_pid, sandbox_helper_pid⟩ := pids
      obtain ⟨h1, h2⟩ := hpid zygote_pid sandbox_helper_pid hz
      simp only [if_neg h1, if_neg h2, hmatched, if_true]
  · intro zygote_pid sandbox_helper_pid hz h1
    rw [heq, hz]
    simp only [if_pos h1]
  · intro zygote_pid sandbox_helper_pid hz h1 h2
    rw [heq, hz]
    simp only [if_neg h1, if_pos h2]
  · intro hne
    rw [heq] at hne ⊢
    cases hz : state.zygote with
    | none =>
      rw [hz] at hne
      simp only at hne ⊢
      cases hc : state.all_hosts.any (matchesHost state process)
      · rw [hc] at hne
        exact absurd rfl hne
      · refine Or.inl ⟨by simp, fun hnil => ?_⟩
        rw [hany.mpr hnil] at hc
        cases hc
    | some pids =>
      obtain ⟨zygote_pid, sandbox_helper_pid⟩ := pids
      rw [hz] at hne
      simp only at hne ⊢
      by_cases h1 : process.pid = zygote_pid
      · rw [if_pos h1]
        exact Or.inr (Or.inl ⟨rfl, sandbox_helper_pid, by rw [h1]⟩)
      · by_cases h2 : process.pid = sandbox_helper_pid
        · rw [if_neg h1, if_pos h2]
          exact Or.inr (Or.inr ⟨rfl, zygote_pid, by rw [h2]⟩)
        · simp only [if_neg h1, if_neg h2] at hne ⊢
          cases hc : state.all_hosts.any (matchesHost state process)
          · rw [hc] at hne
            exact absurd rfl hne
          · refine Or.inl ⟨by simp, fun hnil => ?_⟩
            rw [hany.mpr hnil] at hc
            cases hc

/-- Three records: the browser record of scenario S3, pid 100, matches no
host and keeps the role Browser; the plugin record whose pid is the pid of a
connected host ends as Renderer; the record of scenario S6 with the zygote
pid ends as Zygote. -/
theorem role_after_classification_witness :
    (∃ r, (classifyProcesses stateOfS3 recordsBeforeClassification)[0]? = some r ∧
      r.type = PROCESS_TYPE_BROWSER) ∧
    (∃ r, (classifyProcesses stateHostWithoutViews pluginRecordWithRendererPid)[0]? =
        some r ∧ r.type = PROCESS_TYPE_RENDERER) ∧
    (∃ r, (classifyProcesses stateWithZygote recordsOfS6)[0]? = some r ∧
      r.type = PROCESS_TYPE_ZYGOTE) :=
  ⟨(role_after_classification stateOfS3 recordsBeforeClassification 0
      { pid := 100, type := PROCESS_TYPE_BROWSER, working_set := { priv := 50000 } } rfl).imp
      (fun _ h => ⟨h.1, h.2.2.2.1 rfl (by intro _ _ hz; cases hz)⟩),
    (role_after_classification stateHostWithoutViews pluginRecordWithRendererPid 0
      { pid := 200, type := PROCESS_TYPE_PLUGIN, titles := ["Flash"] } rfl).imp
      (fun _ h => ⟨h.1, h.2.2.2.2.1
        (fun hnil => by
          have hfalse := (any_matchesHost_eq_false stateHostWithoutViews
            { pid := 200, type := PROCESS_TYPE_PLUGIN, titles := ["Flash"] }).mpr hnil
          revert hfalse
          decide)
        (by intro _ _ hz; cases hz)⟩),
    (role_after_classification stateWithZygote recordsOfS6 0
      { pid := 10, titles := ["Zygote"] } rfl).imp
      (fun _ h => ⟨h.1, h.2.2.2.2.2.1 10 11 rfl rfl⟩)⟩

/-! ### The titles of a renderer -/

theorem titles_ne_nil_of_refines {a b : ProcessMemoryInformation} (h : refines a b)
    (ha : a.titles ≠ []) : b.titles ≠ [] := by
  obtain ⟨t, ht⟩ := h.2.2.1
  intro hb
  rw [hb] at ht
  exact ha (List.append_eq_nil.mp ht).1

theorem classifyContents_titles (title : String) (process : ProcessMemoryInformation)
    (contents : WebContents) : (classifyContents title process contents).titles ≠ [] := by
  unfold classifyContents
  simp only
  split <;> simp

theorem classifyListener_titles_of_contents (service : ExtensionService) (title : String)
    (process : ProcessMemoryInformation) (w : RenderWidgetHost)
    (hview : w.is_render_view = true) (hc : w.web_contents ≠ none) :
    (classifyListener service title process w).titles ≠ [] := by
  unfold classifyListener
  simp only [hview, Bool.not_true, Bool.false_eq_true, if_false]
  split
  · rename_i hnone
    exact absurd hnone hc
  · exact classifyContents_titles _ _ _

theorem classifyProcess_titles (state : UIThreadState) (process : ProcessMemoryInformation)
    (hsrc : process.titles ≠ [] ∨
      ∃ host ∈ state.all_hosts, matchesHost state process host = true ∧
        ∃ w ∈ host.listeners, w.is_render_view = true ∧ w.web_contents ≠ none) :
    (classifyProcess state process).titles ≠ [] := by
  rcases hsrc with h | ⟨host, hhost, hm, w, hw, hview, hc⟩
  · exact titles_ne_nil_of_refines (classifyProcess_refines state process) h
  · have hconn : host.has_connection = true := by
      unfold matchesHost at hm
      simp at hm
      exact hm.1
    have hpid : process.pid = state.GetProcId host.handle := by
      unfold matchesHost at hm
      simp at hm
      exact hm.2
    unfold classifyProcess
    refine titles_ne_nil_of_refines (classifyZygote_refines _ _) ?_
    refine foldl_reaches (fun a : ProcessMemoryInformation => a.pid = process.pid)
      (fun a => a.titles ≠ []) _ _ host hhost ?_ ?_ ?_ process rfl
    · intro a b _ ha
      simpa [classifyRenderProcessHost_pid] using ha
    · intro a b _ ha
      exact titles_ne_nil_of_refines (classifyRenderProcessHost_refines state a b) ha
    · intro a ha
      rw [classifyRenderProcessHost_matched state a host hconn (ha.trans hpid)]
      exact foldl_reaches (fun _ => True)
        (fun a : ProcessMemoryInformation => a.titles ≠ []) _ _ w hw
        (fun _ _ _ _ => trivial)
        (fun a b _ ha => titles_ne_nil_of_refines (classifyListener_refines _ _ a b) ha)
        (fun a _ => classifyListener_titles_of_contents _ _ a w hview hc) _ trivial

/-- C14, at a record without titles matched to a connected render process
host without any view: the record is delivered with role Renderer and no
title. -/
theorem renderer_without_title_delivered :
    (deliveredProcesses stateHostWithoutViews [{ pid := 200 }]).map
      (fun result => result.map (fun p => (p.type, p.titles))) =
      some [(PROCESS_TYPE_RENDERER, [])] := by
  decide

/-- C14, amended: a record that had a title before classification, or that
is matched to a connected render process host with a view surface that has
web contents, has a non-empty titles sequence after classification, and so
when it survives the filter. -/
theorem renderer_titles_nonempty (state : UIThreadState)
    (processes : List ProcessMemoryInformation) (i : Nat) (process : ProcessMemoryInformation)
    (hget : processes[i]? = some process)
    (hsrc : process.titles ≠ [] ∨
      ∃ host ∈ state.all_hosts, matchesHost state process host = true ∧
        ∃ w ∈ host.listeners, w.is_render_view = true ∧ w.web_contents ≠ none) :
    ∃ r, (classifyProcesses state processes)[i]? = some r ∧ r.titles ≠ [] :=
  ⟨classifyProcess state process, classifyProcesses_getElem? state processes i process hget,
    classifyProcess_titles state process hsrc⟩

/-- Scenario S3: the renderer record has no title before classification and
is matched to a host with a tab. -/
theorem renderer_titles_nonempty_witness :
    ∃ r, (classifyProcesses stateOfS3 recordsBeforeClassification)[1]? = some r ∧
      r.titles ≠ [] :=
  renderer_titles_nonempty stateOfS3 recordsBeforeClassification 1
    { pid := 200, working_set := { priv := 80000 } } rfl
    (Or.inr ⟨⟨true, 200, noExtensions, [memoryTab]⟩, List.mem_singleton.mpr rfl, rfl,
      memoryTab, List.mem_singleton.mpr rfl, rfl, by decide⟩)

/-! ### The emitter -/

theorem recordSample_chrome (st : HistogramState) (p : ProcessMemoryInformation)
    (sample : Int) :
    (recordSample st p.type p.renderer_type sample).chrome_count =
      st.chrome_count + if countsAsChrome p then 1 else 0 := by
  obtain ⟨pid, ws, n, d, titles, type, renderer_type⟩ := p
  cases type
  case PROCESS_TYPE_RENDERER =>
    cases renderer_type <;> simp [recordSample, emitKB, countsAsChrome]
  all_goals simp [recordSample, emitKB, countsAsChrome]

theorem recordSample_extension (st : HistogramState) (p : ProcessMemoryInformation)
    (sample : Int) :
    (recordSample st p.type p.renderer_type sample).extension_count =
      st.extension_count + if countsAsExtension p then 1 else 0 := by
  obtain ⟨pid, ws, n, d, titles, type, renderer_type⟩ := p
  cases type
  case PROCESS_TYPE_RENDERER =>
    cases renderer_type <;> simp [recordSample, emitKB, countsAsExtension]
  all_goals simp [recordSample, emitKB, countsAsExtension]

theorem recordSample_renderer (st : HistogramState) (p : ProcessMemoryInformation)
    (sample : Int) :
    (recordSample st p.type p.renderer_type sample).renderer_count =
      st.renderer_count + if countsAsRenderer p then 1 else 0 := by
  obtain ⟨pid, ws, n, d, titles, type, renderer_type⟩ := p
  cases type
  case PROCESS_TYPE_RENDERER =>
    cases renderer_type <;> simp [recordSample, emitKB, countsAsRenderer]
  all_goals simp [recordSample, emitKB, countsAsRenderer]

theorem recordSample_plugin (st : HistogramState) (p : ProcessMemoryInformation)
    (sample : Int) :
    (recordSample st p.type p.renderer_type sample).plugin_count =
      st.plugin_count + if countsAsPlugin p then 1 else 0 := by
  obtain ⟨pid, ws, n, d, titles, type, renderer_type⟩ := p
  cases type
  case PROCESS_TYPE_RENDERER =>
    cases renderer_type <;> simp [recordSample, emitKB, countsAsPlugin]
  all_goals simp [recordSample, emitKB, countsAsPlugin]

theorem recordSample_pepper_plugin (st : HistogramState) (p : ProcessMemoryInformation)
    (sample : Int) :
    (recordSample st p.type p.renderer_type sample).pepper_plugin_count =
      st.pepper_plugin_count + if countsAsPepperPlugin p then 1 else 0 := by
  obtain ⟨pid, ws, n, d, titles, type, renderer_type⟩ := p
  cases type
  case PROCESS_TYPE_RENDERER =>
    cases renderer_type <;> simp [recordSample, emitKB, countsAsPepperPlugin]
  all_goals simp [recordSample, emitKB, countsAsPepperPlugin]

theorem recordSample_worker (st : HistogramState) (p : ProcessMemoryInformation)
    (sample : Int) :
    (recordSample st p.type p.renderer_type sample).worker_count =
      st.worker_count + if countsAsWorker p then 1 else 0 := by
  obtain ⟨pid, ws, n, d, titles, type, renderer_type⟩ := p
  cases type
  case PROCESS_TYPE_RENDERER =>
    cases renderer_type <;> simp [recordSample, emitKB, countsAsWorker]
  all_goals simp [recordSample, emitKB, countsAsWorker]

theorem recordSample_other (st : HistogramState) (p : ProcessMemoryInformation)
    (sample : Int) :
    (recordSample st p.type p.renderer_type sample).other_count =
      st.other_count + if countsAsOther p then 1 else 0 := by
  obtain ⟨pid, ws, n, d, titles, type, renderer_type⟩ := p
  cases type
  case PROCESS_TYPE_RENDERER =>
    cases renderer_type <;> simp [recordSample, emitKB, countsAsOther]
  all_goals simp [recordSample, emitKB, countsAsOther]

theorem foldl_count (proj : HistogramState → Int) (pred : ProcessMemoryInformation → Bool)
    (hstep : ∀ st p, proj (updateHistogramsStep st p) = proj st + if pred p then 1 else 0)
    (processes : List ProcessMemoryInformation) :
    ∀ st, proj (processes.foldl updateHistogramsStep st) =
      proj st + (processes.countP pred : Nat) := by
  induction processes with
  | nil => intro st; simp
  | cons p rest ih =>
    intro st
    rw [List.foldl_cons, ih, hstep, List.countP_cons]
    by_cases hp : pred p = true
    · simp only [hp, if_true]
      push_cast
      ring
    · simp only [hp, if_false]
      push_cast
      ring

theorem foldl_emitted (processes : List ProcessMemoryInformation) :
    ∀ st : HistogramState, (processes.foldl updateHistogramsStep st).emitted =
      st.emitted ++ processes.flatMap sizeSamples := by
  induction processes with
  | nil => intro st; simp
  | cons p rest ih =>
    intro st
    rw [List.foldl_cons, ih, updateHistogramsStep_emitted, List.flatMap_cons,
      List.append_assoc]

theorem updateHistogramsLoop_counts (processes : List ProcessMemoryInformation) :
    (updateHistogramsLoop processes).chrome_count = (processes.countP countsAsChrome : Nat) ∧
    (updateHistogramsLoop processes).extension_count =
      (processes.countP countsAsExtension : Nat) ∧
    (updateHistogramsLoop processes).other_count = (processes.countP countsAsOther : Nat) ∧
    (updateHistogramsLoop processes).plugin_count = (processes.countP countsAsPlugin : Nat) ∧
    (updateHistogramsLoop processes).pepper_plugin_count =
      (processes.countP countsAsPepperPlugin : Nat) ∧
    (updateHistogramsLoop processes).renderer_count =
      (processes.countP countsAsRenderer : Nat) ∧
    (updateHistogramsLoop processes).worker_count = (processes.countP countsAsWorker : Nat) := by
  unfold updateHistogramsLoop
  refine ⟨?_, ?_, ?_, ?_, ?_, ?_, ?_⟩
  · have h := foldl_count (fun st => st.chrome_count) countsAsChrome
      (fun st p => recordSample_chrome _ p _) processes {}
    simpa using h
  · have h := foldl_count (fun st => st.extension_count) countsAsExtension
      (fun st p => recordSample_extension _ p _) processes {}
    simpa using h
  · have h := foldl_count (fun st => st.other_count) countsAsOther
      (fun st p => recordSample_other _ p _) processes {}
    simpa using h
  · have h := foldl_count (fun st => st.plugin_count) countsAsPlugin
      (fun st p => recordSample_plugin _ p _) processes {}
    simpa using h
  · have h := foldl_count (fun st => st.pepper_plugin_count) countsAsPepperPlugin
      (fun st p => recordSample_pepper_plugin _ p _) processes {}
    simpa using h
  · have h := foldl_count (fun st => st.renderer_count) countsAsRenderer
      (fun st p => recordSample_renderer _ p _) processes {}
    simpa using h
  · have h := foldl_count (fun st => st.worker_count) countsAsWorker
      (fun st p => recordSample_worker _ p _) processes {}
    simpa using h

theorem updateHistograms_eq (backing_store_memory_size : Nat)
    (processes : List ProcessMemoryInformation) :
    UpdateHistograms backing_store_memory_size processes =
      processes.flatMap sizeSamples ++
        (⟨MEMORY_KB, "Memory.BackingStore", toInt32 (backing_store_memory_size / 1024)⟩ ::
          countSamples processes) ++
        [⟨MEMORY_MB, "Memory.Total", totalSample processes⟩] := by
  obtain ⟨h1, h2, h3, h4, h5, h6, h7⟩ := updateHistogramsLoop_counts processes
  have hem : (updateHistogramsLoop processes).emitted = processes.flatMap sizeSamples := by
    have h := foldl_emitted processes {}
    simpa [updateHistogramsLoop] using h
  simp only [UpdateHistograms, emitKB, emitCount, countSamples, hem, h1, h2, h3, h4, h5, h6, h7,
    List.append_assoc, List.cons_append, List.nil_append]

theorem toInt32_zero : toInt32 0 = 0 := by decide

theorem totalSample_nil : totalSample [] = 0 := by decide

/-- C18, at the empty record set: `UpdateHistograms` emits a kilobyte sample
to "Memory.BackingStore" and a megabyte sample to "Memory.Total", which are
not count histograms. -/
theorem empty_set_emits_size_samples :
    (UpdateHistograms 0 []).filter (fun s => s.kind ≠ COUNTS_100) =
      [⟨MEMORY_KB, "Memory.BackingStore", 0⟩, ⟨MEMORY_MB, "Memory.Total", 0⟩] := by
  decide

/-- C18, amended: for the empty record set `UpdateHistograms` emits no size
sample of a record; it emits the sample of "Memory.BackingStore", the
sample 0 to "Memory.ProcessCount" and to the seven other count histograms,
and the sample 0 to "Memory.Total", and nothing else. -/
theorem empty_set_histograms (backing_store_memory_size : Nat) :
    UpdateHistograms backing_store_memory_size [] =
      [⟨MEMORY_KB, "Memory.BackingStore", toInt32 (backing_store_memory_size / 1024)⟩,
       ⟨COUNTS_100, "Memory.ProcessCount", 0⟩,
       ⟨COUNTS_100, "Memory.ChromeProcessCount", 0⟩,
       ⟨COUNTS_100, "Memory.ExtensionProcessCount", 0⟩,
       ⟨COUNTS_100, "Memory.OtherProcessCount", 0⟩,
       ⟨COUNTS_100, "Memory.PluginProcessCount", 0⟩,
       ⟨COUNTS_100, "Memory.PepperPluginProcessCount", 0⟩,
       ⟨COUNTS_100, "Memory.RendererProcessCount", 0⟩,
       ⟨COUNTS_100, "Memory.WorkerProcessCount", 0⟩,
       ⟨MEMORY_MB, "Memory.Total", 0⟩] := by
  rw [updateHistograms_eq, totalSample_nil]
  simp [countSamples, toInt32_zero]
theorem sizeSamples_kind (process : ProcessMemoryInformation) :
    ∀ s ∈ sizeSamples process, s.kind = MEMORY_KB := by
  intro s hs
  unfold sizeSamples at hs
  split at hs
  · rw [List.mem_singleton.mp hs]
  · simp at hs

theorem samplesOfKind_flatMap_sizeSamples (processes : List ProcessMemoryInformation) :
    samplesOfKind MEMORY_KB (processes.flatMap sizeSamples) =
      processes.flatMap sizeSamples := by
  unfold samplesOfKind
  rw [List.filter_eq_self]
  intro s hs
  obtain ⟨p, _, hp⟩ := List.mem_flatMap.mp hs
  simpa using sizeSamples_kind p s hp

theorem samplesOfKind_flatMap_sizeSamples_counts (processes : List ProcessMemoryInformation) :
    samplesOfKind COUNTS_100 (processes.flatMap sizeSamples) = [] := by
  unfold samplesOfKind
  rw [List.filter_eq_nil_iff]
  intro s hs
  obtain ⟨p, _, hp⟩ := List.mem_flatMap.mp hs
  simp [sizeSamples_kind p s hp]

theorem sizeSamples_of_small (p : ProcessMemoryInformation)
    (h : p.working_set.priv < 2 ^ 31) :
    sizeSamples p =
      match sizeHistogramName p.type p.renderer_type with
      | some name => [⟨MEMORY_KB, name, (p.working_set.priv : Int)⟩]
      | none => [] := by
  unfold sizeSamples
  rw [toInt32_of_lt _ h]

theorem flatMap_congr_mem {α β : Type} (l : List α) (f g : α → List β)
    (h : ∀ a ∈ l, f a = g a) : l.flatMap f = l.flatMap g := by
  induction l with
  | nil => rfl
  | cons a rest ih =>
    rw [List.flatMap_cons, List.flatMap_cons, h a (List.mem_cons_self _ _),
      ih (fun b hb => h b (List.mem_cons_of_mem _ hb))]

/-- C19, at a browser record whose private working set is `2 ^ 31` KB: the
sample emitted to "Memory.Browser" is -2147483648, not the working set. -/
theorem size_sample_wraps :
    samplesNamed "Memory.Browser" (UpdateHistograms 0 recordsWithHugeWorkingSet) =
      [⟨MEMORY_KB, "Memory.Browser", -2147483648⟩] ∧
    recordsWithHugeWorkingSet.map (fun p => p.working_set.priv) = [2147483648] := by
  constructor <;> decide

/-- C19, amended: when every private working set is below `2 ^ 31` KB, the
kilobyte samples `UpdateHistograms` emits are, in record order, one sample
per record equal to its private working set, in the histogram named for its
role and, for a Renderer, its renderer kind (every kind other than Extension,
Chrome and Unknown goes to "Memory.Renderer"), none for a Renderer of kind
Unknown or a role outside the table, followed by the one sample of
"Memory.BackingStore". -/
theorem size_samples_in_record_order (backing_store_memory_size : Nat)
    (processes : List ProcessMemoryInformation)
    (hsmall : ∀ p ∈ processes, p.working_set.priv < 2 ^ 31) :
    samplesOfKind MEMORY_KB (UpdateHistograms backing_store_memory_size processes) =
      processes.flatMap (fun p =>
        match sizeHistogramName p.type p.renderer_type with
        | some name => [⟨MEMORY_KB, name, (p.working_set.priv : Int)⟩]
        | none => []) ++
      [⟨MEMORY_KB, "Memory.BackingStore", toInt32 (backing_store_memory_size / 1024)⟩] ∧
    (∀ kind, sizeHistogramName PROCESS_TYPE_BROWSER kind = some "Memory.Browser" ∧
      sizeHistogramName PROCESS_TYPE_PLUGIN kind = some "Memory.Plugin" ∧
      sizeHistogramName PROCESS_TYPE_WORKER kind = some "Memory.Worker" ∧
      sizeHistogramName PROCESS_TYPE_UTILITY kind = some "Memory.Utility" ∧
      sizeHistogramName PROCESS_TYPE_ZYGOTE kind = some "Memory.Zygote" ∧
      sizeHistogramName PROCESS_TYPE_SANDBOX_HELPER kind = some "Memory.SandboxHelper" ∧
      sizeHistogramName PROCESS_TYPE_NACL_LOADER kind = some "Memory.NativeClient" ∧
      sizeHistogramName PROCESS_TYPE_NACL_BROKER kind = some "Memory.NativeClientBroker" ∧
      sizeHistogramName PROCESS_TYPE_GPU kind = some "Memory.Gpu" ∧
      sizeHistogramName PROCESS_TYPE_PPAPI_PLUGIN kind = some "Memory.PepperPlugin") ∧
    sizeHistogramName PROCESS_TYPE_RENDERER RENDERER_EXTENSION = some "Memory.Extension" ∧
    sizeHistogramName PROCESS_TYPE_RENDERER RENDERER_CHROME = some "Memory.Chrome" ∧
    sizeHistogramName PROCESS_TYPE_RENDERER RENDERER_NORMAL = some "Memory.Renderer" ∧
    sizeHistogramName PROCESS_TYPE_RENDERER RENDERER_UNKNOWN = none := by
  refine ⟨?_, fun kind => ⟨rfl, rfl, rfl, rfl, rfl, rfl, rfl, rfl, rfl, rfl⟩, rfl, rfl, rfl, rfl⟩
  rw [updateHistograms_eq,
    ← flatMap_congr_mem processes sizeSamples _ (fun p hp => sizeSamples_of_small p (hsmall p hp))]
  have hrest : samplesOfKind MEMORY_KB
      ((⟨MEMORY_KB, "Memory.BackingStore", toInt32 (backing_store_memory_size / 1024)⟩ ::
          countSamples processes) ++
        [⟨MEMORY_MB, "Memory.Total", totalSample processes⟩]) =
      [⟨MEMORY_KB, "Memory.BackingStore", toInt32 (backing_store_memory_size / 1024)⟩] := by
    simp [samplesOfKind, countSamples, List.filter_cons]
  have hsplit : ∀ a b c : List HistogramSample,
      samplesOfKind MEMORY_KB (a ++ b ++ c) =
        samplesOfKind MEMORY_KB a ++ samplesOfKind MEMORY_KB (b ++ c) := by
    intro a b c
    simp [samplesOfKind, List.filter_append]
  rw [hsplit, samplesOfKind_flatMap_sizeSamples, hrest]

/-- Scenario S1: the browser is sampled into "Memory.Browser" with 50000,
the normal renderer into "Memory.Renderer" with 80000. -/
theorem size_samples_in_record_order_witness :
    samplesOfKind MEMORY_KB (UpdateHistograms 0 recordsOfS1) =
      [⟨MEMORY_KB, "Memory.Browser", 50000⟩, ⟨MEMORY_KB, "Memory.Renderer", 80000⟩,
       ⟨MEMORY_KB, "Memory.BackingStore", 0⟩] :=
  (size_samples_in_record_order 0 recordsOfS1 (by decide)).1
theorem countsAsRenderer_eq_sum (p : ProcessMemoryInformation) :
    (if countsAsRenderer p then 1 else 0 : Nat) =
      (if (p.type == PROCESS_TYPE_RENDERER && p.renderer_type == RENDERER_NORMAL) then 1 else 0) +
      (if (p.type == PROCESS_TYPE_RENDERER && p.renderer_type == RENDERER_DEVTOOLS) then 1
        else 0) +
      (if (p.type == PROCESS_TYPE_RENDERER && p.renderer_type == RENDERER_INTERSTITIAL) then 1
        else 0) +
      (if (p.type == PROCESS_TYPE_RENDERER && p.renderer_type == RENDERER_NOTIFICATION) then 1
        else 0) +
      (if (p.type == PROCESS_TYPE_RENDERER && p.renderer_type == RENDERER_BACKGROUND_APP) then 1
        else 0) := by
  obtain ⟨pid, ws, n, d, titles, type, renderer_type⟩ := p
  cases type
  case PROCESS_TYPE_RENDERER => cases renderer_type <;> simp [countsAsRenderer]
  all_goals simp [countsAsRenderer]

theorem countP_countsAsRenderer (processes : List ProcessMemoryInformation) :
    processes.countP countsAsRenderer =
      renderersOfKind RENDERER_NORMAL processes + renderersOfKind RENDERER_DEVTOOLS processes +
      renderersOfKind RENDERER_INTERSTITIAL processes +
      renderersOfKind RENDERER_NOTIFICATION processes +
      renderersOfKind RENDERER_BACKGROUND_APP processes := by
  induction processes with
  | nil => simp [renderersOfKind]
  | cons p rest ih =>
    simp only [renderersOfKind, List.countP_cons] at ih ⊢
    rw [ih, countsAsRenderer_eq_sum p]
    omega

theorem samplesOfKind_counts (backing_store_memory_size : Nat)
    (processes : List ProcessMemoryInformation) :
    samplesOfKind COUNTS_100 (UpdateHistograms backing_store_memory_size processes) =
      countSamples processes := by
  rw [updateHistograms_eq]
  have hsplit : ∀ a b c : List HistogramSample,
      samplesOfKind COUNTS_100 (a ++ b ++ c) =
        samplesOfKind COUNTS_100 a ++ samplesOfKind COUNTS_100 (b ++ c) := by
    intro a b c
    simp [samplesOfKind, List.filter_append]
  rw [hsplit, samplesOfKind_flatMap_sizeSamples_counts]
  simp [samplesOfKind, countSamples, List.filter_cons]

/-- C20, at a single Renderer record of kind Devtools: the count histograms
are the eight below; the record is counted in "Memory.RendererProcessCount",
there is no count of its own for the kind Devtools, and the count 1 of
"Memory.RendererProcessCount" is not the number of Renderer records of kind
Normal, which is 0. -/
theorem renderer_kinds_share_a_count :
    samplesOfKind COUNTS_100 (UpdateHistograms 0 devtoolsRecord) =
      [⟨COUNTS_100, "Memory.ProcessCount", 1⟩,
       ⟨COUNTS_100, "Memory.ChromeProcessCount", 0⟩,
       ⟨COUNTS_100, "Memory.ExtensionProcessCount", 0⟩,
       ⟨COUNTS_100, "Memory.OtherProcessCount", 0⟩,
       ⟨COUNTS_100, "Memory.PluginProcessCount", 0⟩,
       ⟨COUNTS_100, "Memory.PepperPluginProcessCount", 0⟩,
       ⟨COUNTS_100, "Memory.RendererProcessCount", 1⟩,
       ⟨COUNTS_100, "Memory.WorkerProcessCount", 0⟩] ∧
    renderersOfKind RENDERER_NORMAL devtoolsRecord = 0 ∧
    renderersOfKind RENDERER_DEVTOOLS devtoolsRecord = 1 := by
  refine ⟨?_, ?_, ?_⟩ <;> decide

/-- C20, amended: for a record set of fewer than `2 ^ 31` records,
`UpdateHistograms` emits exactly eight count samples: "Memory.ProcessCount"
with the number of records, "Memory.ChromeProcessCount" and
"Memory.ExtensionProcessCount" with the number of Renderer records of kind
Chrome and Extension, "Memory.OtherProcessCount" with the number of Utility,
Zygote, SandboxHelper, NativeClientLoader, NativeClientBroker and Gpu
records, "Memory.PluginProcessCount", "Memory.PepperPluginProcessCount",
"Memory.RendererProcessCount" with the number of Renderer records of kind
Normal, Devtools, Interstitial, Notification and BackgroundApp together, and
"Memory.WorkerProcessCount". -/
theorem count_samples (backing_store_memory_size : Nat)
    (processes : List ProcessMemoryInformation) (hlen : processes.length < 2 ^ 31) :
    samplesOfKind COUNTS_100 (UpdateHistograms backing_store_memory_size processes) =
      [⟨COUNTS_100, "Memory.ProcessCount", (processes.length : Int)⟩,
       ⟨COUNTS_100, "Memory.ChromeProcessCount",
          (renderersOfKind RENDERER_CHROME processes : Nat)⟩,
       ⟨COUNTS_100, "Memory.ExtensionProcessCount",
          (renderersOfKind RENDERER_EXTENSION processes : Nat)⟩,
       ⟨COUNTS_100, "Memory.OtherProcessCount", (processes.countP countsAsOther : Nat)⟩,
       ⟨COUNTS_100, "Memory.PluginProcessCount", (processes.countP countsAsPlugin : Nat)⟩,
       ⟨COUNTS_100, "Memory.PepperPluginProcessCount",
          (processes.countP countsAsPepperPlugin : Nat)⟩,
       ⟨COUNTS_100, "Memory.RendererProcessCount",
          ((renderersOfKind RENDERER_NORMAL processes +
            renderersOfKind RENDERER_DEVTOOLS processes +
            renderersOfKind RENDERER_INTERSTITIAL processes +
            renderersOfKind RENDERER_NOTIFICATION processes +
            renderersOfKind RENDERER_BACKGROUND_APP processes : Nat) : Int)⟩,
       ⟨COUNTS_100, "Memory.WorkerProcessCount", (processes.countP countsAsWorker : Nat)⟩] := by
  rw [samplesOfKind_counts, ← countP_countsAsRenderer]
  unfold countSamples
  rw [toInt32_of_lt _ hlen]
  rfl

/-- Scenario S1: two records, one of them a normal renderer. -/
theorem count_samples_witness :
    samplesOfKind COUNTS_100 (UpdateHistograms 0 recordsOfS1) =
      [⟨COUNTS_100, "Memory.ProcessCount", 2⟩,
       ⟨COUNTS_100, "Memory.ChromeProcessCount", 0⟩,
       ⟨COUNTS_100, "Memory.ExtensionProcessCount", 0⟩,
       ⟨COUNTS_100, "Memory.OtherProcessCount", 0⟩,
       ⟨COUNTS_100, "Memory.PluginProcessCount", 0⟩,
       ⟨COUNTS_100, "Memory.PepperPluginProcessCount", 0⟩,
       ⟨COUNTS_100, "Memory.RendererProcessCount", 1⟩,
       ⟨COUNTS_100, "Memory.WorkerProcessCount", 0⟩] :=
  count_samples 0 recordsOfS1 (by decide)

/-! ### Several view surfaces of one host -/

theorem scanExtensionIds_kind_congr (service : ExtensionService) (ids : List String) :
    ∀ a b : ProcessMemoryInformation, a.renderer_type = b.renderer_type →
      (scanExtensionIds service a ids).renderer_type =
        (scanExtensionIds service b ids).renderer_type := by
  induction ids with
  | nil => intro a b h; exact h
  | cons id rest ih =>
    intro a b h
    unfold scanExtensionIds
    split
    · split
      · rfl
      · exact ih a b h
    · exact ih a b h

theorem classifyBindings_kind_congr (service : ExtensionService)
    (a b : ProcessMemoryInformation) (w : RenderWidgetHost)
    (h : a.renderer_type = b.renderer_type) :
    (classifyBindings service a w).renderer_type =
      (classifyBindings service b w).renderer_type := by
  unfold classifyBindings
  split
  · split <;> rfl
  · split
    · exact scanExtensionIds_kind_congr _ _ _ _ h
    · exact h

theorem classifyNoContents_kind_congr (service : ExtensionService)
    (a b : ProcessMemoryInformation) (w : RenderWidgetHost)
    (h : a.renderer_type = b.renderer_type) :
    (classifyNoContents service a w).renderer_type =
      (classifyNoContents service b w).renderer_type := by
  unfold classifyNoContents
  rw [h]
  split
  · split <;> first | rfl | exact h
  · split <;> first | rfl | exact h

theorem classifyContents_kind_congr (title title2 : String)
    (a b : ProcessMemoryInformation) (contents : WebContents)
    (h : a.renderer_type = b.renderer_type) :
    (classifyContents title a contents).renderer_type =
      (classifyContents title2 b contents).renderer_type := by
  unfold classifyContents
  simp only [h]
  split <;> split <;> first | rfl | exact h

theorem classifyListener_kind_congr (service : ExtensionService) (title title2 : String)
    (a b : ProcessMemoryInformation) (w : RenderWidgetHost)
    (h : a.renderer_type = b.renderer_type) :
    (classifyListener service title a w).renderer_type =
      (classifyListener service title2 b w).renderer_type := by
  unfold classifyListener
  split
  · exact h
  · simp only
    split
    · exact classifyNoContents_kind_congr _ _ _ _ (classifyBindings_kind_congr _ _ _ _ h)
    · exact classifyContents_kind_congr _ _ _ _ _ (classifyBindings_kind_congr _ _ _ _ h)

theorem classifyBindings_overriding (service : ExtensionService)
    (a b : ProcessMemoryInformation) (w : RenderWidgetHost)
    (hover : matchesOverridingRule service w) :
    (classifyBindings service a w).renderer_type ≠ RENDERER_UNKNOWN ∧
    (classifyBindings service a w).renderer_type =
      (classifyBindings service b w).renderer_type := by
  unfold classifyBindings
  by_cases hweb : hasWebUIBindings w = true
  · rw [if_pos hweb, if_pos hweb]
    split <;> simp
  · have hpack : hostsPackagedExtension service w := hover.resolve_left hweb
    rw [if_neg hweb, if_neg hweb, if_pos hpack.1, if_pos hpack.1,
      scanExtensionIds_of_packaged service _ hpack.2 a,
      scanExtensionIds_of_packaged service _ hpack.2 b]
    simp

theorem classifyListener_overriding (service : ExtensionService) (title : String)
    (a : ProcessMemoryInformation) (w : RenderWidgetHost) (hview : w.is_render_view = true)
    (hover : matchesOverridingRule service w) :
    (classifyListener service title a w).renderer_type = kindYieldedAlone service w := by
  unfold kindYieldedAlone
  have h1 := classifyBindings_overriding service a {} w hover
  have h2 := classifyBindings_overriding service {} a w hover
  rw [classifyListener_kind_of_bindings service title a w hview h1.1,
    classifyListener_kind_of_bindings service "" {} w hview h2.1, h1.2]

theorem classifyBindings_not_overriding (service : ExtensionService)
    (a : ProcessMemoryInformation) (w : RenderWidgetHost)
    (hover : ¬matchesOverridingRule service w) :
    classifyBindings service a w = a := by
  have hweb : ¬hasWebUIBindings w = true := fun h => hover (Or.inl h)
  unfold classifyBindings
  rw [if_neg hweb]
  split
  · rename_i hcontains
    apply scanExtensionIds_of_only_hosted
    intro id hid e he
    by_contra hhosted
    exact hover (Or.inr ⟨hcontains, id, hid, e, he, by simpa using hhosted⟩)
  · rfl

theorem classifyListener_not_overriding (service : ExtensionService) (title : String)
    (a : ProcessMemoryInformation) (w : RenderWidgetHost) (hview : w.is_render_view = true)
    (hover : ¬matchesOverridingRule service w) :
    (classifyListener service title a w).renderer_type =
      if a.renderer_type = RENDERER_UNKNOWN then kindYieldedAlone service w
      else a.renderer_type := by
  split
  · rename_i hunknown
    unfold kindYieldedAlone
    exact classifyListener_kind_congr service title "" a {} w hunknown
  · rename_i hknown
    have hb : (classifyBindings service a w).renderer_type ≠ RENDERER_UNKNOWN := by
      rw [classifyBindings_not_overriding service a w hover]; exact hknown
    rw [classifyListener_kind_of_bindings service title a w hview hb,
      classifyBindings_not_overriding service a w hover]

/-- C21, at a host whose views are a privileged settings view followed by a
normal tab: the last surface on its own yields Normal, the record ends with
kind Chrome. -/
theorem last_surface_does_not_win :
    (classifyProcesses (stateWithHost settingsThenTabHost) [{ pid := 500 }]).map
      (fun p => p.renderer_type) = [RENDERER_CHROME] ∧
    (viewSurfaces settingsThenTabHost).getLast? = some appTab ∧
    kindYieldedAlone settingsThenTabHost.extension_service appTab = RENDERER_NORMAL := by
  refine ⟨?_, ?_, ?_⟩ <;> decide

/-- C21, amended: for a record of kind Unknown matched to exactly one
connected host, the kind after classification is the kind the last view
surface yields when that surface has privileged bindings or a packaged
extension in its process, or when the kind is still Unknown after the
earlier surfaces; otherwise it is the kind the earlier surfaces left. -/
theorem kind_with_several_surfaces (state : UIThreadState)
    (processes : List ProcessMemoryInformation) (i : Nat) (process : ProcessMemoryInformation)
    (hget : processes[i]? = some process)
    (_hkind : process.renderer_type = RENDERER_UNKNOWN)
    (host : RenderProcessHost) (hmatch : matchedHosts state process = [host])
    (earlier : List RenderWidgetHost) (w : RenderWidgetHost)
    (hsplit : viewSurfaces host = earlier ++ [w]) :
    ∃ r, (classifyProcesses state processes)[i]? = some r ∧
      (matchesOverridingRule host.extension_service w →
        r.renderer_type = kindYieldedAlone host.extension_service w) ∧
      (¬matchesOverridingRule host.extension_service w →
        r.renderer_type =
          if kindAfter host.extension_service state.default_tab_title
              { process with type := PROCESS_TYPE_RENDERER } earlier = RENDERER_UNKNOWN
          then kindYieldedAlone host.extension_service w
          else kindAfter host.extension_service state.default_tab_title
              { process with type := PROCESS_TYPE_RENDERER } earlier) := by
  have hview : w.is_render_view = true := by
    have hw : w ∈ viewSurfaces host := by rw [hsplit]; simp
    simpa using (List.mem_filter.mp hw).2
  have hfinal : (classifyProcess state process).renderer_type =
      (classifyListener host.extension_service state.default_tab_title
        (earlier.foldl (classifyListener host.extension_service state.default_tab_title)
          { process with type := PROCESS_TYPE_RENDERER }) w).renderer_type := by
    rw [classifyProcess_single_host state process host hmatch, hsplit, List.foldl_append,
      List.foldl_cons, List.foldl_nil]
  refine ⟨classifyProcess state process,
    classifyProcesses_getElem? state processes i process hget, ?_, ?_⟩
  · intro hover
    rw [hfinal]
    exact classifyListener_overriding _ _ _ w hview hover
  · intro hover
    rw [hfinal, classifyListener_not_overriding _ _ _ w hview hover]
    rfl

/-- The host of the settings view and the tab: the tab is not overriding and
the kind Chrome of the settings view stays. -/
theorem kind_with_several_surfaces_witness :
    ∃ r, (classifyProcesses (stateWithHost settingsThenTabHost) [{ pid := 500 }])[0]? =
        some r ∧
      (matchesOverridingRule noExtensions appTab →
        r.renderer_type = kindYieldedAlone noExtensions appTab) ∧
      (¬matchesOverridingRule noExtensions appTab →
        r.renderer_type =
          if kindAfter noExtensions "New Tab"
              { pid := 500, type := PROCESS_TYPE_RENDERER } [settingsView] = RENDERER_UNKNOWN
          then kindYieldedAlone noExtensions appTab
          else kindAfter noExtensions "New Tab"
              { pid := 500, type := PROCESS_TYPE_RENDERER } [settingsView]) :=
  kind_with_several_surfaces (stateWithHost settingsThenTabHost) [{ pid := 500 }] 0
    { pid := 500 } rfl rfl settingsThenTabHost rfl [settingsView] appTab rfl

/-! ### The rules for one view surface -/

theorem scanExtensionIds_titles (service : ExtensionService) (ids : List String) :
    ∀ process, (scanExtensionIds service process ids).titles = process.titles := by
  induction ids with
  | nil => intro process; rfl
  | cons id rest ih =>
    intro process
    unfold scanExtensionIds
    split
    · split
      · rfl
      · exact ih process
    · exact ih process

theorem classifyBindings_titles (service : ExtensionService)
    (process : ProcessMemoryInformation) (w : RenderWidgetHost) :
    (classifyBindings service process w).titles = process.titles := by
  unfold classifyBindings
  split
  · split <;> rfl
  · split
    · exact scanExtensionIds_titles _ _ _
    · rfl

theorem classifyContents_titles_eq (title : String) (process : ProcessMemoryInformation)
    (contents : WebContents) :
    (classifyContents title process contents).titles =
      process.titles ++ [tabTitle title contents] := by
  unfold classifyContents tabTitle
  simp only
  split <;> split <;> rfl

theorem classifyListener_view (service : ExtensionService) (title : String)
    (process : ProcessMemoryInformation) (w : RenderWidgetHost)
    (hview : w.is_render_view = true) :
    classifyListener service title process w =
      match w.web_contents with
      | none => classifyNoContents service (classifyBindings service process w) w
      | some contents => classifyContents title (classifyBindings service process w) contents := by
  unfold classifyListener
  simp only [hview, Bool.not_true, Bool.false_eq_true, if_false]

/-- C22, at a host whose only view has privileged bindings and web contents
titled "Settings": the first rule matches and sets the kind Chrome, and the
title of the web contents is still attributed. -/
theorem privileged_view_contributes_title :
    (classifyProcesses (stateWithHost settingsHost) [{ pid := 500 }]).map
      (fun p => (p.renderer_type, p.titles)) = [(RENDERER_CHROME, ["Settings"])] ∧
    hasWebUIBindings settingsView = true := by
  constructor <;> decide

/-- C22, amended: for a view surface that matches the privileged bindings
rule or the extension rule, the later rules do not change the kind that rule
set, but they are still applied: a surface with web contents contributes
the title of its web contents, and a surface without web contents in a
registered process contributes the name of the extension of its URL host,
when there is one. -/
theorem rules_after_overriding_rule (service : ExtensionService) (title : String)
    (process : ProcessMemoryInformation) (w : RenderWidgetHost)
    (hview : w.is_render_view = true) (hover : matchesOverridingRule service w) :
    (classifyListener service title process w).renderer_type =
      (classifyBindings service process w).renderer_type ∧
    (classifyListener service title process w).renderer_type ≠ RENDERER_UNKNOWN ∧
    (∀ contents, w.web_contents = some contents →
      (classifyListener service title process w).titles =
        process.titles ++ [tabTitle title contents]) ∧
    (w.web_contents = none → service.process_map.Contains w.process_id = true →
      ∀ e, service.extensions_GetByID w.url.host = some e →
        (classifyListener service title process w).titles = process.titles ++ [e.name]) ∧
    (w.web_contents = none →
      (service.process_map.Contains w.process_id = false ∨
        service.extensions_GetByID w.url.host = none) →
      (classifyListener service title process w).titles = process.titles) := by
  have hb := (classifyBindings_overriding service process process w hover).1
  have hk := classifyListener_kind_of_bindings service title process w hview hb
  refine ⟨hk, by rw [hk]; exact hb, ?_, ?_, ?_⟩
  · intro contents hc
    rw [classifyListener_view service title process w hview, hc]
    simp only
    rw [classifyContents_titles_eq, classifyBindings_titles]
  · intro hnone hcontains e he
    rw [classifyListener_view service title process w hview, hnone]
    simp only
    unfold classifyNoContents
    rw [if_pos hcontains, he]
    simp only
    rw [classifyBindings_titles]
  · intro hnone hor
    rw [classifyListener_view service title process w hview, hnone]
    simp only
    unfold classifyNoContents
    rcases hor with hcontains | hlookup
    · have hc : ¬service.process_map.Contains w.process_id = true := by simp [hcontains]
      rw [if_neg hc, if_neg hb]
      exact classifyBindings_titles _ _ _
    · by_cases hc : service.process_map.Contains w.process_id = true
      · rw [if_pos hc, hlookup]
        exact classifyBindings_titles _ _ _
      · rw [if_neg hc, if_neg hb]
        exact classifyBindings_titles _ _ _

/-- The settings view on a fresh record: kind Chrome and the title
"Settings". -/
theorem rules_after_overriding_rule_witness :
    (classifyListener noExtensions "New Tab" { pid := 500 } settingsView).renderer_type ≠
      RENDERER_UNKNOWN ∧
    (classifyListener noExtensions "New Tab" { pid := 500 } settingsView).titles =
      [] ++ [tabTitle "New Tab" ⟨"Settings", none, none⟩] :=
  ⟨(rules_after_overriding_rule noExtensions "New Tab" { pid := 500 } settingsView rfl
      (Or.inl rfl)).2.1,
   (rules_after_overriding_rule noExtensions "New Tab" { pid := 500 } settingsView rfl
      (Or.inl rfl)).2.2.1 ⟨"Settings", none, none⟩ rfl⟩

/-- C23, at a host whose views are a normal tab followed by a background
contents view without web contents, without privileged bindings and outside
the extension process map: the record ends with kind Normal and the title of
the tab alone; the URL of the second surface is not appended and the kind
BackgroundApp is not set. -/
theorem later_surface_without_contents_ignored :
    (classifyProcesses (stateWithHost tabThenBackgroundHost) [{ pid := 500 }]).map
      (fun p => (p.renderer_type, p.titles)) = [(RENDERER_NORMAL, ["App"])] ∧
    backgroundContentsView.web_contents = none ∧
    hasWebUIBindings backgroundContentsView = false ∧
    tabThenBackgroundHost.extension_service.process_map.Contains
      backgroundContentsView.process_id = false := by
  refine ⟨?_, ?_, ?_, ?_⟩ <;> decide

/-- C23, amended: for a view surface without web contents and without
privileged bindings whose process is not registered in the extension process
map, the classifier appends the full spec of the URL of the surface and sets
the kind from the view type only when the kind of the record is still
Unknown, and changes nothing otherwise; when the process is registered it
appends the name of the enabled extension whose id is the host of the URL,
when there is one, and no title otherwise. -/
theorem surface_without_contents (service : ExtensionService) (title : String)
    (process : ProcessMemoryInformation) (w : RenderWidgetHost)
    (hview : w.is_render_view = true) (hnone : w.web_contents = none)
    (hweb : hasWebUIBindings w = false) :
    (service.process_map.Contains w.process_id = false →
      process.renderer_type = RENDERER_UNKNOWN →
      classifyListener service title process w =
        { process with
          titles := process.titles ++ [w.url.spec]
          renderer_type := rendererTypeOfViewType w.render_view_type }) ∧
    (service.process_map.Contains w.process_id = false →
      process.renderer_type ≠ RENDERER_UNKNOWN →
      classifyListener service title process w = process) ∧
    (service.process_map.Contains w.process_id = true →
      ∀ e, service.extensions_GetByID w.url.host = some e →
        (classifyListener service title process w).titles = process.titles ++ [e.name]) ∧
    (service.process_map.Contains w.process_id = true →
      service.extensions_GetByID w.url.host = none →
        (classifyListener service title process w).titles = process.titles) ∧
    rendererTypeOfViewType VIEW_TYPE_BACKGROUND_CONTENTS = RENDERER_BACKGROUND_APP ∧
    rendererTypeOfViewType VIEW_TYPE_INTERSTITIAL_PAGE = RENDERER_INTERSTITIAL ∧
    rendererTypeOfViewType VIEW_TYPE_NOTIFICATION = RENDERER_NOTIFICATION ∧
    rendererTypeOfViewType VIEW_TYPE_DEV_TOOLS_UI = RENDERER_UNKNOWN ∧
    (∀ code, rendererTypeOfViewType (VIEW_TYPE_OTHER code) = RENDERER_UNKNOWN) := by
  have hw : ¬hasWebUIBindings w = true := by simp [hweb]
  have hstep : classifyListener service title process w =
      classifyNoContents service (classifyBindings service process w) w := by
    rw [classifyListener_view service title process w hview, hnone]
  refine ⟨?_, ?_, ?_, ?_, rfl, rfl, rfl, rfl, fun _ => rfl⟩
  · intro hcontains hkind
    have hc : ¬service.process_map.Contains w.process_id = true := by simp [hcontains]
    have hb : classifyBindings service process w = process := by
      unfold classifyBindings
      rw [if_neg hw, if_neg hc]
    rw [hstep, hb]
    unfold classifyNoContents
    rw [if_neg hc, if_pos hkind]
  · intro hcontains hkind
    have hc : ¬service.process_map.Contains w.process_id = true := by simp [hcontains]
    have hb : classifyBindings service process w = process := by
      unfold classifyBindings
      rw [if_neg hw, if_neg hc]
    rw [hstep, hb]
    unfold classifyNoContents
    rw [if_neg hc, if_neg hkind]
  · intro hcontains e he
    rw [hstep]
    unfold classifyNoContents
    rw [if_pos hcontains, he]
    simp only
    rw [classifyBindings_titles]
  · intro hcontains he
    rw [hstep]
    unfold classifyNoContents
    rw [if_pos hcontains, he]
    simp only
    rw [classifyBindings_titles]

/-- The background contents view on a fresh record: its URL becomes the
title and the kind is BackgroundApp. -/
theorem surface_without_contents_witness :
    classifyListener noExtensions "New Tab" { pid := 500 } backgroundContentsView =
      { pid := 500, titles := [] ++ ["https://app.example.com/background.html"],
        renderer_type := rendererTypeOfViewType VIEW_TYPE_BACKGROUND_CONTENTS } :=
  (surface_without_contents noExtensions "New Tab" { pid := 500 } backgroundContentsView
    rfl rfl rfl).1 rfl rfl

/-! ### Where the diagnostics flag comes from -/

theorem shows_of_isMemoryURLEntry (entry : Option NavigationEntry)
    (h : isMemoryURLEntry entry = true) : showsMemoryURL entry := by
  cases entry with
  | none => simp [isMemoryURLEntry] at h
  | some e =>
    refine ⟨e, rfl, ?_⟩
    have h2 : LowerCaseEqualsASCII e.virtual_url_spec kChromeUIMemoryURL = true := h
    unfold LowerCaseEqualsASCII at h2
    rw [lowerCaseEqualsASCIIChars_iff] at h2
    have hk : kChromeUIMemoryURL.data.map ToLowerASCII = kChromeUIMemoryURL.data := by decide
    unfold equalsIgnoringASCIICase
    rw [hk]
    exact h2

theorem classifyContents_diagnostics_false (title : String)
    (process : ProcessMemoryInformation) (contents : WebContents)
    (hfalse : process.is_diagnostics = false)
    (hno : ¬(showsMemoryURL contents.pending_entry ∨
      showsMemoryURL contents.last_committed_entry)) :
    (classifyContents title process contents).is_diagnostics = false := by
  have h1 : isMemoryURLEntry contents.last_committed_entry = false := by
    cases h : isMemoryURLEntry contents.last_committed_entry
    · rfl
    · exact absurd (Or.inr (shows_of_isMemoryURLEntry _ h)) hno
  have h2 : isMemoryURLEntry contents.pending_entry = false := by
    cases h : isMemoryURLEntry contents.pending_entry
    · rfl
    · exact absurd (Or.inl (shows_of_isMemoryURLEntry _ h)) hno
  unfold classifyContents
  simp only [h1, h2, Bool.or_self, Bool.false_eq_true, if_false]
  split <;> exact hfalse

theorem classifyListener_diagnostics_false (service : ExtensionService) (title : String)
    (process : ProcessMemoryInformation) (w : RenderWidgetHost)
    (hfalse : process.is_diagnostics = false)
    (hno : w.is_render_view = true → ∀ contents, w.web_contents = some contents →
      ¬(showsMemoryURL contents.pending_entry ∨
        showsMemoryURL contents.last_committed_entry)) :
    (classifyListener service title process w).is_diagnostics = false := by
  unfold classifyListener
  split
  · exact hfalse
  · rename_i hview
    have hv : w.is_render_view = true := by simpa using hview
    simp only
    split
    · rw [classifyNoContents_diagnostics, classifyBindings_diagnostics]; exact hfalse
    · rename_i contents hc
      exact classifyContents_diagnostics_false _ _ _
        (by rw [classifyBindings_diagnostics]; exact hfalse) (hno hv contents hc)

theorem classifyRenderProcessHost_diagnostics_false (state : UIThreadState)
    (a : ProcessMemoryInformation) (host : RenderProcessHost)
    (hfalse : a.is_diagnostics = false)
    (hno : host.has_connection = true → a.pid = state.GetProcId host.handle →
      ∀ w ∈ host.listeners, w.is_render_view = true →
        ∀ contents, w.web_contents = some contents →
          ¬(showsMemoryURL contents.pending_entry ∨
            showsMemoryURL contents.last_committed_entry)) :
    (classifyRenderProcessHost state a host).is_diagnostics = false := by
  unfold classifyRenderProcessHost
  split
  · exact hfalse
  · rename_i hskip
    have hconn : host.has_connection = true := by
      cases hc : host.has_connection <;> simp_all
    have hpid : a.pid = state.GetProcId host.handle := by
      cases hc : host.has_connection <;> simp_all
    refine foldl_preserves
      (fun a : ProcessMemoryInformation => a.is_diagnostics = false) _ _ ?_ _ hfalse
    intro a' w hw ha'
    exact classifyListener_diagnostics_false _ _ a' w ha'
      (fun hview contents hc => hno hconn hpid w hw hview contents hc)

/-- C24: a record that enters classification without the diagnostics flag
has it afterwards only if a connected render process host with the pid of
the record has a view with web contents whose pending or last committed
entry shows the memory inspection URL, ASCII case ignored; no host with
another pid and no host without a connection sets the flag. -/
theorem diagnostics_flag_only_from_memory_page (state : UIThreadState)
    (processes : List ProcessMemoryInformation) (i : Nat) (process : ProcessMemoryInformation)
    (hget : processes[i]? = some process) (hfalse : process.is_diagnostics = false) :
    ∃ r, (classifyProcesses state processes)[i]? = some r ∧
      (r.is_diagnostics = true →
        ∃ host ∈ state.all_hosts, host.has_connection = true ∧
          process.pid = state.GetProcId host.handle ∧
          ∃ w ∈ host.listeners, w.is_render_view = true ∧
            ∃ contents, w.web_contents = some contents ∧
              (showsMemoryURL contents.pending_entry ∨
                showsMemoryURL contents.last_committed_entry)) := by
  refine ⟨classifyProcess state process,
    classifyProcesses_getElem? state processes i process hget, ?_⟩
  intro htrue
  by_contra hnone
  have hinv := foldl_preserves
    (fun a : ProcessMemoryInformation => a.pid = process.pid ∧ a.is_diagnostics = false)
    (classifyRenderProcessHost state) state.all_hosts ?_ process ⟨rfl, hfalse⟩
  · unfold classifyProcess at htrue
    rw [classifyZygote_diagnostics, hinv.2] at htrue
    cases htrue
  · intro a host hhost ha
    refine ⟨by rw [classifyRenderProcessHost_pid]; exact ha.1, ?_⟩
    refine classifyRenderProcessHost_diagnostics_false state a host ha.2 ?_
    intro hconn hpid w hw hview contents hc hshows
    exact hnone ⟨host, hhost, hconn, ha.1.symm.trans hpid, w, hw, hview, contents, hc, hshows⟩

/-- Scenario S3: the browser record, pid 100, enters without the flag; no
host has its pid and it leaves without the flag. -/
theorem diagnostics_flag_only_from_memory_page_witness :
    ∃ r, (classifyProcesses stateOfS3 recordsBeforeClassification)[0]? = some r ∧
      (r.is_diagnostics = true →
        ∃ host ∈ stateOfS3.all_hosts, host.has_connection = true ∧
          (100 : Int) = stateOfS3.GetProcId host.handle ∧
          ∃ w ∈ host.listeners, w.is_render_view = true ∧
            ∃ contents, w.web_contents = some contents ∧
              (showsMemoryURL contents.pending_entry ∨
                showsMemoryURL contents.last_committed_entry)) :=
  diagnostics_flag_only_from_memory_page stateOfS3 recordsBeforeClassification 0
    { pid := 100, type := PROCESS_TYPE_BROWSER, working_set := { priv := 50000 } } rfl rfl

/-! ### The emitter ignores the diagnostics flag -/

theorem updateHistogramsStep_congr (st : HistogramState) (p q : ProcessMemoryInformation)
    (h : histogramKey p = histogramKey q) :
    updateHistogramsStep st p = updateHistogramsStep st q := by
  unfold histogramKey at h
  have h1 : p.type = q.type := congrArg Prod.fst h
  have h2 : p.renderer_type = q.renderer_type := congrArg (fun k => k.2.1) h
  have h3 : p.working_set.priv = q.working_set.priv := congrArg (fun k => k.2.2) h
  unfold updateHistogramsStep
  rw [h1, h2, h3]

theorem foldl_updateHistogramsStep_congr (ps : List ProcessMemoryInformation) :
    ∀ (qs : List ProcessMemoryInformation) (st : HistogramState),
      ps.map histogramKey = qs.map histogramKey →
      ps.foldl updateHistogramsStep st = qs.foldl updateHistogramsStep st := by
  induction ps with
  | nil =>
    intro qs st h
    cases qs with
    | nil => rfl
    | cons q rest => simp at h
  | cons p rest ih =>
    intro qs st h
    cases qs with
    | nil => simp at h
    | cons q rest2 =>
      simp only [List.map_cons, List.cons.injEq] at h
      rw [List.foldl_cons, List.foldl_cons, updateHistogramsStep_congr st p q h.1]
      exact ih rest2 _ h.2

/-- C25: two record sets that agree, record by record, on role, renderer
kind and private working set get the same samples from `UpdateHistograms`,
whatever their diagnostics flags, titles and pids; so the samples of a set
are those of the same set with every diagnostics flag cleared. -/
theorem histograms_ignore_diagnostics (backing_store_memory_size : Nat)
    (ps qs : List ProcessMemoryInformation)
    (hkey : ps.map histogramKey = qs.map histogramKey) :
    UpdateHistograms backing_store_memory_size ps =
      UpdateHistograms backing_store_memory_size qs ∧
    UpdateHistograms backing_store_memory_size
        (ps.map (fun p => { p with is_diagnostics := false })) =
      UpdateHistograms backing_store_memory_size ps := by
  have hmain : ∀ as bs : List ProcessMemoryInformation,
      as.map histogramKey = bs.map histogramKey →
      UpdateHistograms backing_store_memory_size as =
        UpdateHistograms backing_store_memory_size bs := by
    intro as bs h
    have hlen : as.length = bs.length := by
      have := congrArg List.length h
      simpa using this
    have hloop : updateHistogramsLoop as = updateHistogramsLoop bs :=
      foldl_updateHistogramsStep_congr as bs {} h
    unfold UpdateHistograms totalSample
    rw [hloop, hlen]
  refine ⟨hmain ps qs hkey, hmain _ _ ?_⟩
  rw [List.map_map]
  rfl

/-- Scenario S3: the records of S1 with the diagnostics flag set on the
renderer give the samples of S1, Memory.Total = 130 included. -/
theorem histograms_ignore_diagnostics_witness :
    UpdateHistograms 0 recordsOfS1Diagnostics = UpdateHistograms 0 recordsOfS1 :=
  (histograms_ignore_diagnostics 0 recordsOfS1Diagnostics recordsOfS1 (by decide)).1

/-! ### The counts partition the record set -/

theorem one_eq_sum_of_counts (p : ProcessMemoryInformation)
    (hknown : p.type ≠ PROCESS_TYPE_UNKNOWN) (htax : inTaxonomy p.type = true) :
    (1 : Nat) =
      (if countsAsChrome p then 1 else 0) + (if countsAsExtension p then 1 else 0) +
      (if countsAsRenderer p then 1 else 0) + (if countsAsPlugin p then 1 else 0) +
      (if countsAsPepperPlugin p then 1 else 0) + (if countsAsWorker p then 1 else 0) +
      (if countsAsOther p then 1 else 0) + (if isBrowser p then 1 else 0) +
      (if (p.type == PROCESS_TYPE_RENDERER && p.renderer_type == RENDERER_UNKNOWN) then 1
        else 0) := by
  obtain ⟨pid, ws, n, d, titles, type, renderer_type⟩ := p
  cases type
  case PROCESS_TYPE_RENDERER =>
    cases renderer_type <;>
      simp [countsAsChrome, countsAsExtension, countsAsRenderer, countsAsPlugin,
        countsAsPepperPlugin, countsAsWorker, countsAsOther, isBrowser]
  case PROCESS_TYPE_UNKNOWN => exact absurd rfl hknown
  case PROCESS_TYPE_OTHER code => simp [inTaxonomy] at htax
  all_goals
    simp [countsAsChrome, countsAsExtension, countsAsRenderer, countsAsPlugin,
      countsAsPepperPlugin, countsAsWorker, countsAsOther, isBrowser]

theorem length_eq_sum_of_counts (processes : List ProcessMemoryInformation)
    (htax : ∀ p ∈ processes, p.type ≠ PROCESS_TYPE_UNKNOWN ∧ inTaxonomy p.type = true) :
    processes.length =
      processes.countP countsAsChrome + processes.countP countsAsExtension +
      processes.countP countsAsRenderer + processes.countP countsAsPlugin +
      processes.countP countsAsPepperPlugin + processes.countP countsAsWorker +
      processes.countP countsAsOther + processes.countP isBrowser +
      renderersOfKind RENDERER_UNKNOWN processes := by
  induction processes with
  | nil => simp [renderersOfKind]
  | cons p rest ih =>
    have hrest := ih (fun q hq => htax q (List.mem_cons_of_mem _ hq))
    have hp := one_eq_sum_of_counts p (htax p (List.mem_cons_self _ _)).1
      (htax p (List.mem_cons_self _ _)).2
    simp only [renderersOfKind, List.countP_cons, List.length_cons] at hrest ⊢
    omega

/-- C26: for a filtered record set whose roles lie in the closed taxonomy,
the counts emitted by `UpdateHistograms` partition the set:
"Memory.ProcessCount" is the sum of the seven other counts, the number of
Browser records and the number of Renderer records of kind Unknown;
"Memory.RendererProcessCount" counts the Renderer records of kind Normal,
Devtools, Interstitial, Notification and BackgroundApp, and these kinds are
sampled into "Memory.Renderer". The bound on the number of records is that
of the `int` of the sample: the records of a request are the live processes
of one browser, and there are fewer than `2 ^ 31` of them. -/
theorem counts_partition (backing_store_memory_size : Nat)
    (processes : List ProcessMemoryInformation) (hlen : processes.length < 2 ^ 31)
    (htax : ∀ p ∈ processes, p.type ≠ PROCESS_TYPE_UNKNOWN ∧ inTaxonomy p.type = true) :
    ∃ total chrome extension other plugin pepper renderer worker : Int,
      samplesOfKind COUNTS_100 (UpdateHistograms backing_store_memory_size processes) =
        [⟨COUNTS_100, "Memory.ProcessCount", total⟩,
         ⟨COUNTS_100, "Memory.ChromeProcessCount", chrome⟩,
         ⟨COUNTS_100, "Memory.ExtensionProcessCount", extension⟩,
         ⟨COUNTS_100, "Memory.OtherProcessCount", other⟩,
         ⟨COUNTS_100, "Memory.PluginProcessCount", plugin⟩,
         ⟨COUNTS_100, "Memory.PepperPluginProcessCount", pepper⟩,
         ⟨COUNTS_100, "Memory.RendererProcessCount", renderer⟩,
         ⟨COUNTS_100, "Memory.WorkerProcessCount", worker⟩] ∧
      total = chrome + extension + renderer + plugin + pepper + worker + other +
        (processes.countP isBrowser : Nat) +
        (renderersOfKind RENDERER_UNKNOWN processes : Nat) ∧
      renderer = ((renderersOfKind RENDERER_NORMAL processes +
        renderersOfKind RENDERER_DEVTOOLS processes +
        renderersOfKind RENDERER_INTERSTITIAL processes +
        renderersOfKind RENDERER_NOTIFICATION processes +
        renderersOfKind RENDERER_BACKGROUND_APP processes : Nat) : Int) ∧
      sizeHistogramName PROCESS_TYPE_RENDERER RENDERER_DEVTOOLS = some "Memory.Renderer" ∧
      sizeHistogramName PROCESS_TYPE_RENDERER RENDERER_INTERSTITIAL = some "Memory.Renderer" ∧
      sizeHistogramName PROCESS_TYPE_RENDERER RENDERER_NOTIFICATION = some "Memory.Renderer" ∧
      sizeHistogramName PROCESS_TYPE_RENDERER RENDERER_BACKGROUND_APP =
        some "Memory.Renderer" := by
  refine ⟨_, _, _, _, _, _, _, _, samplesOfKind_counts backing_store_memory_size processes,
    ?_, ?_, rfl, rfl, rfl, rfl⟩
  · rw [toInt32_of_lt _ hlen]
    have h := length_eq_sum_of_counts processes htax
    exact_mod_cast h
  · exact_mod_cast countP_countsAsRenderer processes

/-- Scenario S1: two records, a browser and a normal renderer. -/
theorem counts_partition_witness :
    ∃ total chrome extension other plugin pepper renderer worker : Int,
      samplesOfKind COUNTS_100 (UpdateHistograms 0 recordsOfS1) =
        [⟨COUNTS_100, "Memory.ProcessCount", total⟩,
         ⟨COUNTS_100, "Memory.ChromeProcessCount", chrome⟩,
         ⟨COUNTS_100, "Memory.ExtensionProcessCount", extension⟩,
         ⟨COUNTS_100, "Memory.OtherProcessCount", other⟩,
         ⟨COUNTS_100, "Memory.PluginProcessCount", plugin⟩,
         ⟨COUNTS_100, "Memory.PepperPluginProcessCount", pepper⟩,
         ⟨COUNTS_100, "Memory.RendererProcessCount", renderer⟩,
         ⟨COUNTS_100, "Memory.WorkerProcessCount", worker⟩] ∧
      total = chrome + extension + renderer + plugin + pepper + worker + other +
        (recordsOfS1.countP isBrowser : Nat) +
        (renderersOfKind RENDERER_UNKNOWN recordsOfS1 : Nat) :=
  (counts_partition 0 recordsOfS1 (by decide) (by decide)).imp
    (fun _ h => h.imp (fun _ h => h.imp (fun _ h => h.imp (fun _ h => h.imp (fun _ h =>
      h.imp (fun _ h => h.imp (fun _ h => h.imp (fun _ h => ⟨h.1, h.2.1⟩))))))))

end MemoryDetails

namespace ExtensionIconSource

theorem toMatchType_eq (deps : Deps) (match_num : Int) :
    toMatchType deps match_num =
      if match_num = deps.MATCH_EXACTLY ∨ match_num = deps.MATCH_SMALLER ∨
          match_num = deps.MATCH_BIGGER then match_num
      else deps.MATCH_EXACTLY := by
  unfold toMatchType
  by_cases h : match_num = deps.MATCH_EXACTLY ∨ match_num = deps.MATCH_SMALLER ∨
      match_num = deps.MATCH_BIGGER
  · rw [if_pos h]
    rcases h with h | h | h <;> simp [h]
  · rw [if_neg h]
    push_neg at h
    simp [h.1, h.2.1, h.2.2]

theorem parseData_cases (deps : Deps) (request_map : RequestMap) (path : String)
    (request_id : Int) (callback : GotDataCallback) :
    ParseData deps request_map path request_id callback = (false, request_map) ∨
    ∃ extension size match_num,
      deps.GetInstalledExtension
        ((deps.SplitString (StringToLowerASCII path) '/').getD 0 "") = some extension ∧
      deps.StringToInt ((deps.SplitString (StringToLowerASCII path) '/').getD 1 "") =
        some size ∧
      deps.StringToInt (truncateAtQuestionMark
        ((deps.SplitString (StringToLowerASCII path) '/').getD 2 "")) = some match_num ∧
      ParseData deps request_map path request_id callback =
        (true, SetData request_map request_id callback extension
          (containsGrayscale (StringToLowerASCII path)) size (toMatchType deps match_num)) := by
  unfold ParseData
  simp only
  split
  · exact Or.inl rfl
  · split
    · exact Or.inl rfl
    · rename_i size hsize
      split
      · exact Or.inl rfl
      · split
        · exact Or.inl rfl
        · rename_i match_num hmatch
          split
          · exact Or.inl rfl
          · rename_i extension hext
            exact Or.inr ⟨extension, size, match_num, hext, hsize, hmatch, rfl⟩

theorem parseData_false_unchanged (deps : Deps) (request_map : RequestMap) (path : String)
    (request_id : Int) (callback : GotDataCallback)
    (h : (ParseData deps request_map path request_id callback).1 = false) :
    (ParseData deps request_map path request_id callback).2 = request_map := by
  rcases parseData_cases deps request_map path request_id callback with hc | ⟨_, _, _, _, _, _, hc⟩
  · rw [hc]
  · rw [hc] at h
    cases h

theorem stringToLowerASCII_empty (path : String)
    (h : (StringToLowerASCII path).data.isEmpty = true) : StringToLowerASCII path = "" := by
  have hd : (StringToLowerASCII path).data = [] := by simpa using h
  exact String.ext hd

theorem parseData_true_iff (deps : Deps) (hsplit : (deps.SplitString "" '/').length < 3)
    (request_map : RequestMap) (path : String) (request_id : Int)
    (callback : GotDataCallback) :
    (ParseData deps request_map path request_id callback).1 = true ↔
      wellFormedPath deps path := by
  unfold ParseData wellFormedPath
  simp only
  constructor
  · intro h
    split at h
    · simp at h
    · rename_i h1
      simp only [Bool.or_eq_true, decide_eq_true_eq, not_or, not_lt] at h1
      split at h
      · simp at h
      · rename_i size hsize
        split at h
        · simp at h
        · rename_i h3
          simp only [Bool.or_eq_true, decide_eq_true_eq, not_or, not_le, not_lt] at h3
          split at h
          · simp at h
          · rename_i match_num hmatch
            split at h
            · simp at h
            · rename_i extension hext
              exact ⟨h1.2, ⟨size, hsize, h3.1, h3.2⟩, ⟨match_num, hmatch⟩, ⟨extension, hext⟩⟩
  · rintro ⟨hparts, ⟨size, hsize, hpos, hmax⟩, ⟨match_num, hmatch⟩, ⟨extension, hext⟩⟩
    have hne : (StringToLowerASCII path).data.isEmpty = false := by
      cases hc : (StringToLowerASCII path).data.isEmpty
      · rfl
      · rw [stringToLowerASCII_empty path hc] at hparts
        omega
    have h1 : ¬((StringToLowerASCII path).data.isEmpty ||
        decide ((deps.SplitString (StringToLowerASCII path) '/').length < 3)) = true := by
      simp [hne]
      omega
    have h3 : ¬(decide (size ≤ 0) || decide (size > deps.EXTENSION_ICON_GIGANTOR)) = true := by
      simp
      omega
    rw [if_neg h1, hsize]
    simp only
    rw [if_neg h3, hmatch]
    simp only
    rw [hext]

/-- C27: `ParseData` returns true exactly for the paths that are well formed
in the sense of the specification (given that `base::SplitString` yields
fewer than three parts for the empty string); on success the request is
stored under the request id with the parsed size and the match type, where
a match number that is none of `MATCH_EXACTLY`, `MATCH_SMALLER` and
`MATCH_BIGGER` is replaced by `MATCH_EXACTLY`; on failure the request map is
unchanged. -/
theorem parse_data_contract (deps : Deps) (hsplit : (deps.SplitString "" '/').length < 3)
    (request_map : RequestMap) (path : String) (request_id : Int)
    (callback : GotDataCallback) :
    ((ParseData deps request_map path request_id callback).1 = true ↔
      wellFormedPath deps path) ∧
    ((ParseData deps request_map path request_id callback).1 = true →
      ∃ extension size match_num,
        deps.GetInstalledExtension
          ((deps.SplitString (StringToLowerASCII path) '/').getD 0 "") = some extension ∧
        deps.StringToInt ((deps.SplitString (StringToLowerASCII path) '/').getD 1 "") =
          some size ∧
        deps.StringToInt (truncateAtQuestionMark
          ((deps.SplitString (StringToLowerASCII path) '/').getD 2 "")) = some match_num ∧
        (ParseData deps request_map path request_id callback).2 =
          SetData request_map request_id callback extension
            (containsGrayscale (StringToLowerASCII path)) size
            (if match_num = deps.MATCH_EXACTLY ∨ match_num = deps.MATCH_SMALLER ∨
                match_num = deps.MATCH_BIGGER then match_num
             else deps.MATCH_EXACTLY)) ∧
    ((ParseData deps request_map path request_id callback).1 = false →
      (ParseData deps request_map path request_id callback).2 = request_map) := by
  refine ⟨parseData_true_iff deps hsplit request_map path request_id callback, ?_,
    parseData_false_unchanged deps request_map path request_id callback⟩
  intro htrue
  rcases parseData_cases deps request_map path request_id callback with
    hc | ⟨extension, size, match_num, hext, hsize, hmatch, hc⟩
  · rw [hc] at htrue
    cases htrue
  · refine ⟨extension, size, match_num, hext, hsize, hmatch, ?_⟩
    rw [hc, toMatchType_eq]

/-- The path "ABC/16/7" with "abc" installed: the request is accepted, with
size 16 and the match number 7 replaced by `MATCH_EXACTLY`. -/
theorem parse_data_contract_witness :
    (ParseData sampleDeps (fun _ => none) "ABC/16/7" 1 0).1 = true ∧
    ((ParseData sampleDeps (fun _ => none) "ABC/16/7" 1 0).2 1).map
      (fun request => (request.size, request.match_type)) = some (16, 0) :=
  ⟨(parse_data_contract sampleDeps (by decide) (fun _ => none) "ABC/16/7" 1 0).1.mpr
      ⟨by decide, ⟨16, by decide, by decide, by decide⟩, ⟨7, by decide⟩, ⟨⟨"abc"⟩, by decide⟩⟩,
    by decide⟩

end ExtensionIconSource

namespace SSLBlockingPage

theorem setExtraInfo_of_le_five (extra_info : List String) (h : extra_info.length ≤ 5) :
    (SetExtraInfo [] extra_info).strings = some (expectedExtraInfo extra_info) := by
  match extra_info, h with
  | [], _ => decide
  | [a], _ => simp [SetExtraInfo, setParagraphs, clearRemainingKeys, keys, SetString, WideToUTF16Hack,
      expectedExtraInfo]
  | [a, b], _ => simp [SetExtraInfo, setParagraphs, clearRemainingKeys, keys, SetString, WideToUTF16Hack,
      expectedExtraInfo]
  | [a, b, c], _ => simp [SetExtraInfo, setParagraphs, clearRemainingKeys, keys, SetString, WideToUTF16Hack,
      expectedExtraInfo]
  | [a, b, c, d], _ => simp [SetExtraInfo, setParagraphs, clearRemainingKeys, keys, SetString, WideToUTF16Hack,
      expectedExtraInfo]
  | [a, b, c, d, e], _ => simp [SetExtraInfo, setParagraphs, clearRemainingKeys, keys,
      SetString, WideToUTF16Hack, expectedExtraInfo]
  | _ :: _ :: _ :: _ :: _ :: _ :: _, h => simp at h

/-- C28, at five paragraphs: the loops of `SetExtraInfo` store the five
paragraphs under the five keys and use no index outside the array, but the
condition of its `DCHECK`, `extra_info.size() < 5`, does not hold. -/
theorem five_paragraphs_fail_dcheck :
    fiveParagraphs.length = 5 ∧
    (SetExtraInfo [] fiveParagraphs).dcheck_holds = false ∧
    (SetExtraInfo [] fiveParagraphs).strings =
      some [("moreInfo1", "first"), ("moreInfo2", "second"), ("moreInfo3", "third"),
            ("moreInfo4", "fourth"), ("moreInfo5", "fifth")] := by
  refine ⟨?_, ?_, ?_⟩ <;> decide

end SSLBlockingPage

namespace InputMethodUtil

theorem getInputMethodIds_fold (entries : List (String × String)) (state : Bool × List String) :
    (entries.foldl
      (fun state entry =>
        let input_method_id := entry.2
        if InputMethodType.kAllInputMethods = InputMethodType.kAllInputMethods ||
            IsKeyboardLayout input_method_id then
          (true, state.2 ++ [input_method_id])
        else
          state)
      state).2 = state.2 ++ entries.map (fun entry => entry.2) := by
  induction entries generalizing state with
  | nil => simp
  | cons entry rest ih =>
    rw [List.foldl_cons, ih]
    simp

/-- With the type `kAllInputMethods` the output vector holds the ids
associated with the language code, in the order of the multimap. -/
theorem getInputMethodIds_all (maps : IdMaps) (language_code : String) :
    (GetInputMethodIdsFromLanguageCode maps language_code InputMethodType.kAllInputMethods).2 =
      associatedIds maps language_code := by
  unfold GetInputMethodIdsFromLanguageCode GetInputMethodIdsFromLanguageCodeInternal
    associatedIds equal_range
  rw [getInputMethodIds_fold, List.nil_append]
  congr 2

/-- The loop ends with one of the ids it went through, or with the id it
started with when that one is not empty or there is no id to go through. -/
theorem findMostPopularId_mem (maps : IdMaps) (current_input_method : InputMethodDescriptor)
    (input_method_ids : List String) (most_popular_id : String) :
    findMostPopularId maps current_input_method input_method_ids most_popular_id ∈
        input_method_ids ∨
      (findMostPopularId maps current_input_method input_method_ids most_popular_id =
          most_popular_id ∧
        (most_popular_id = "" → input_method_ids = [])) := by
  induction input_method_ids generalizing most_popular_id with
  | nil => exact Or.inr ⟨rfl, fun _ => rfl⟩
  | cons input_method_id rest ih =>
    have hrest : findMostPopularId maps current_input_method rest
          (if most_popular_id = "" then input_method_id else most_popular_id) ∈
          input_method_id :: rest ∨
        (findMostPopularId maps current_input_method rest
            (if most_popular_id = "" then input_method_id else most_popular_id) =
            most_popular_id ∧
          (most_popular_id = "" → input_method_id :: rest = [])) := by
      rcases ih (if most_popular_id = "" then input_method_id else most_popular_id) with
        h | ⟨h, _⟩
      · exact Or.inl (List.mem_cons_of_mem _ h)
      · by_cases he : most_popular_id = ""
        · rw [if_pos he] at h
          rw [if_pos he, h]
          exact Or.inl (List.mem_cons_self _ _)
        · rw [if_neg he] at h
          rw [if_neg he]
          exact Or.inr ⟨h, fun h0 => absurd h0 he⟩
    unfold findMostPopularId
    simp only
    split
    · split
      · exact Or.inl (List.mem_cons_self _ _)
      · exact hrest
    · exact hrest

/-- The output of `GetFirstLoginInputMethodIds` for every input: the current
id comes first, there are one or two ids, the two are distinct, and the
second is an id associated with the language code, or the empty string when
no id is associated with it. -/
theorem firstLoginInputMethodIds_shape (maps : IdMaps) (language_code : String)
    (current_input_method : InputMethodDescriptor) :
    GetFirstLoginInputMethodIds maps language_code current_input_method =
        [current_input_method.id] ∨
      ∃ second, GetFirstLoginInputMethodIds maps language_code current_input_method =
          [current_input_method.id, second] ∧ second ≠ current_input_method.id ∧
        (second ∈ associatedIds maps language_code ∨
          (second = "" ∧ associatedIds maps language_code = [])) := by
  unfold GetFirstLoginInputMethodIds
  simp only
  rw [getInputMethodIds_all]
  split
  · rename_i hne
    refine Or.inr ⟨_, rfl, hne, ?_⟩
    rcases findMostPopularId_mem maps current_input_method
        (associatedIds maps language_code) "" with h | ⟨h, hnil⟩
    · exact Or.inl h
    · exact Or.inr ⟨h, hnil rfl⟩
  · exact Or.inl rfl

/-- C29, where the code leaves the claim: when no input method is associated
with the language code and the id of the current input method is not empty,
`GetFirstLoginInputMethodIds` outputs the current id followed by the empty
string, which is no id associated with the language code. -/
theorem empty_id_without_input_methods (maps : IdMaps) (language_code : String)
    (current_input_method : InputMethodDescriptor)
    (hnone : associatedIds maps language_code = [])
    (hcurrent : current_input_method.id ≠ "") :
    GetFirstLoginInputMethodIds maps language_code current_input_method =
        [current_input_method.id, ""] ∧
      "" ∉ associatedIds maps language_code := by
  constructor
  · unfold GetFirstLoginInputMethodIds
    simp only
    rw [getInputMethodIds_all, hnone]
    unfold findMostPopularId
    rw [if_pos (Ne.symm hcurrent)]
    rfl
  · rw [hnone]
    exact List.not_mem_nil _

/-- The language code "xx" without input methods and the US keyboard as the
current input method: the output is the id of the keyboard and the empty
string. -/
theorem empty_id_without_input_methods_witness :
    associatedIds emptyMaps "xx" = [] ∧ usKeyboard.id ≠ "" ∧
    GetFirstLoginInputMethodIds emptyMaps "xx" usKeyboard = ["xkb:us::eng", ""] :=
  ⟨by decide, by decide,
    (empty_id_without_input_methods emptyMaps "xx" usKeyboard (by decide) (by decide)).1⟩

/-- The Japanese example of the comment of the function: with the US keyboard
as the current input method, `mozc` is picked, not the more popular
`mozc-jp`. -/
theorem firstLoginInputMethodIds_mozc :
    GetFirstLoginInputMethodIds mozcMaps "ja" usKeyboard = ["xkb:us::eng", "mozc"] := by
  decide

theorem upcase_fold (suffix : List Char) :
    ∀ before : List Char,
      (List.range' before.length suffix.length).foldl
          (fun copied i => copied.set i (ToUpperASCII (copied.getD i ' ')))
          (before ++ suffix) =
        before ++ suffix.map ToUpperASCII := by
  induction suffix with
  | nil => intro before; simp
  | cons c rest ih =>
    intro before
    have hstep : (before ++ c :: rest).set before.length
        (ToUpperASCII ((before ++ c :: rest).getD before.length ' ')) =
        (before ++ [ToUpperASCII c]) ++ rest := by
      have hget : (before ++ c :: rest).getD before.length ' ' = c := by
        rw [List.getD_eq_getElem?_getD, List.getElem?_append_right (Nat.le_refl _)]
        simp
      rw [hget]
      simp
    rw [List.length_cons, List.range'_succ, List.foldl_cons, hstep]
    have hlen : before.length + 1 = (before ++ [ToUpperASCII c]).length := by simp
    rw [hlen, ih (before ++ [ToUpperASCII c])]
    simp

/-- The first branch of `NormalizeLanguageCode` in closed form. -/
theorem normalizeLanguageCode_locale (uloc_getLanguage : String → Option String)
    (c0 c1 : Char) (rest : List Char) (h : 2 ≤ rest.length) :
    NormalizeLanguageCode uloc_getLanguage ⟨c0 :: c1 :: '_' :: rest⟩ =
      ⟨MemoryDetails.ToLowerASCII c0 :: MemoryDetails.ToLowerASCII c1 :: '-' ::
        rest.map ToUpperASCII⟩ := by
  unfold NormalizeLanguageCode
  have hcond : 5 ≤ (c0 :: c1 :: '_' :: rest).length ∧
      (c0 :: c1 :: '_' :: rest)[2]? = some '_' := by
    constructor
    · simp only [List.length_cons]; omega
    · simp
  rw [if_pos hcond]
  simp only
  congr 1
  have hdown : downcaseLanguagePart ((c0 :: c1 :: '_' :: rest).set 2 '-') =
      [MemoryDetails.ToLowerASCII c0, MemoryDetails.ToLowerASCII c1, '-'] ++ rest := by
    simp [downcaseLanguagePart, List.range_succ]
  rw [hdown]
  unfold upcaseCountryPart
  have hlen : ([MemoryDetails.ToLowerASCII c0, MemoryDetails.ToLowerASCII c1, '-'] ++
      rest).length - 3 = rest.length := by simp
  rw [hlen]
  exact upcase_fold rest [MemoryDetails.ToLowerASCII c0, MemoryDetails.ToLowerASCII c1, '-']
/-- A code that is neither a locale code nor of length 3 is returned
unchanged. -/
theorem normalizeLanguageCode_unchanged (uloc_getLanguage : String → Option String)
    (language_code : String) (hlength : language_code.data.length ≠ 3)
    (hshape : ¬ isLocaleCode language_code) :
    NormalizeLanguageCode uloc_getLanguage language_code = language_code := by
  unfold NormalizeLanguageCode
  unfold isLocaleCode at hshape
  rw [if_neg hshape, if_pos hlength]

/-- A locale code is a code `c0 c1 _ rest` with at least two characters in
`rest`. -/
theorem isLocaleCode_cases (language_code : String) (h : isLocaleCode language_code) :
    ∃ c0 c1 rest, 2 ≤ rest.length ∧ language_code = ⟨c0 :: c1 :: '_' :: rest⟩ := by
  obtain ⟨data⟩ := language_code
  obtain ⟨hlen, hchar⟩ := h
  match data, hlen, hchar with
  | c0 :: c1 :: c2 :: rest, hlen, hchar =>
    simp only [List.length_cons] at hlen
    simp at hchar
    exact ⟨c0, c1, rest, by omega, by rw [hchar]⟩

/-- C30: for every locale code (at least five characters, `_` at index 2)
`NormalizeLanguageCode` returns a string of the same length with `-` at index
2, the characters at the indices 0 and 1 ASCII-lowercased and every character
from index 3 on ASCII-uppercased, and normalising the result again changes
nothing; every code whose length is not 3 and that is no locale code is
returned unchanged. -/
theorem normalize_language_code (uloc_getLanguage : String → Option String)
    (language_code : String) :
    (isLocaleCode language_code →
      (NormalizeLanguageCode uloc_getLanguage language_code).data.length =
          language_code.data.length ∧
        (NormalizeLanguageCode uloc_getLanguage language_code).data[2]? = some '-' ∧
        (∀ i, i < 2 →
          (NormalizeLanguageCode uloc_getLanguage language_code).data[i]? =
            language_code.data[i]?.map MemoryDetails.ToLowerASCII) ∧
        (∀ i, 3 ≤ i →
          (NormalizeLanguageCode uloc_getLanguage language_code).data[i]? =
            language_code.data[i]?.map ToUpperASCII) ∧
        NormalizeLanguageCode uloc_getLanguage
            (NormalizeLanguageCode uloc_getLanguage language_code) =
          NormalizeLanguageCode uloc_getLanguage language_code) ∧
    (language_code.data.length ≠ 3 → ¬ isLocaleCode language_code →
      NormalizeLanguageCode uloc_getLanguage language_code = language_code) := by
  refine ⟨fun hlocale => ?_,
    normalizeLanguageCode_unchanged uloc_getLanguage language_code⟩
  obtain ⟨c0, c1, rest, hrest, rfl⟩ := isLocaleCode_cases language_code hlocale
  rw [normalizeLanguageCode_locale uloc_getLanguage c0 c1 rest hrest]
  refine ⟨by simp, by simp, ?_, ?_, ?_⟩
  · intro i hi
    match i, hi with
    | 0, _ => simp
    | 1, _ => simp
  · intro i hi
    obtain ⟨j, rfl⟩ : ∃ j, i = j + 3 := ⟨i - 3, by omega⟩
    simp
  · apply normalizeLanguageCode_unchanged
    · simp only [List.length_cons, List.length_map]
      omega
    · intro hshape
      have hchar := hshape.2
      simp at hchar

/-- The locale code "zh_CN" is normalised to "zh-CN", and the code "en", of
length 2, is returned unchanged. -/
theorem normalize_language_code_witness :
    isLocaleCode "zh_CN" ∧
    (NormalizeLanguageCode (fun _ => none) "zh_CN").data.length = 5 ∧
    NormalizeLanguageCode (fun _ => none) "zh_CN" = "zh-CN" ∧
    NormalizeLanguageCode (fun _ => none) "en" = "en" :=
  ⟨by decide,
    ((normalize_language_code (fun _ => none) "zh_CN").1 (by decide)).1,
    by decide,
    (normalize_language_code (fun _ => none) "en").2 (by decide) (by decide)⟩

end InputMethodUtil
